import Mathlib

/-!
# Placement load test: the lifecycle prober of `hack/loadtest/util/placement.go`

A shallow embedding of `MeasureOnePlacement` and of its three poll loops
(`waitForCRPAvailable`, `resourcesDeletedCheck`, `waitForCrpToCompleteUpdate`).

Modelling conventions.

* A Go `error` is an `Option Err`; `none` is `nil`.
* The process-wide `atomic.Int32` counters are integers incremented by `inc32`,
  which wraps at the 32-bit boundary as `atomic.Int32.Inc` does.  A Prometheus
  `CounterVec` is the list of label tuples on which `Inc` was called (newest
  first); a `Summary` is the list of observed samples (newest first).
* The blocking `select` over `timer.C` and `ticker.C` is driven by an explicit
  list of events: each event says which case the `select` took, and a tick
  carries what the calls made in its body returned.  A poll loop that runs out of
  events without returning yields `none` (it is still waiting).
* Durations and clock readings are integers (nanoseconds of the monotonic clock).
  A latency sample is kept as the duration itself; the source turns it into
  seconds and, for the label, formats it with three decimals.
* The hub client is an external collaborator: what its calls return is supplied
  by the environment `Env`.  A failed `Get` leaves the destination variable as it
  was, a successful one replaces it by the fetched object.
* Effects (client calls, helper calls and log lines) are recorded newest first in
  `State.trace`.
-/

namespace LoadTest

/-- A non-nil Go error, identified by its message. -/
abbrev Err := String

/-- The `ClusterNames` slice of the load test (a nil slice is the empty list). -/
abbrev ClusterNames := List String

/-- Modelled from the spec: the status condition of section 3, a tuple of type name,
status and observedGeneration (`metav1.Condition`, declared outside the shown sources).
The status is the string `"True"`, `"False"` or `"Unknown"`. -/
structure Condition where
  type : String
  status : String
  observedGeneration : Int
deriving DecidableEq, Repr

/-- Modelled from the spec: the placement object of section 3
(`v1beta1.ClusterResourcePlacement`, declared outside the shown sources), reduced to
the fields the prober reads: the generation, the named status conditions, the selected
resources of the status and the per-cluster placement statuses (cluster names). -/
structure ClusterResourcePlacement where
  generation : Int
  conditions : List Condition
  selectedResources : List String
  placementStatuses : List String
deriving DecidableEq, Repr

/-- Modelled from the spec: the per-cluster work object of the glossary
(`v1beta1.Work`, declared outside the shown sources), reduced to the manifest
conditions of its status. -/
structure Work where
  manifestConditions : List String
deriving DecidableEq, Repr

/-- The zero value of `var crp v1beta1.ClusterResourcePlacement`. -/
def zeroCRP : ClusterResourcePlacement :=
  { generation := 0, conditions := [], selectedResources := [], placementStatuses := [] }

/-- Modelled from the spec: `metav1.ConditionTrue`, the status value True of section 3. -/
def ConditionTrue : String := "True"

/-- Modelled from the spec: `metav1.ConditionFalse`, the status value False of section 3. -/
def ConditionFalse : String := "False"

/-- Modelled from the spec: `v1beta1.ClusterResourcePlacementAvailableConditionType`,
the availability condition of section 4.3 (the constant is declared outside the shown
sources). -/
def ClusterResourcePlacementAvailableConditionType : String := "Available"

/-- Modelled from the spec: `v1beta1.ClusterResourcePlacementAppliedConditionType`,
the applied condition of section 4.3. -/
def ClusterResourcePlacementAppliedConditionType : String := "Applied"

/-- Modelled from the spec: `v1beta1.ClusterResourcePlacementWorkSynchronizedConditionType`,
the work-synchronized condition of section 4.3. -/
def ClusterResourcePlacementWorkSynchronizedConditionType : String := "WorkSynchronized"

/-- Modelled from the spec: `v1beta1.ClusterResourcePlacementScheduledConditionType`,
the scheduled condition of section 4.3. -/
def ClusterResourcePlacementScheduledConditionType : String := "Scheduled"

/-- Modelled from the spec: `crp.GetCondition(conditionType)`, the named status
condition of the placement object (section 3): the condition of that type name when
the object carries one, absent (nil) otherwise. -/
def ClusterResourcePlacement.GetCondition (crp : ClusterResourcePlacement)
    (conditionType : String) : Option Condition :=
  crp.conditions.find? (fun c => c.type == conditionType)

/-- Modelled from the spec: `condition.IsConditionStatusTrue` of section 4.1.  A
condition is True iff it is present, its observedGeneration equals the current
generation and its status field equals True. -/
def IsConditionStatusTrue (cond : Option Condition) (latestGeneration : Int) : Bool :=
  match cond with
  | none => false
  | some c => c.status == ConditionTrue && c.observedGeneration == latestGeneration

/-- Modelled from the spec: `condition.IsConditionStatusFalse` of section 4.1.  A
condition is False iff it is present, its observedGeneration equals the current
generation and its status field equals False. -/
def IsConditionStatusFalse (cond : Option Condition) (latestGeneration : Int) : Bool :=
  match cond with
  | none => false
  | some c => c.status == ConditionFalse && c.observedGeneration == latestGeneration

/-- The constant `crpPrefix`. -/
def crpPrefix : String := "load-test-placement-"

/-- The constant `nsPrefix`. -/
def nsPrefix : String := "load-test-ns-"

/-- The method `Inc` of `atomic.Int32`: add one, wrapping at the 32-bit boundary. -/
def inc32 (x : Int) : Int :=
  if x = 2147483647 then -2147483648 else x + 1

/-- The package-level metric variables of `placement.go`. -/
structure Metrics where
  crpCount : Int
  applySuccessCount : Int
  applyFailCount : Int
  applyTimeoutCount : Int
  LoadTestApplyCountMetric : List (String × String × String)
  applyQuantile : List Int
  ApplyLatencyCountMetric : List (String × String × Int)
  updateSuccessCount : Int
  updateFailCount : Int
  updateTimeoutCount : Int
  LoadTestUpdateCountMetric : List (String × String × String)
  updateQuantile : List Int
  UpdateLatencyCountMetric : List (String × String × Int)
deriving DecidableEq, Repr

/-- The log lines of `placement.go`, one constructor per klog call site (the source
line is given with each). -/
inductive Log where
  /-- Line 98. -/
  | failedToDeleteNamespace
  /-- Line 101. -/
  | createResourcesInNamespace
  /-- Line 103. -/
  | failedToApplyNamespacedResources
  /-- Line 108. -/
  | createPlacement
  /-- Line 111. -/
  | failedToCreateCrp
  /-- Line 117. -/
  | failedToApplyCrp
  /-- Line 124. -/
  | verifyApplied
  /-- Line 132. -/
  | removeNamespacedResources
  /-- Line 134. -/
  | placementFailed
  /-- Line 142. -/
  | verifyUpdated
  /-- Line 162. -/
  | applyTimeout
  /-- Lines 169, 216, 256 and 270. -/
  | failedToGetCrp
  /-- Line 175. -/
  | applySucceeded
  /-- Line 178. -/
  | failedToGetFleetSize
  /-- Line 187. -/
  | applyFailedTryingAgain
  /-- Line 189. -/
  | applyPending
  /-- Line 198. -/
  | verifyDeleted
  /-- Line 211. -/
  | deleteTimeout
  /-- Line 221. -/
  | notPickedUp
  /-- Line 230. -/
  | notRemovedByMemberAgent (clusterName : String)
  /-- Line 237. -/
  | deleteSucceeded
  /-- Line 263. -/
  | updateTimeout
  /-- Line 275. -/
  | updateSucceeded
  /-- Line 284. -/
  | updateFailedTryAgain
  /-- Line 286. -/
  | updatePending
deriving DecidableEq, Repr

/-- The observable effects of a run other than metric updates: log lines, the
helper calls, the writing calls on the hub client and the clock reading of line 130,
which is recorded so that its place among the calls of the run can be stated. -/
inductive Effect where
  | log (l : Log)
  /-- Line 102, `applyTestManifests(ctx, hubClient, nsName)`. -/
  | applyTestManifests (nsName : String)
  /-- Line 110, `createCRP(crp, crpFile, crpName, nsName, *useTestResources)`. -/
  | createCRP (crpName : String)
  /-- Line 116, `hubClient.Create(ctx, crp)`. -/
  | hubCreate (crpName : String)
  /-- Line 130, `deletionStartTime := time.Now()`, with the clock reading it takes. -/
  | timeNow (reading : Int)
  /-- Line 133, `deleteTestManifests(ctx, hubClient, nsName)`. -/
  | deleteTestManifests (nsName : String)
  /-- Line 145, `hubClient.Delete(ctx, crp)`. -/
  | hubDelete (crpName : String)
  /-- Line 115, the deferred `hubClient.Delete(context.Background(), crp)`. -/
  | hubDeleteDeferred (crpName : String)
  /-- Line 97, the deferred `deleteNamespace(context.Background(), hubClient, nsName)`. -/
  | deleteNamespace (nsName : String)
deriving DecidableEq, Repr

/-- What a run acts on: the metric variables, the placement objects held by the hub
(by name) and the effects performed so far, newest first. -/
structure State where
  metrics : Metrics
  store : List String
  trace : List Effect
deriving DecidableEq, Repr

/-- Record one effect. -/
def State.emit (s : State) (e : Effect) : State :=
  { s with trace := e :: s.trace }

/-- Record one log line. -/
def State.logLine (s : State) (l : Log) : State :=
  s.emit (Effect.log l)

/-- The case taken by one `select` over `timer.C` and `ticker.C`. -/
inductive PollEvent (α : Type) where
  /-- The `case <-timer.C`. -/
  | deadline
  /-- The `case <-ticker.C`, with what the calls of its body return. -/
  | tick (a : α)
deriving DecidableEq, Repr

/-- What the body of a tick of `waitForCRPAvailable` or `waitForCrpToCompleteUpdate`
observes: the result of `hubClient.Get` on the placement (`none` when it returns an
error) and the clock reading that `time.Since` uses on this tick. -/
structure Tick where
  now : Int
  fetch : Option ClusterResourcePlacement
deriving DecidableEq, Repr

/-- What the body of a tick of `resourcesDeletedCheck` observes: the result of
`hubClient.Get` on the placement and, for the work objects, the result of
`hubClient.Get` by object name and namespace (`none` when it returns an error). -/
structure RemovalTick where
  fetch : Option ClusterResourcePlacement
  works : String → String → Option Work

/-- One iteration of the loop of `waitForCrpToCompleteUpdate`: the result of the
`hubClient.Get` at the head of the iteration (line 255) and the case the `select`
then takes. -/
structure UpdateIter where
  top : Option ClusterResourcePlacement
  sel : PollEvent Tick
deriving DecidableEq, Repr

/-- The collaborators of one run that the shown sources do not define, and what they
return during the run. -/
structure Env where
  /-- The result of `utilrand.String(10)` for the placement name. -/
  randCrp : String
  /-- The result of `utilrand.String(10)` for the namespace name. -/
  randNs : String
  /-- The helper `getFleetSize(crp, clusterNames)`, defined outside the shown sources. -/
  getFleetSize : ClusterResourcePlacement → ClusterNames → String × ClusterNames × Option Err
  /-- The namespace `fmt.Sprintf(utils.NamespaceNameFormat, clusterName)`. -/
  namespaceOf : String → String
  /-- The result of `applyTestManifests`. -/
  applyTestManifests : Option Err
  /-- The result of `createCRP`. -/
  createCRP : Option Err
  /-- The result of `hubClient.Create(ctx, crp)`. -/
  create : Option Err
  /-- The reading `startTime := time.Now()` of `waitForCRPAvailable`. -/
  startTime : Int
  /-- The events of the loop of `waitForCRPAvailable`. -/
  applyEvents : List (PollEvent Tick)
  /-- The reading `deletionStartTime := time.Now()` of line 130. -/
  deletionStartTime : Int
  /-- The result of `deleteTestManifests`. -/
  deleteTestManifests : Option Err
  /-- The events of the loop of `resourcesDeletedCheck`. -/
  removalEvents : List (PollEvent RemovalTick)
  /-- The iterations of the loop of `waitForCrpToCompleteUpdate`. -/
  updateEvents : List UpdateIter
  /-- The result of the `hubClient.Delete(ctx, crp)` of line 145. -/
  delete : Option Err
  /-- The result of the deferred `deleteNamespace`. -/
  deleteNamespace : Option Err

/-- Lines 163-164: the apply outcome "timeout". -/
def recordApplyTimeout (currency fleetSize : String) (s : State) : State :=
  { s with metrics :=
      { s.metrics with
        LoadTestApplyCountMetric := (currency, fleetSize, "timeout") :: s.metrics.LoadTestApplyCountMetric
        applyTimeoutCount := inc32 s.metrics.applyTimeoutCount } }

/-- Lines 181-184: the apply outcome "succeed" with its latency sample. -/
def recordApplySuccess (currency fleetSize : String) (endTime : Int) (s : State) : State :=
  { s with metrics :=
      { s.metrics with
        applyQuantile := endTime :: s.metrics.applyQuantile
        ApplyLatencyCountMetric := (currency, fleetSize, endTime) :: s.metrics.ApplyLatencyCountMetric
        LoadTestApplyCountMetric := (currency, fleetSize, "succeed") :: s.metrics.LoadTestApplyCountMetric
        applySuccessCount := inc32 s.metrics.applySuccessCount } }

/-- Lines 118-119: the apply outcome "failed". -/
def recordApplyFailed (currency fleetSize : String) (s : State) : State :=
  { s with metrics :=
      { s.metrics with
        LoadTestApplyCountMetric := (currency, fleetSize, "failed") :: s.metrics.LoadTestApplyCountMetric
        applyFailCount := inc32 s.metrics.applyFailCount } }

/-- Lines 264-265: the update outcome "timeout". -/
def recordUpdateTimeout (currency fleetSize : String) (s : State) : State :=
  { s with metrics :=
      { s.metrics with
        LoadTestUpdateCountMetric := (currency, fleetSize, "timeout") :: s.metrics.LoadTestUpdateCountMetric
        updateTimeoutCount := inc32 s.metrics.updateTimeoutCount } }

/-- Lines 277-280: the update outcome "succeed" with its latency sample. -/
def recordUpdateSuccess (currency fleetSize : String) (endTime : Int) (s : State) : State :=
  { s with metrics :=
      { s.metrics with
        updateQuantile := endTime :: s.metrics.updateQuantile
        UpdateLatencyCountMetric := (currency, fleetSize, endTime) :: s.metrics.UpdateLatencyCountMetric
        LoadTestUpdateCountMetric := (currency, fleetSize, "succeed") :: s.metrics.LoadTestUpdateCountMetric
        updateSuccessCount := inc32 s.metrics.updateSuccessCount } }

/-- Lines 135-136: the update outcome "failed". -/
def recordUpdateFailed (currency fleetSize : String) (s : State) : State :=
  { s with metrics :=
      { s.metrics with
        LoadTestUpdateCountMetric := (currency, fleetSize, "failed") :: s.metrics.LoadTestUpdateCountMetric
        updateFailCount := inc32 s.metrics.updateFailCount } }

/-- The function `waitForCRPAvailable` (lines 149-193).  The result is the pair it
returns, the fleet size and the cluster names, with the state it leaves; `none` when
the events end while the loop is still waiting. -/
def waitForCRPAvailable (env : Env) (crpName currency fleetSize : String)
    (clusterNames : ClusterNames) :
    List (PollEvent Tick) → State → Option ((String × ClusterNames) × State)
  | [], _ => none
  | PollEvent.deadline :: _, s =>
    some ((fleetSize, clusterNames),
      recordApplyTimeout currency fleetSize (s.logLine Log.applyTimeout))
  | PollEvent.tick t :: rest, s =>
    match t.fetch with
    | none =>
      waitForCRPAvailable env crpName currency fleetSize clusterNames rest
        (s.logLine Log.failedToGetCrp)
    | some crp =>
      let cond := crp.GetCondition ClusterResourcePlacementAvailableConditionType
      if IsConditionStatusTrue cond crp.generation then
        let s1 := s.logLine Log.applySucceeded
        let endTime := t.now - env.startTime
        match env.getFleetSize crp clusterNames with
        | (fleetSize1, _, some _) =>
          some ((fleetSize1, []), s1.logLine Log.failedToGetFleetSize)
        | (fleetSize1, clusterNames1, none) =>
          some ((fleetSize1, clusterNames1), recordApplySuccess currency fleetSize1 endTime s1)
      else if IsConditionStatusFalse cond crp.generation then
        waitForCRPAvailable env crpName currency fleetSize clusterNames rest
          (s.logLine Log.applyFailedTryingAgain)
      else
        waitForCRPAvailable env crpName currency fleetSize clusterNames rest
          (s.logLine Log.applyPending)

/-- The loop over `clusterNames` of lines 227-234: the first cluster whose work object
cannot be fetched or does not hold exactly two manifest conditions, `none` when
`allRemoved` stays true. -/
def firstNotRemoved (env : Env) (crpName : String) (works : String → String → Option Work) :
    ClusterNames → Option String
  | [] => none
  | clusterName :: rest =>
    match works (crpName ++ "-work") (env.namespaceOf clusterName) with
    | none => some clusterName
    | some clusterWork =>
      if clusterWork.manifestConditions.length ≠ 2 then some clusterName
      else firstNotRemoved env crpName works rest

/-- The loop of `resourcesDeletedCheck` (lines 206-241). -/
def resourcesDeletedLoop (env : Env) (crpName : String) (clusterNames : ClusterNames) :
    List (PollEvent RemovalTick) → State → Option State
  | [], _ => none
  | PollEvent.deadline :: _, s => some (s.logLine Log.deleteTimeout)
  | PollEvent.tick t :: rest, s =>
    match t.fetch with
    | none => resourcesDeletedLoop env crpName clusterNames rest (s.logLine Log.failedToGetCrp)
    | some crp =>
      if crp.selectedResources.length ≠ 2 then
        resourcesDeletedLoop env crpName clusterNames rest (s.logLine Log.notPickedUp)
      else
        match firstNotRemoved env crpName t.works clusterNames with
        | some clusterName =>
          resourcesDeletedLoop env crpName clusterNames rest
            (s.logLine (Log.notRemovedByMemberAgent clusterName))
        | none => some (s.logLine Log.deleteSucceeded)

/-- The function `resourcesDeletedCheck` (lines 196-242); `none` when the events end
while the loop is still waiting. -/
def resourcesDeletedCheck (env : Env) (crpName : String) (clusterNames : ClusterNames)
    (events : List (PollEvent RemovalTick)) (s : State) : Option State :=
  resourcesDeletedLoop env crpName clusterNames events (s.logLine Log.verifyDeleted)

/-- The state after the `hubClient.Get` at the head of an iteration of
`waitForCrpToCompleteUpdate` (lines 255-257): the log line of a failed fetch. -/
def afterTopFetch (top : Option ClusterResourcePlacement) (s : State) : State :=
  match top with
  | none => s.logLine Log.failedToGetCrp
  | some _ => s

/-- The loop of `waitForCrpToCompleteUpdate` (lines 254-290).  The argument `crp` is
the variable `crp` of the function as the previous iterations left it.  The three
conditions are read at lines 258-260, from `crp` as the fetch at the head of the
iteration leaves it (`crp1`); line 273 compares them with the generation of the
placement fetched on the tick (`crp2`). -/
def updateLoop (deletionStartTime : Int) (currency fleetSize : String) :
    List UpdateIter → ClusterResourcePlacement → State → Option State
  | [], _, _ => none
  | it :: rest, crp, s =>
    let crp1 := it.top.getD crp
    let s1 := afterTopFetch it.top s
    let appliedCond := crp1.GetCondition ClusterResourcePlacementAppliedConditionType
    let synchronizedCond := crp1.GetCondition ClusterResourcePlacementWorkSynchronizedConditionType
    let scheduledCond := crp1.GetCondition ClusterResourcePlacementScheduledConditionType
    match it.sel with
    | PollEvent.deadline =>
      some (recordUpdateTimeout currency fleetSize (s1.logLine Log.updateTimeout))
    | PollEvent.tick t =>
      match t.fetch with
      | none => updateLoop deletionStartTime currency fleetSize rest crp1 (s1.logLine Log.failedToGetCrp)
      | some crp2 =>
        if IsConditionStatusTrue appliedCond crp2.generation
            && IsConditionStatusTrue synchronizedCond crp2.generation
            && IsConditionStatusTrue scheduledCond crp2.generation then
          some (recordUpdateSuccess currency fleetSize (t.now - deletionStartTime)
            (s1.logLine Log.updateSucceeded))
        else if IsConditionStatusFalse appliedCond crp2.generation then
          updateLoop deletionStartTime currency fleetSize rest crp2
            (s1.logLine Log.updateFailedTryAgain)
        else
          updateLoop deletionStartTime currency fleetSize rest crp2 (s1.logLine Log.updatePending)

/-- The function `waitForCrpToCompleteUpdate` (lines 245-290); `none` when the
iterations end while the loop is still waiting. -/
def waitForCrpToCompleteUpdate (deletionStartTime : Int) (currency fleetSize : String)
    (iters : List UpdateIter) (s : State) : Option State :=
  updateLoop deletionStartTime currency fleetSize iters zeroCRP s

/-- A successful `hubClient.Delete` of the placement on the backing store: the object
of that name is no longer held. -/
def removePlacement (crpName : String) (store : List String) : List String :=
  store.filter (fun n => n != crpName)

/-- Line 145, `return hubClient.Delete(ctx, crp)`: the value returned and the state
left.  When the call succeeds the object is removed from the store. -/
def finalDelete (env : Env) (crpName : String) (s : State) : Option Err × State :=
  match env.delete with
  | some err => (some err, s.emit (Effect.hubDelete crpName))
  | none =>
    (none, { s.emit (Effect.hubDelete crpName) with store := removePlacement crpName s.store })

/-- Line 115, the deferred `hubClient.Delete(context.Background(), crp)`, whose result
is dropped.  It runs on a background context; on the backing store a Delete of an
existing object removes it. -/
def deferredDelete (crpName : String) (s : State) : State :=
  { s.emit (Effect.hubDeleteDeferred crpName) with store := removePlacement crpName s.store }

/-- Lines 96-100, the deferred `deleteNamespace` with the log line of its failure. -/
def deferredDeleteNamespace (env : Env) (nsName : String) (s : State) : State :=
  match env.deleteNamespace with
  | some _ => (s.emit (Effect.deleteNamespace nsName)).logLine Log.failedToDeleteNamespace
  | none => s.emit (Effect.deleteNamespace nsName)

/-- Lines 130-145 of `MeasureOnePlacement`: the mutate phase, the two verifications
and the final Delete. -/
def mutateAndVerify (env : Env) (crpName nsName currency fleetSize : String)
    (clusterNames : ClusterNames) (useTestResources : Bool) (s : State) :
    Option (Option Err × State) :=
  let s0 := s.emit (Effect.timeNow env.deletionStartTime)
  if useTestResources then
    let s1 := (s0.logLine Log.removeNamespacedResources).emit (Effect.deleteTestManifests nsName)
    match env.deleteTestManifests with
    | some err =>
      some (some err, recordUpdateFailed currency fleetSize (s1.logLine Log.placementFailed))
    | none =>
      match resourcesDeletedCheck env crpName clusterNames env.removalEvents s1 with
      | none => none
      | some s2 =>
        match waitForCrpToCompleteUpdate env.deletionStartTime currency fleetSize
            env.updateEvents (s2.logLine Log.verifyUpdated) with
        | none => none
        | some s3 => some (finalDelete env crpName s3)
  else
    some (finalDelete env crpName s0)

/-- Lines 116-145 of `MeasureOnePlacement`: everything after the Delete of the
placement has been deferred. -/
def createAndMeasure (env : Env) (crpName nsName currency : String)
    (clusterNames : ClusterNames) (useTestResources : Bool) (s : State) :
    Option (Option Err × State) :=
  let fleetSize := "0"
  match env.create with
  | some err =>
    some (some err,
      recordApplyFailed currency fleetSize
        ((s.emit (Effect.hubCreate crpName)).logLine Log.failedToApplyCrp))
  | none =>
    let s1 : State :=
      { metrics := { s.metrics with crpCount := inc32 s.metrics.crpCount }
        store := crpName :: s.store
        trace := Effect.log Log.verifyApplied :: Effect.hubCreate crpName :: s.trace }
    match waitForCRPAvailable env crpName currency fleetSize clusterNames env.applyEvents s1 with
    | none => none
    | some ((fleetSize1, clusterNames1), s2) =>
      if fleetSize1 = "0" then some (none, s2)
      else mutateAndVerify env crpName nsName currency fleetSize1 clusterNames1 useTestResources s2

/-- Lines 108-145 of `MeasureOnePlacement`: `createCRP`, then the deferred Delete
around the rest of the run. -/
def createPlacementAndMeasure (env : Env) (crpName nsName currency : String)
    (clusterNames : ClusterNames) (useTestResources : Bool) (s : State) :
    Option (Option Err × State) :=
  let s1 := (s.logLine Log.createPlacement).emit (Effect.createCRP crpName)
  match env.createCRP with
  | some err => some (some err, s1.logLine Log.failedToCreateCrp)
  | none =>
    (createAndMeasure env crpName nsName currency clusterNames useTestResources s1).map
      (fun r => (r.1, deferredDelete crpName r.2))

/-- What a run of `MeasureOnePlacement` returns and leaves behind. -/
structure RunResult where
  err : Option Err
  metrics : Metrics
  store : List String
  trace : List Effect
deriving DecidableEq, Repr

/-- The function `MeasureOnePlacement` (lines 87-146), started on the metric variables
`m` and the backing store `store`; the trace of the result holds the effects of this
run only.  The result is `none` when one of the poll loops is still waiting at the end
of its events.  The timer and ticker durations `deadline` and `interval` are
represented by the events of `env`, `crpFile` by the result of `createCRP`. -/
def MeasureOnePlacement (env : Env) (maxCurrentPlacement : Int) (clusterNames : ClusterNames)
    (useTestResources : Bool) (m : Metrics) (store : List String) : Option RunResult :=
  let crpName := crpPrefix ++ env.randCrp
  let nsName := nsPrefix ++ env.randNs
  let currency := toString maxCurrentPlacement
  let s0 : State := { metrics := m, store := store, trace := [] }
  let r : Option (Option Err × State) :=
    if useTestResources then
      let s1 := (s0.logLine Log.createResourcesInNamespace).emit (Effect.applyTestManifests nsName)
      let r1 : Option (Option Err × State) :=
        match env.applyTestManifests with
        | some err => some (some err, s1.logLine Log.failedToApplyNamespacedResources)
        | none => createPlacementAndMeasure env crpName nsName currency clusterNames true s1
      r1.map (fun r => (r.1, deferredDeleteNamespace env nsName r.2))
    else
      createPlacementAndMeasure env crpName nsName currency clusterNames false s0
  r.map (fun r => { err := r.1, metrics := r.2.metrics, store := r.2.store, trace := r.2.trace })

/-- The log line written by a tick of `waitForCRPAvailable` that does not return:
the failed fetch (line 169), the false branch (line 187) or the pending branch
(line 189). -/
def applyTickLog (t : Tick) : Log :=
  match t.fetch with
  | none => Log.failedToGetCrp
  | some crp =>
    if IsConditionStatusFalse
        (crp.GetCondition ClusterResourcePlacementAvailableConditionType) crp.generation then
      Log.applyFailedTryingAgain
    else Log.applyPending

/-- A tick of `waitForCRPAvailable` on which no placement with a current-and-true
Available condition is fetched. -/
def applyTickWaits (t : Tick) : Bool :=
  match t.fetch with
  | none => true
  | some crp =>
    !IsConditionStatusTrue
      (crp.GetCondition ClusterResourcePlacementAvailableConditionType) crp.generation

/-- Record log lines, the first of the list first. -/
def State.logLines (s : State) (ls : List Log) : State :=
  ls.foldl State.logLine s

/-- The success test of a tick of `resourcesDeletedCheck` in the words of the
specification: the fetched placement status lists exactly two selected resources and,
for every cluster name of the fleet snapshot, the Get of the work object of the
placement in the namespace of that cluster succeeds and its status holds exactly two
manifest conditions. -/
def removalTickSucceeds (env : Env) (crpName : String) (clusterNames : ClusterNames)
    (t : RemovalTick) : Prop :=
  ∃ crp, t.fetch = some crp ∧ crp.selectedResources.length = 2 ∧
    ∀ c ∈ clusterNames, ∃ w, t.works (crpName ++ "-work") (env.namespaceOf c) = some w ∧
      w.manifestConditions.length = 2

/-- The log line written by a tick of `resourcesDeletedCheck` that does not return:
the failed fetch (line 216), the placement that has not picked up the change (line 221)
or the first cluster whose work object is not yet as expected (line 230). -/
def removalTickLog (env : Env) (crpName : String) (clusterNames : ClusterNames)
    (t : RemovalTick) : Log :=
  match t.fetch with
  | none => Log.failedToGetCrp
  | some crp =>
    if crp.selectedResources.length ≠ 2 then Log.notPickedUp
    else
      match firstNotRemoved env crpName t.works clusterNames with
      | some clusterName => Log.notRemovedByMemberAgent clusterName
      | none => Log.deleteSucceeded

/-- The update outcome counters and samples among the metric variables. -/
def Metrics.updateView (m : Metrics) :
    Int × Int × Int × List (String × String × String) × List Int × List (String × String × Int) :=
  (m.updateSuccessCount, m.updateFailCount, m.updateTimeoutCount, m.LoadTestUpdateCountMetric,
    m.updateQuantile, m.UpdateLatencyCountMetric)

/-- The state in which a run whose setup succeeds enters `waitForCRPAvailable`
(line 125): `crpCount` is incremented, the placement is in the store, and the trace
holds the setup calls and log lines of lines 101-124. -/
def applyEntryState (env : Env) (useTestResources : Bool) (m : Metrics)
    (store : List String) : State :=
  { metrics := { m with crpCount := inc32 m.crpCount }
    store := (crpPrefix ++ env.randCrp) :: store
    trace :=
      Effect.log Log.verifyApplied :: Effect.hubCreate (crpPrefix ++ env.randCrp) ::
        Effect.createCRP (crpPrefix ++ env.randCrp) :: Effect.log Log.createPlacement ::
          (if useTestResources then
            [Effect.applyTestManifests (nsPrefix ++ env.randNs),
              Effect.log Log.createResourcesInNamespace]
          else []) }

/-- The deferred calls of a run that got past `createCRP`, in the order in which they
run at a return: the Delete of the placement (line 115), then, with auxiliary
resources, `deleteNamespace` (lines 96-100). -/
def runDeferred (env : Env) (useTestResources : Bool) (s : State) : State :=
  if useTestResources then
    deferredDeleteNamespace env (nsPrefix ++ env.randNs)
      (deferredDelete (crpPrefix ++ env.randCrp) s)
  else deferredDelete (crpPrefix ++ env.randCrp) s

/-- The result of a run that returns `err` in the state `s`. -/
def runResult (err : Option Err) (s : State) : RunResult :=
  { err := err, metrics := s.metrics, store := s.store, trace := s.trace }

/-! ## Sample inputs -/

/-- Metric variables at process start. -/
def zeroMetrics : Metrics :=
  { crpCount := 0, applySuccessCount := 0, applyFailCount := 0, applyTimeoutCount := 0,
    LoadTestApplyCountMetric := [], applyQuantile := [], ApplyLatencyCountMetric := [],
    updateSuccessCount := 0, updateFailCount := 0, updateTimeoutCount := 0,
    LoadTestUpdateCountMetric := [], updateQuantile := [], UpdateLatencyCountMetric := [] }

/-- A state at process start with an empty store. -/
def zeroState : State := { metrics := zeroMetrics, store := [], trace := [] }

/-- A placement of generation 1 on one cluster whose Available, Applied,
WorkSynchronized and Scheduled conditions are current and true. -/
def availableCRP : ClusterResourcePlacement :=
  { generation := 1
    conditions :=
      [{ type := "Scheduled", status := "True", observedGeneration := 1 },
       { type := "WorkSynchronized", status := "True", observedGeneration := 1 },
       { type := "Applied", status := "True", observedGeneration := 1 },
       { type := "Available", status := "True", observedGeneration := 1 }]
    selectedResources := ["namespace", "crd"]
    placementStatuses := ["member-1"] }

/-- A placement of generation 1 whose conditions are all current and false. -/
def failingCRP : ClusterResourcePlacement :=
  { generation := 1
    conditions :=
      [{ type := "Scheduled", status := "False", observedGeneration := 1 },
       { type := "WorkSynchronized", status := "False", observedGeneration := 1 },
       { type := "Applied", status := "False", observedGeneration := 1 },
       { type := "Available", status := "False", observedGeneration := 1 }]
    selectedResources := ["namespace", "crd", "configmap"]
    placementStatuses := ["member-1"] }

/-- A placement of generation 2 whose Available condition was computed for
generation 1. -/
def staleCRP : ClusterResourcePlacement :=
  { generation := 2
    conditions := [{ type := "Available", status := "True", observedGeneration := 1 }]
    selectedResources := ["namespace", "crd", "configmap"]
    placementStatuses := ["member-1"] }

/-- An environment in which every call succeeds: the placement is available on the
first tick with a fleet of one cluster, the removal check and the update check end on
their deadlines. -/
def sampleEnv : Env :=
  { randCrp := "a"
    randNs := "b"
    getFleetSize := fun crp names =>
      (toString crp.placementStatuses.length, names ++ crp.placementStatuses, none)
    namespaceOf := fun c => "fleet-member-" ++ c
    applyTestManifests := none
    createCRP := none
    create := none
    startTime := 0
    applyEvents := [PollEvent.tick { now := 5, fetch := some availableCRP }]
    deletionStartTime := 6
    deleteTestManifests := none
    removalEvents := [PollEvent.deadline]
    updateEvents := [{ top := none, sel := PollEvent.deadline }]
    delete := none
    deleteNamespace := none }

/-- As `sampleEnv`, but the final `hubClient.Delete(ctx, crp)` fails. -/
def envDeleteFails : Env :=
  { sampleEnv with delete := some "delete failed" }

/-- As `sampleEnv`, but `deleteTestManifests` fails. -/
def envDeleteTestManifestsFails : Env :=
  { sampleEnv with deleteTestManifests := some "delete manifests failed" }

/-- As `sampleEnv`, but the placement never becomes available: the first fetch fails,
the second shows a stale Available condition, the third a false one, then the deadline
timer fires. -/
def envNeverAvailable : Env :=
  { sampleEnv with
    applyEvents :=
      [PollEvent.tick { now := 1, fetch := none },
       PollEvent.tick { now := 2, fetch := some staleCRP },
       PollEvent.tick { now := 3, fetch := some failingCRP },
       PollEvent.deadline] }

/-- As `sampleEnv`, but `getFleetSize` fails. -/
def envFleetSizeFails : Env :=
  { sampleEnv with getFleetSize := fun _ _ => ("", [], some "no cluster is selected") }

/-- One iteration of the update loop: the fetch at its head returns a placement whose
three conditions are current and true, the fetch on the tick returns a placement of the
same generation whose three conditions are false. -/
def staleConditionIters : List UpdateIter :=
  [{ top := some availableCRP, sel := PollEvent.tick { now := 9, fetch := some failingCRP } }]

/-- Three ticks of a poll loop under a cancelled context: every `hubClient.Get`
returns the error of the context. -/
def cancelledTicks : List (PollEvent Tick) :=
  [PollEvent.tick { now := 1, fetch := none }, PollEvent.tick { now := 2, fetch := none },
   PollEvent.tick { now := 3, fetch := none }]

/-- A removal tick on which the placement lists two selected resources but the work
object of `member-1` still holds three manifest conditions. -/
def laggingTick : RemovalTick :=
  { fetch := some availableCRP
    works := fun _ _ => some { manifestConditions := ["namespace", "crd", "configmap"] } }

/-- As `sampleEnv`, but the removal check sees a lagging cluster on two ticks before
its deadline. -/
def envLaggingCluster : Env :=
  { sampleEnv with
    removalEvents :=
      [PollEvent.tick laggingTick, PollEvent.tick laggingTick, PollEvent.deadline] }

/-- As `sampleEnv`, but the update check succeeds on its second tick: on the first
iteration the three conditions are false, on the second they are current and true.
The apply loop starts at clock reading 0, the deletion starts at reading 6 and the
successful tick reads 12. -/
def envUpdateSucceeds : Env :=
  { sampleEnv with
    updateEvents :=
      [{ top := some failingCRP, sel := PollEvent.tick { now := 10, fetch := some failingCRP } },
       { top := some availableCRP,
         sel := PollEvent.tick { now := 12, fetch := some availableCRP } }] }

end LoadTest

/-!
# CRD installer: `cmd/crdinstaller/main.go`

A shallow embedding of `isHubCRD`, `isMemberCRD` and `installCRDs`.  The file system,
the YAML decoder and the dynamic client are external: what they return is supplied by
the environment `InstallEnv`.  The result of `installCRDs` is the error it returns
(`none` is `nil`) together with the Create and Update calls it issued on the client,
in the order of the calls.
-/

namespace CrdInstaller

/-- The set `hubCRDs` of `isHubCRD`. -/
def hubCRDs : List String :=
  ["cluster.kubernetes-fleet.io_memberclusters.yaml",
   "cluster.kubernetes-fleet.io_internalmemberclusters.yaml",
   "placement.kubernetes-fleet.io_clusterapprovalrequests.yaml",
   "placement.kubernetes-fleet.io_clusterresourcebindings.yaml",
   "placement.kubernetes-fleet.io_clusterresourceenvelopes.yaml",
   "placement.kubernetes-fleet.io_clusterresourceplacements.yaml",
   "placement.kubernetes-fleet.io_clusterresourceoverrides.yaml",
   "placement.kubernetes-fleet.io_clusterresourceoverridesnapshots.yaml",
   "placement.kubernetes-fleet.io_clusterresourceplacementdisruptionbudgets.yaml",
   "placement.kubernetes-fleet.io_clusterresourceplacementevictions.yaml",
   "placement.kubernetes-fleet.io_clusterresourcesnapshots.yaml",
   "placement.kubernetes-fleet.io_clusterschedulingpolicysnapshots.yaml",
   "placement.kubernetes-fleet.io_clusterstagedupdateruns.yaml",
   "placement.kubernetes-fleet.io_clusterstagedupdatestrategies.yaml",
   "placement.kubernetes-fleet.io_resourceenvelopes.yaml",
   "placement.kubernetes-fleet.io_resourceoverrides.yaml",
   "placement.kubernetes-fleet.io_resourceoverridesnapshots.yaml",
   "placement.kubernetes-fleet.io_works.yaml",
   "multicluster.x-k8s.io_clusterprofiles.yaml"]

/-- The function `isHubCRD` (lines 187-216). -/
def isHubCRD (filename : String) : Bool :=
  hubCRDs.contains filename

/-- The set `memberCRDs` of `isMemberCRD`. -/
def memberCRDs : List String :=
  ["placement.kubernetes-fleet.io_appliedworks.yaml"]

/-- The function `isMemberCRD` (lines 218-226). -/
def isMemberCRD (filename : String) : Bool :=
  memberCRDs.contains filename

/-- The scan of `filepath.Ext`, from the last character backwards: the suffix that
begins at the final dot of the final path element, `none` when a separator or the
start of the path comes first. -/
def extScan : List Char → List Char → Option (List Char)
  | [], _ => none
  | c :: rest, suffix =>
    if c = '/' then none
    else if c = '.' then some ('.' :: suffix)
    else extScan rest (c :: suffix)

/-- The library function `filepath.Ext` (with `/` as the separator). -/
def filepathExt (path : String) : String :=
  match extScan path.data.reverse [] with
  | some ext => String.mk ext
  | none => ""

/-- The library function `filepath.Base` (with `/` as the separator and no volume
name): the last element of the path, trailing separators removed. -/
def filepathBase (path : String) : String :=
  if path = "" then "."
  else
    let stripped := path.data.reverse.dropWhile (fun c => c == '/')
    let last := stripped.takeWhile (fun c => c != '/')
    if last = [] then "/" else String.mk last.reverse

/-- One call of the function passed to `filepath.WalkDir`: the path, whether the entry
is a directory, and the error the walk reports for it. -/
structure WalkEntry where
  path : String
  isDir : Bool
  err : Option String
deriving DecidableEq, Repr

/-- The object decoded from a CRD file, reduced to its name and content. -/
structure Unstructured where
  name : String
  content : String
deriving DecidableEq, Repr

/-- A call on `client.Resource(crdGVR)`. -/
inductive ClientCall where
  | create (crdName : String)
  | update (crdName : String)
deriving DecidableEq, Repr

/-- The collaborators of `installCRDs`. -/
structure InstallEnv where
  /-- The entries `filepath.WalkDir` visits from a root, in the order of the walk. -/
  walkDir : String → List WalkEntry
  /-- The order in which `range` yields the elements of the set of paths. -/
  rangeOrder : List String → List String
  /-- The library function `os.ReadFile`. -/
  readFile : String → Except String String
  /-- The library function `yaml.Unmarshal` into an unstructured object. -/
  unmarshal : String → Except String Unstructured
  /-- The result of `client.Resource(crdGVR).Create`. -/
  create : Unstructured → Option String
  /-- The result of `client.Resource(crdGVR).Update`. -/
  update : Unstructured → Option String

/-- The method `Insert` of the set of paths. -/
def setInsert (set : List String) (path : String) : List String :=
  if set.contains path then set else set ++ [path]

/-- The walk of lines 101-132: the set `crdFilesToInstall` after the entries, or the
error that ends the walk. -/
def collectCRDFiles (mode : String) : List WalkEntry → List String → Except String (List String)
  | [], crdFilesToInstall => Except.ok crdFilesToInstall
  | d :: rest, crdFilesToInstall =>
    match d.err with
    | some err => Except.error err
    | none =>
      if d.isDir then collectCRDFiles mode rest crdFilesToInstall
      else if filepathExt d.path != ".yaml" && filepathExt d.path != ".yml" then
        collectCRDFiles mode rest crdFilesToInstall
      else
        let filename := filepathBase d.path
        if mode = "hub" then
          if isHubCRD filename then
            collectCRDFiles mode rest (setInsert crdFilesToInstall d.path)
          else collectCRDFiles mode rest crdFilesToInstall
        else if mode = "member" then
          if isMemberCRD filename then
            collectCRDFiles mode rest (setInsert crdFilesToInstall d.path)
          else collectCRDFiles mode rest crdFilesToInstall
        else collectCRDFiles mode rest crdFilesToInstall

/-- The body of the loop of lines 141-169 for one path: the error that ends
`installCRDs`, if any, and the client calls issued. -/
def installOne (env : InstallEnv) (path : String) : Option String × List ClientCall :=
  match env.readFile path with
  | Except.error err => (some ("failed to read CRD file " ++ path ++ ": " ++ err), [])
  | Except.ok crdBytes =>
    match env.unmarshal crdBytes with
    | Except.error err => (some ("failed to unmarshal CRD from " ++ path ++ ": " ++ err), [])
    | Except.ok crd =>
      match env.create crd with
      | none => (none, [ClientCall.create crd.name])
      | some err =>
        if err = "already exists"
            || err = "customresourcedefinitions.apiextensions.k8s.io already exists" then
          match env.update crd with
          | some err2 =>
            (some ("failed to update CRD " ++ crd.name ++ ": " ++ err2),
              [ClientCall.create crd.name, ClientCall.update crd.name])
          | none => (none, [ClientCall.create crd.name, ClientCall.update crd.name])
        else
          (some ("failed to create CRD " ++ crd.name ++ ": " ++ err),
            [ClientCall.create crd.name])

/-- The loop of lines 141-169 over the paths in the order `range` yields them. -/
def installAll (env : InstallEnv) : List String → Option String × List ClientCall
  | [] => (none, [])
  | path :: rest =>
    match installOne env path with
    | (some err, calls) => (some err, calls)
    | (none, calls) => ((installAll env rest).1, calls ++ (installAll env rest).2)

/-- The function `installCRDs` (lines 89-177).  The log lines are left out; `wait`
only selects a log line and `timeoutSeconds` is not used. -/
def installCRDs (env : InstallEnv) (crdPath mode : String) (wait : Bool)
    (timeoutSeconds : Int) : Option String × List ClientCall :=
  match collectCRDFiles mode (env.walkDir crdPath) [] with
  | Except.error err => (some ("failed to walk CRD directory: " ++ err), [])
  | Except.ok crdFilesToInstall =>
    if crdFilesToInstall.length = 0 then
      (some ("no CRDs found for mode " ++ mode ++ " in directory " ++ crdPath), [])
    else installAll env (env.rangeOrder crdFilesToInstall)

/-- A file the client accepts: it can be read and decoded, and the Create of its
object returns nil, or returns one of the two already-exists messages and the Update
returns nil. -/
def clientAccepts (env : InstallEnv) (path : String) : Bool :=
  match env.readFile path with
  | Except.error _ => false
  | Except.ok crdBytes =>
    match env.unmarshal crdBytes with
    | Except.error _ => false
    | Except.ok crd =>
      match env.create crd with
      | none => true
      | some err =>
        (err = "already exists"
          || err = "customresourcedefinitions.apiextensions.k8s.io already exists")
        && (env.update crd).isNone

/-- The classifier `installCRDs` applies in a mode: `isHubCRD` in mode `"hub"`,
`isMemberCRD` in mode `"member"`, nothing in any other mode. -/
def selectedBy (mode filename : String) : Bool :=
  (mode = "hub" && isHubCRD filename) || (mode = "member" && isMemberCRD filename)

/-! ## Sample inputs -/

/-- The directory of `TestInstallCRDs` with a client that accepts every object: the
root, the member CRD file and a hub CRD file.  The content of a file stands for a CRD
whose name is that content. -/
def testDirEnv : InstallEnv :=
  { walkDir := fun root =>
      [{ path := root, isDir := true, err := none },
       { path := root ++ "/placement.kubernetes-fleet.io_appliedworks.yaml", isDir := false,
         err := none },
       { path := root ++ "/placement.kubernetes-fleet.io_clusterresourceplacements.yaml",
         isDir := false, err := none }]
    rangeOrder := fun set => set
    readFile := fun path =>
      if filepathBase path = "placement.kubernetes-fleet.io_appliedworks.yaml" then
        Except.ok "appliedworks.placement.kubernetes-fleet.io"
      else if filepathBase path
          = "placement.kubernetes-fleet.io_clusterresourceplacements.yaml" then
        Except.ok "clusterresourceplacements.placement.kubernetes-fleet.io"
      else Except.error "no such file or directory"
    unmarshal := fun crdBytes => Except.ok { name := crdBytes, content := crdBytes }
    create := fun _ => none
    update := fun _ => none }

/-- A directory with two hub CRD files and a client that accepts the first and rejects
the second. -/
def twoHubCRDsEnv : InstallEnv :=
  { walkDir := fun root =>
      [{ path := root, isDir := true, err := none },
       { path := root ++ "/cluster.kubernetes-fleet.io_memberclusters.yaml", isDir := false,
         err := none },
       { path := root ++ "/placement.kubernetes-fleet.io_works.yaml", isDir := false,
         err := none }]
    rangeOrder := fun set => set
    readFile := fun path => Except.ok (filepathBase path)
    unmarshal := fun crdBytes => Except.ok { name := crdBytes, content := crdBytes }
    create := fun crd =>
      if crd.name = "placement.kubernetes-fleet.io_works.yaml" then some "forbidden" else none
    update := fun _ => none }

end CrdInstaller

namespace LoadTest

/-! ## The apply loop -/

theorem logLine_metrics (s : State) (l : Log) : (s.logLine l).metrics = s.metrics := rfl

theorem logLine_store (s : State) (l : Log) : (s.logLine l).store = s.store := rfl

theorem logLines_metrics (ls : List Log) : ∀ s : State, (s.logLines ls).metrics = s.metrics := by
  induction ls with
  | nil => intro s; rfl
  | cons l ls ih => intro s; exact (ih (s.logLine l)).trans rfl

theorem logLines_store (ls : List Log) : ∀ s : State, (s.logLines ls).store = s.store := by
  induction ls with
  | nil => intro s; rfl
  | cons l ls ih => intro s; exact (ih (s.logLine l)).trans rfl

theorem logLines_trace (ls : List Log) :
    ∀ s : State, (s.logLines ls).trace = (ls.map Effect.log).reverse ++ s.trace := by
  induction ls with
  | nil => intro s; rfl
  | cons l ls ih =>
    intro s
    show ((s.logLine l).logLines ls).trace = _
    rw [ih (s.logLine l)]
    simp [State.logLine, State.emit]

theorem logLines_cons (s : State) (l : Log) (ls : List Log) :
    s.logLines (l :: ls) = (s.logLine l).logLines ls := rfl

theorem applyTickWaits_iff (t : Tick) :
    applyTickWaits t = true ↔
      ∀ crp, t.fetch = some crp →
        IsConditionStatusTrue
          (crp.GetCondition ClusterResourcePlacementAvailableConditionType) crp.generation
            = false := by
  unfold applyTickWaits
  cases t.fetch with
  | none => simp
  | some crp => simp

theorem not_applyTickWaits (t : Tick) (h : ¬ applyTickWaits t = true) :
    ∃ crp, t.fetch = some crp ∧
      IsConditionStatusTrue
        (crp.GetCondition ClusterResourcePlacementAvailableConditionType) crp.generation
          = true := by
  unfold applyTickWaits at h
  cases hf : t.fetch with
  | none => simp [hf] at h
  | some crp => exact ⟨crp, rfl, by simpa [hf] using h⟩

theorem waitForCRPAvailable_tick_waits (env : Env) (crpName currency fleetSize : String)
    (cn : ClusterNames) (t : Tick) (rest : List (PollEvent Tick)) (s : State)
    (h : applyTickWaits t = true) :
    waitForCRPAvailable env crpName currency fleetSize cn (PollEvent.tick t :: rest) s
      = waitForCRPAvailable env crpName currency fleetSize cn rest (s.logLine (applyTickLog t)) := by
  cases hf : t.fetch with
  | none => simp [waitForCRPAvailable, applyTickLog, hf]
  | some crp =>
    have h1 : IsConditionStatusTrue
        (crp.GetCondition ClusterResourcePlacementAvailableConditionType) crp.generation
          = false := by simpa [applyTickWaits, hf] using h
    by_cases h2 : IsConditionStatusFalse
        (crp.GetCondition ClusterResourcePlacementAvailableConditionType) crp.generation = true
    · simp [waitForCRPAvailable, applyTickLog, hf, h1, h2]
    · simp [waitForCRPAvailable, applyTickLog, hf, h1, h2]

theorem waitForCRPAvailable_waiting_ticks (env : Env) (crpName currency fleetSize : String)
    (cn : ClusterNames) (rest : List (PollEvent Tick)) :
    ∀ (ticks : List Tick) (s : State), (∀ t ∈ ticks, applyTickWaits t = true) →
      waitForCRPAvailable env crpName currency fleetSize cn (ticks.map PollEvent.tick ++ rest) s
        = waitForCRPAvailable env crpName currency fleetSize cn rest
            (s.logLines (ticks.map applyTickLog)) := by
  intro ticks
  induction ticks with
  | nil => intro s _; rfl
  | cons t ticks ih =>
    intro s h
    have ht : applyTickWaits t = true := h t (List.mem_cons_self _ _)
    have hrest : ∀ u ∈ ticks, applyTickWaits u = true := fun u hu => h u (List.mem_cons_of_mem _ hu)
    simp only [List.map_cons, List.cons_append]
    rw [waitForCRPAvailable_tick_waits env crpName currency fleetSize cn t _ s ht,
      ih (s.logLine (applyTickLog t)) hrest]
    rfl

theorem inc32_ne_self (x : Int) : inc32 x ≠ x := by
  unfold inc32
  split <;> omega

theorem inc32_eq_add_one (x : Int) (h : x ≠ 2147483647) : inc32 x = x + 1 := by
  unfold inc32
  simp [h]

theorem waitForCRPAvailable_tick_true (env : Env) (crpName currency fleetSize : String)
    (cn : ClusterNames) (t : Tick) (rest : List (PollEvent Tick)) (s : State)
    (crp : ClusterResourcePlacement) (hf : t.fetch = some crp)
    (ht : IsConditionStatusTrue
      (crp.GetCondition ClusterResourcePlacementAvailableConditionType) crp.generation = true) :
    waitForCRPAvailable env crpName currency fleetSize cn (PollEvent.tick t :: rest) s
      = match env.getFleetSize crp cn with
        | (fleetSize1, _, some _) =>
          some ((fleetSize1, []),
            (s.logLine Log.applySucceeded).logLine Log.failedToGetFleetSize)
        | (fleetSize1, clusterNames1, none) =>
          some ((fleetSize1, clusterNames1),
            recordApplySuccess currency fleetSize1 (t.now - env.startTime)
              (s.logLine Log.applySucceeded)) := by
  simp [waitForCRPAvailable, hf, ht]

/-- Every return of `waitForCRPAvailable` is of one of three kinds: the deadline
case, a tick with an available placement whose fleet size was derived, or a tick with
an available placement whose fleet size could not be derived.  The metric variables
are as the entry state has them but for the updates of that kind. -/
theorem waitForCRPAvailable_kinds (env : Env) (crpName currency fleetSize : String)
    (cn : ClusterNames) :
    ∀ (events : List (PollEvent Tick)) (s : State) (r : String × ClusterNames) (s' : State),
      waitForCRPAvailable env crpName currency fleetSize cn events s = some (r, s') →
      (PollEvent.deadline ∈ events ∧ r = (fleetSize, cn) ∧
        s'.metrics = (recordApplyTimeout currency fleetSize s).metrics)
      ∨ (∃ t crp, PollEvent.tick t ∈ events ∧ t.fetch = some crp ∧
          IsConditionStatusTrue
            (crp.GetCondition ClusterResourcePlacementAvailableConditionType) crp.generation = true ∧
          env.getFleetSize crp cn = (r.1, r.2, none) ∧
          s'.metrics = (recordApplySuccess currency r.1 (t.now - env.startTime) s).metrics)
      ∨ (∃ t crp cn1 e, PollEvent.tick t ∈ events ∧ t.fetch = some crp ∧
          IsConditionStatusTrue
            (crp.GetCondition ClusterResourcePlacementAvailableConditionType) crp.generation = true ∧
          env.getFleetSize crp cn = (r.1, cn1, some e) ∧ r.2 = [] ∧
          s'.metrics = s.metrics) := by
  intro events
  induction events with
  | nil => intro s r s' h; simp [waitForCRPAvailable] at h
  | cons ev rest ih =>
    intro s r s' h
    cases ev with
    | deadline =>
      simp only [waitForCRPAvailable, Option.some.injEq, Prod.mk.injEq] at h
      obtain ⟨h1, h2⟩ := h
      left
      refine ⟨List.mem_cons_self _ _, h1.symm, ?_⟩
      rw [← h2]
      rfl
    | tick t =>
      by_cases hw : applyTickWaits t = true
      · rw [waitForCRPAvailable_tick_waits env crpName currency fleetSize cn t rest s hw] at h
        rcases ih _ r s' h with h1 | ⟨t1, crp1, hm, h1⟩ | ⟨t1, crp1, cn1, e, hm, h1⟩
        · left
          exact ⟨List.mem_cons_of_mem _ h1.1, h1.2.1, h1.2.2⟩
        · right; left
          exact ⟨t1, crp1, List.mem_cons_of_mem _ hm, h1⟩
        · right; right
          exact ⟨t1, crp1, cn1, e, List.mem_cons_of_mem _ hm, h1⟩
      · obtain ⟨crp, hf, ht1⟩ := not_applyTickWaits t hw
        rw [waitForCRPAvailable_tick_true env crpName currency fleetSize cn t rest s crp hf ht1] at h
        rcases hg : env.getFleetSize crp cn with ⟨fs, cn1, e⟩
        rw [hg] at h
        cases e with
        | none =>
          simp only [Option.some.injEq, Prod.mk.injEq] at h
          obtain ⟨h1, h2⟩ := h
          right; left
          refine ⟨t, crp, List.mem_cons_self _ _, hf, ht1, ?_, ?_⟩
          · rw [← h1]; exact hg
          · rw [← h2, ← h1]; rfl
        | some e =>
          simp only [Option.some.injEq, Prod.mk.injEq] at h
          obtain ⟨h1, h2⟩ := h
          right; right
          refine ⟨t, crp, cn1, e, List.mem_cons_self _ _, hf, ht1, ?_, ?_, ?_⟩
          · rw [← h1]; exact hg
          · rw [← h1]
          · rw [← h2]; rfl

/-- The loop of `waitForCRPAvailable` leaves the store as it is and adds log lines
only to the trace. -/
theorem waitForCRPAvailable_frame (env : Env) (crpName currency fleetSize : String)
    (cn : ClusterNames) :
    ∀ (events : List (PollEvent Tick)) (s : State) (r : String × ClusterNames) (s' : State),
      waitForCRPAvailable env crpName currency fleetSize cn events s = some (r, s') →
      s'.store = s.store ∧ ∃ logs : List Log, s'.trace = logs.map Effect.log ++ s.trace := by
  intro events
  induction events with
  | nil => intro s r s' h; simp [waitForCRPAvailable] at h
  | cons ev rest ih =>
    intro s r s' h
    cases ev with
    | deadline =>
      simp only [waitForCRPAvailable, Option.some.injEq, Prod.mk.injEq] at h
      obtain ⟨_, h2⟩ := h
      rw [← h2]
      exact ⟨rfl, [Log.applyTimeout], rfl⟩
    | tick t =>
      by_cases hw : applyTickWaits t = true
      · rw [waitForCRPAvailable_tick_waits env crpName currency fleetSize cn t rest s hw] at h
        obtain ⟨h1, logs, h2⟩ := ih _ r s' h
        exact ⟨h1, logs ++ [applyTickLog t], by rw [h2]; simp [State.logLine, State.emit]⟩
      · obtain ⟨crp, hf, ht1⟩ := not_applyTickWaits t hw
        rw [waitForCRPAvailable_tick_true env crpName currency fleetSize cn t rest s crp hf ht1] at h
        rcases hg : env.getFleetSize crp cn with ⟨fs, cn1, e⟩
        rw [hg] at h
        cases e with
        | none =>
          simp only [Option.some.injEq, Prod.mk.injEq] at h
          obtain ⟨_, h2⟩ := h
          rw [← h2]
          exact ⟨rfl, [Log.applySucceeded], rfl⟩
        | some e =>
          simp only [Option.some.injEq, Prod.mk.injEq] at h
          obtain ⟨_, h2⟩ := h
          rw [← h2]
          exact ⟨rfl, [Log.failedToGetFleetSize, Log.applySucceeded], rfl⟩

/-! ## The removal loop -/

theorem firstNotRemoved_eq_none_iff (env : Env) (crpName : String)
    (works : String → String → Option Work) :
    ∀ cn : ClusterNames, firstNotRemoved env crpName works cn = none ↔
      ∀ c ∈ cn, ∃ w, works (crpName ++ "-work") (env.namespaceOf c) = some w ∧
        w.manifestConditions.length = 2 := by
  intro cn
  induction cn with
  | nil => simp [firstNotRemoved]
  | cons c cs ih =>
    cases hw : works (crpName ++ "-work") (env.namespaceOf c) with
    | none => simp [firstNotRemoved, hw]
    | some w =>
      by_cases hl : w.manifestConditions.length = 2
      · simp [firstNotRemoved, hw, hl, ih]
      · simp [firstNotRemoved, hw, hl]

theorem firstNotRemoved_mem (env : Env) (crpName : String)
    (works : String → String → Option Work) :
    ∀ (cn : ClusterNames) (c : String), firstNotRemoved env crpName works cn = some c →
      c ∈ cn ∧ ∀ w, works (crpName ++ "-work") (env.namespaceOf c) = some w →
        w.manifestConditions.length ≠ 2 := by
  intro cn
  induction cn with
  | nil => intro c h; simp [firstNotRemoved] at h
  | cons d ds ih =>
    intro c h
    cases hw : works (crpName ++ "-work") (env.namespaceOf d) with
    | none =>
      simp [firstNotRemoved, hw] at h
      subst h
      exact ⟨List.mem_cons_self _ _, by simp [hw]⟩
    | some w =>
      by_cases hl : w.manifestConditions.length = 2
      · simp [firstNotRemoved, hw, hl] at h
        obtain ⟨h1, h2⟩ := ih c h
        exact ⟨List.mem_cons_of_mem _ h1, h2⟩
      · simp [firstNotRemoved, hw, hl] at h
        subst h
        refine ⟨List.mem_cons_self _ _, ?_⟩
        intro w1 hw1
        rw [hw] at hw1
        cases hw1
        exact hl

theorem resourcesDeletedLoop_tick_succeeds (env : Env) (crpName : String) (cn : ClusterNames)
    (t : RemovalTick) (rest : List (PollEvent RemovalTick)) (s : State)
    (h : removalTickSucceeds env crpName cn t) :
    resourcesDeletedLoop env crpName cn (PollEvent.tick t :: rest) s
      = some (s.logLine Log.deleteSucceeded) := by
  obtain ⟨crp, hf, hl, hall⟩ := h
  have hn := (firstNotRemoved_eq_none_iff env crpName t.works cn).mpr hall
  simp [resourcesDeletedLoop, hf, hl, hn]

theorem resourcesDeletedLoop_tick_waits (env : Env) (crpName : String) (cn : ClusterNames)
    (t : RemovalTick) (rest : List (PollEvent RemovalTick)) (s : State)
    (h : ¬ removalTickSucceeds env crpName cn t) :
    resourcesDeletedLoop env crpName cn (PollEvent.tick t :: rest) s
      = resourcesDeletedLoop env crpName cn rest (s.logLine (removalTickLog env crpName cn t))
      ∧ removalTickLog env crpName cn t ≠ Log.deleteSucceeded := by
  cases hf : t.fetch with
  | none => simp [resourcesDeletedLoop, removalTickLog, hf]
  | some crp =>
    by_cases hl : crp.selectedResources.length = 2
    · cases hn : firstNotRemoved env crpName t.works cn with
      | none =>
        exact absurd ⟨crp, hf, hl, (firstNotRemoved_eq_none_iff env crpName t.works cn).mp hn⟩ h
      | some c => simp [resourcesDeletedLoop, removalTickLog, hf, hl, hn]
    · simp [resourcesDeletedLoop, removalTickLog, hf, hl]

/-- The loop of `resourcesDeletedCheck` changes no metric variable and leaves the
store as it is; it adds log lines only to the trace. -/
theorem resourcesDeletedLoop_frame (env : Env) (crpName : String) (cn : ClusterNames) :
    ∀ (events : List (PollEvent RemovalTick)) (s s' : State),
      resourcesDeletedLoop env crpName cn events s = some s' →
      s'.metrics = s.metrics ∧ s'.store = s.store ∧
        ∃ logs : List Log, s'.trace = logs.map Effect.log ++ s.trace := by
  intro events
  induction events with
  | nil => intro s s' h; simp [resourcesDeletedLoop] at h
  | cons ev rest ih =>
    intro s s' h
    cases ev with
    | deadline =>
      simp only [resourcesDeletedLoop, Option.some.injEq] at h
      rw [← h]
      exact ⟨rfl, rfl, [Log.deleteTimeout], rfl⟩
    | tick t =>
      by_cases hs : removalTickSucceeds env crpName cn t
      · rw [resourcesDeletedLoop_tick_succeeds env crpName cn t rest s hs] at h
        simp only [Option.some.injEq] at h
        rw [← h]
        exact ⟨rfl, rfl, [Log.deleteSucceeded], rfl⟩
      · rw [(resourcesDeletedLoop_tick_waits env crpName cn t rest s hs).1] at h
        obtain ⟨h1, h2, logs, h3⟩ := ih _ s' h
        exact ⟨h1, h2, logs ++ [removalTickLog env crpName cn t],
          by rw [h3]; simp [State.logLine, State.emit]⟩

theorem resourcesDeletedCheck_frame (env : Env) (crpName : String) (cn : ClusterNames)
    (events : List (PollEvent RemovalTick)) (s s' : State)
    (h : resourcesDeletedCheck env crpName cn events s = some s') :
    s'.metrics = s.metrics ∧ s'.store = s.store ∧
      ∃ logs : List Log, s'.trace = logs.map Effect.log ++ s.trace := by
  obtain ⟨h1, h2, logs, h3⟩ := resourcesDeletedLoop_frame env crpName cn events _ s' h
  exact ⟨h1, h2, logs ++ [Log.verifyDeleted], by rw [h3]; simp [State.logLine, State.emit]⟩

theorem resourcesDeletedLoop_waiting_ticks (env : Env) (crpName : String) (cn : ClusterNames)
    (rest : List (PollEvent RemovalTick)) :
    ∀ (ticks : List RemovalTick) (s : State),
      (∀ t ∈ ticks, ¬ removalTickSucceeds env crpName cn t) →
      resourcesDeletedLoop env crpName cn (ticks.map PollEvent.tick ++ rest) s
        = resourcesDeletedLoop env crpName cn rest
            (s.logLines (ticks.map (removalTickLog env crpName cn))) := by
  intro ticks
  induction ticks with
  | nil => intro s _; rfl
  | cons t ticks ih =>
    intro s h
    have ht := h t (List.mem_cons_self _ _)
    have hrest : ∀ u ∈ ticks, ¬ removalTickSucceeds env crpName cn u :=
      fun u hu => h u (List.mem_cons_of_mem _ hu)
    simp only [List.map_cons, List.cons_append]
    rw [(resourcesDeletedLoop_tick_waits env crpName cn t _ s ht).1,
      ih (s.logLine (removalTickLog env crpName cn t)) hrest]
    rfl

/-! ## The update loop -/

theorem afterTopFetch_metrics (top : Option ClusterResourcePlacement) (s : State) :
    (afterTopFetch top s).metrics = s.metrics := by
  cases top <;> rfl

theorem afterTopFetch_store (top : Option ClusterResourcePlacement) (s : State) :
    (afterTopFetch top s).store = s.store := by
  cases top <;> rfl

theorem afterTopFetch_trace (top : Option ClusterResourcePlacement) (s : State) :
    ∃ logs : List Log, (afterTopFetch top s).trace = logs.map Effect.log ++ s.trace := by
  cases top with
  | none => exact ⟨[Log.failedToGetCrp], rfl⟩
  | some c => exact ⟨[], rfl⟩

theorem updateLoop_tick_fetchError (deletionStartTime : Int) (currency fleetSize : String)
    (top : Option ClusterResourcePlacement) (now : Int) (rest : List UpdateIter)
    (crp : ClusterResourcePlacement) (s : State) :
    updateLoop deletionStartTime currency fleetSize
        ({ top := top, sel := PollEvent.tick { now := now, fetch := none } } :: rest) crp s
      = updateLoop deletionStartTime currency fleetSize rest (top.getD crp)
          ((afterTopFetch top s).logLine Log.failedToGetCrp) := by
  simp [updateLoop]

/-- The loop of `waitForCrpToCompleteUpdate` leaves the store as it is, adds log lines
only to the trace, and updates the metric variables by the timeout outcome or by the
success outcome with one latency sample measured from `deletionStartTime`. -/
theorem updateLoop_frame (deletionStartTime : Int) (currency fleetSize : String) :
    ∀ (iters : List UpdateIter) (crp : ClusterResourcePlacement) (s s' : State),
      updateLoop deletionStartTime currency fleetSize iters crp s = some s' →
      s'.store = s.store ∧
      (∃ logs : List Log, s'.trace = logs.map Effect.log ++ s.trace) ∧
      (s'.metrics = (recordUpdateTimeout currency fleetSize s).metrics ∨
        ∃ now, s'.metrics = (recordUpdateSuccess currency fleetSize (now - deletionStartTime) s).metrics) := by
  intro iters
  induction iters with
  | nil => intro crp s s' h; simp [updateLoop] at h
  | cons it rest ih =>
    intro crp s s' h
    obtain ⟨top, sel⟩ := it
    obtain ⟨tl, htl⟩ := afterTopFetch_trace top s
    have hm := afterTopFetch_metrics top s
    have hst := afterTopFetch_store top s
    cases sel with
    | deadline =>
      simp only [updateLoop, Option.some.injEq] at h
      rw [← h]
      refine ⟨hst, ⟨Log.updateTimeout :: tl, ?_⟩, Or.inl ?_⟩
      · simp [recordUpdateTimeout, State.logLine, State.emit, htl]
      · simp [recordUpdateTimeout, State.logLine, State.emit, hm]
    | tick t =>
      cases hf : t.fetch with
      | none =>
        simp only [updateLoop, hf] at h
        obtain ⟨h1, ⟨logs, h2⟩, h3⟩ := ih _ _ s' h
        refine ⟨h1.trans hst, ⟨logs ++ Log.failedToGetCrp :: tl, ?_⟩, ?_⟩
        · rw [h2]; simp [State.logLine, State.emit, htl]
        · simpa [recordUpdateTimeout, recordUpdateSuccess, State.logLine, State.emit, hm] using h3
      | some crp2 =>
        simp only [updateLoop, hf] at h
        split at h
        · simp only [Option.some.injEq] at h
          rw [← h]
          refine ⟨hst, ⟨Log.updateSucceeded :: tl, ?_⟩, Or.inr ⟨t.now, ?_⟩⟩
          · simp [recordUpdateSuccess, State.logLine, State.emit, htl]
          · simp [recordUpdateSuccess, State.logLine, State.emit, hm]
        · split at h
          · obtain ⟨h1, ⟨logs, h2⟩, h3⟩ := ih _ _ s' h
            refine ⟨h1.trans hst, ⟨logs ++ Log.updateFailedTryAgain :: tl, ?_⟩, ?_⟩
            · rw [h2]; simp [State.logLine, State.emit, htl]
            · simpa [recordUpdateTimeout, recordUpdateSuccess, State.logLine, State.emit, hm]
                using h3
          · obtain ⟨h1, ⟨logs, h2⟩, h3⟩ := ih _ _ s' h
            refine ⟨h1.trans hst, ⟨logs ++ Log.updatePending :: tl, ?_⟩, ?_⟩
            · rw [h2]; simp [State.logLine, State.emit, htl]
            · simpa [recordUpdateTimeout, recordUpdateSuccess, State.logLine, State.emit, hm]
                using h3

/-! ## Termination of the loops on a deadline -/

theorem waitForCRPAvailable_returns (env : Env) (crpName currency fleetSize : String)
    (cn : ClusterNames) :
    ∀ (events : List (PollEvent Tick)), PollEvent.deadline ∈ events → ∀ s : State,
      (waitForCRPAvailable env crpName currency fleetSize cn events s).isSome = true := by
  intro events
  induction events with
  | nil => intro h; simp at h
  | cons ev rest ih =>
    intro h s
    cases ev with
    | deadline => simp [waitForCRPAvailable]
    | tick t =>
      have hrest : PollEvent.deadline ∈ rest := by simpa using h
      by_cases hw : applyTickWaits t = true
      · rw [waitForCRPAvailable_tick_waits env crpName currency fleetSize cn t rest s hw]
        exact ih hrest _
      · obtain ⟨crp, hf, ht1⟩ := not_applyTickWaits t hw
        rw [waitForCRPAvailable_tick_true env crpName currency fleetSize cn t rest s crp hf ht1]
        rcases env.getFleetSize crp cn with ⟨fs, cn1, e⟩
        cases e <;> rfl

theorem resourcesDeletedLoop_returns (env : Env) (crpName : String) (cn : ClusterNames) :
    ∀ (events : List (PollEvent RemovalTick)), PollEvent.deadline ∈ events → ∀ s : State,
      (resourcesDeletedLoop env crpName cn events s).isSome = true := by
  intro events
  induction events with
  | nil => intro h; simp at h
  | cons ev rest ih =>
    intro h s
    cases ev with
    | deadline => simp [resourcesDeletedLoop]
    | tick t =>
      have hrest : PollEvent.deadline ∈ rest := by simpa using h
      by_cases hs : removalTickSucceeds env crpName cn t
      · rw [resourcesDeletedLoop_tick_succeeds env crpName cn t rest s hs]; rfl
      · rw [(resourcesDeletedLoop_tick_waits env crpName cn t rest s hs).1]
        exact ih hrest _

theorem updateLoop_returns (deletionStartTime : Int) (currency fleetSize : String) :
    ∀ (iters : List UpdateIter), (∃ it ∈ iters, it.sel = PollEvent.deadline) →
      ∀ (crp : ClusterResourcePlacement) (s : State),
        (updateLoop deletionStartTime currency fleetSize iters crp s).isSome = true := by
  intro iters
  induction iters with
  | nil => intro h; simp at h
  | cons it rest ih =>
    intro h crp s
    obtain ⟨top, sel⟩ := it
    cases sel with
    | deadline => simp [updateLoop]
    | tick t =>
      have hrest : ∃ it ∈ rest, it.sel = PollEvent.deadline := by
        obtain ⟨it, hmem, hsel⟩ := h
        rcases List.mem_cons.mp hmem with h1 | h1
        · subst h1; simp at hsel
        · exact ⟨it, h1, hsel⟩
      cases hf : t.fetch with
      | none =>
        simp only [updateLoop, hf]
        exact ih hrest _ _
      | some crp2 =>
        simp only [updateLoop, hf]
        split
        · rfl
        · split
          · exact ih hrest _ _
          · exact ih hrest _ _

/-! ## The run -/

theorem removePlacement_not_mem (crpName : String) (store : List String) :
    crpName ∉ removePlacement crpName store := by
  simp [removePlacement]

theorem removePlacement_not_mem_of_not_mem (crpName x : String) (store : List String)
    (h : x ∉ store) : x ∉ removePlacement crpName store := by
  intro hx
  exact h (List.mem_filter.mp hx).1

theorem finalDelete_err (env : Env) (crpName : String) (s : State) :
    (finalDelete env crpName s).1 = env.delete := by
  unfold finalDelete
  cases env.delete <;> rfl

theorem finalDelete_trace (env : Env) (crpName : String) (s : State) :
    (finalDelete env crpName s).2.trace = Effect.hubDelete crpName :: s.trace := by
  unfold finalDelete
  cases env.delete <;> rfl

theorem finalDelete_metrics (env : Env) (crpName : String) (s : State) :
    (finalDelete env crpName s).2.metrics = s.metrics := by
  unfold finalDelete
  cases env.delete <;> rfl

theorem deferredDeleteNamespace_store (env : Env) (nsName : String) (s : State) :
    (deferredDeleteNamespace env nsName s).store = s.store := by
  unfold deferredDeleteNamespace
  cases env.deleteNamespace <;> rfl

theorem deferredDeleteNamespace_metrics (env : Env) (nsName : String) (s : State) :
    (deferredDeleteNamespace env nsName s).metrics = s.metrics := by
  unfold deferredDeleteNamespace
  cases env.deleteNamespace <;> rfl

theorem deferredDeleteNamespace_trace (env : Env) (nsName : String) (s : State) :
    ∃ later : List Effect, (deferredDeleteNamespace env nsName s).trace = later ++ s.trace ∧
      ∀ x ∈ later, x = Effect.deleteNamespace nsName ∨ x = Effect.log Log.failedToDeleteNamespace := by
  unfold deferredDeleteNamespace
  cases env.deleteNamespace with
  | none => exact ⟨[Effect.deleteNamespace nsName], rfl, by simp⟩
  | some e =>
    exact ⟨[Effect.log Log.failedToDeleteNamespace, Effect.deleteNamespace nsName], rfl, by simp⟩

/-- The part of a run after the apply phase: an error it returns is the error of
`deleteTestManifests` or of the final Delete, and it only adds to the trace. -/
theorem mutateAndVerify_spec (env : Env) (crpName nsName currency fleetSize : String)
    (cn : ClusterNames) (u : Bool) (s : State) (e : Option Err) (s' : State)
    (h : mutateAndVerify env crpName nsName currency fleetSize cn u s = some (e, s')) :
    (∀ x, e = some x → (u = true ∧ env.deleteTestManifests = some x) ∨ env.delete = some x) ∧
      ∃ new : List Effect, s'.trace = new ++ s.trace := by
  unfold mutateAndVerify at h
  cases u with
  | false =>
    simp only [Bool.false_eq_true, if_false, Option.some.injEq] at h
    have h1 := finalDelete_err env crpName (s.emit (Effect.timeNow env.deletionStartTime))
    have h2 := finalDelete_trace env crpName (s.emit (Effect.timeNow env.deletionStartTime))
    rw [h] at h1 h2
    simp only at h1 h2
    refine ⟨fun x hx => Or.inr (by rw [← h1, hx]),
      [Effect.hubDelete crpName, Effect.timeNow env.deletionStartTime], by rw [h2]; rfl⟩
  | true =>
    simp only [if_true] at h
    cases hd : env.deleteTestManifests with
    | some err =>
      simp only [hd, Option.some.injEq, Prod.mk.injEq] at h
      obtain ⟨h1, h2⟩ := h
      refine ⟨fun x hx => Or.inl ⟨rfl, by rw [h1, hx]⟩, ?_⟩
      rw [← h2]
      exact ⟨[Effect.log Log.placementFailed, Effect.deleteTestManifests nsName,
        Effect.log Log.removeNamespacedResources, Effect.timeNow env.deletionStartTime], rfl⟩
    | none =>
      simp only [hd] at h
      cases hr : resourcesDeletedCheck env crpName cn env.removalEvents
          (((s.emit (Effect.timeNow env.deletionStartTime)).logLine
            Log.removeNamespacedResources).emit (Effect.deleteTestManifests nsName)) with
      | none => simp [hr] at h
      | some s2 =>
        simp only [hr] at h
        cases hu : waitForCrpToCompleteUpdate env.deletionStartTime currency fleetSize
            env.updateEvents (s2.logLine Log.verifyUpdated) with
        | none => simp [hu] at h
        | some s3 =>
          simp only [hu, Option.some.injEq] at h
          have h1 := finalDelete_err env crpName s3
          have h2 := finalDelete_trace env crpName s3
          rw [h] at h1 h2
          simp only at h1 h2
          obtain ⟨_, _, l2, ht2⟩ := resourcesDeletedCheck_frame env crpName cn _ _ s2 hr
          obtain ⟨_, ⟨l3, ht3⟩, _⟩ := updateLoop_frame _ _ _ _ _ _ s3 hu
          refine ⟨fun x hx => Or.inr (by rw [← h1, hx]), ?_⟩
          refine ⟨Effect.hubDelete crpName :: (l3.map Effect.log ++ Effect.log Log.verifyUpdated ::
            (l2.map Effect.log ++ [Effect.deleteTestManifests nsName,
              Effect.log Log.removeNamespacedResources,
              Effect.timeNow env.deletionStartTime])), ?_⟩
          rw [h2, ht3]
          simp [State.logLine, State.emit, ht2]

/-- The part of a run after the Delete has been deferred: an error it returns is the
error of Create, of `deleteTestManifests` or of the final Delete, and the Create call
is in its trace. -/
theorem createAndMeasure_spec (env : Env) (crpName nsName currency : String)
    (cn : ClusterNames) (u : Bool) (s : State) (e : Option Err) (s' : State)
    (h : createAndMeasure env crpName nsName currency cn u s = some (e, s')) :
    (∀ x, e = some x →
      env.create = some x ∨ (u = true ∧ env.deleteTestManifests = some x) ∨ env.delete = some x) ∧
      Effect.hubCreate crpName ∈ s'.trace := by
  unfold createAndMeasure at h
  cases hc : env.create with
  | some err =>
    simp only [hc, Option.some.injEq, Prod.mk.injEq] at h
    obtain ⟨h1, h2⟩ := h
    refine ⟨fun x hx => Or.inl (by rw [h1, hx]), ?_⟩
    rw [← h2]
    simp [recordApplyFailed, State.logLine, State.emit]
  | none =>
    simp only [hc] at h
    split at h
    · simp at h
    · rename_i fs1 cn1 s2 hw
      obtain ⟨_, logs, ht⟩ := waitForCRPAvailable_frame _ _ _ _ _ _ _ _ _ hw
      have hmem : Effect.hubCreate crpName ∈ s2.trace := by rw [ht]; simp
      split at h
      · simp only [Option.some.injEq, Prod.mk.injEq] at h
        obtain ⟨h1, h2⟩ := h
        refine ⟨fun x hx => (by rw [← h1] at hx; cases hx), ?_⟩
        rw [← h2]; exact hmem
      · obtain ⟨h1, new, h2⟩ := mutateAndVerify_spec _ _ _ _ _ _ _ _ _ _ h
        refine ⟨fun x hx => Or.inr (h1 x hx), ?_⟩
        rw [h2]
        exact List.mem_append_right _ hmem

/-- The run from `createCRP` on: an error it returns is the error of `createCRP`, of
Create, of `deleteTestManifests` or of the final Delete; either `createCRP` failed and
nothing but its log line happened, or the deferred Delete ran last, after the Create. -/
theorem createPlacementAndMeasure_spec (env : Env) (crpName nsName currency : String)
    (cn : ClusterNames) (u : Bool) (s : State) (e : Option Err) (s' : State)
    (h : createPlacementAndMeasure env crpName nsName currency cn u s = some (e, s')) :
    (∀ x, e = some x →
      env.createCRP = some x ∨ env.create = some x ∨
        (u = true ∧ env.deleteTestManifests = some x) ∨ env.delete = some x) ∧
    ((s'.store = s.store ∧
        s'.trace = Effect.log Log.failedToCreateCrp :: Effect.createCRP crpName ::
          Effect.log Log.createPlacement :: s.trace) ∨
      (crpName ∉ s'.store ∧
        ∃ earlier, s'.trace = Effect.hubDeleteDeferred crpName :: earlier ∧
          Effect.hubCreate crpName ∈ earlier)) := by
  unfold createPlacementAndMeasure at h
  cases hc : env.createCRP with
  | some err =>
    simp only [hc, Option.some.injEq, Prod.mk.injEq] at h
    obtain ⟨h1, h2⟩ := h
    refine ⟨fun x hx => Or.inl (by rw [h1, hx]), Or.inl ?_⟩
    rw [← h2]
    exact ⟨rfl, rfl⟩
  | none =>
    simp only [hc, Option.map_eq_some'] at h
    obtain ⟨⟨e1, s1⟩, h1, h2⟩ := h
    simp only [Prod.mk.injEq] at h2
    obtain ⟨h2, h3⟩ := h2
    obtain ⟨h4, h5⟩ := createAndMeasure_spec _ _ _ _ _ _ _ _ _ h1
    refine ⟨fun x hx => Or.inr (h4 x (by rw [h2, hx])), Or.inr ?_⟩
    rw [← h3]
    exact ⟨removePlacement_not_mem crpName s1.store, s1.trace, rfl, h5⟩

theorem not_mem_setup_trace (crpName nsName : String) (later : List Effect)
    (hl : ∀ x ∈ later,
      x = Effect.deleteNamespace nsName ∨ x = Effect.log Log.failedToDeleteNamespace)
    (mid : List Effect) (hm : ∀ x ∈ mid, x ≠ Effect.hubCreate crpName) :
    Effect.hubCreate crpName ∉ later ++ mid := by
  intro h
  rcases List.mem_append.mp h with h1 | h1
  · rcases hl _ h1 with h2 | h2 <;> cases h2
  · exact hm _ h1 rfl

/-- A run returns as soon as each poll loop is given its deadline event. -/
theorem MeasureOnePlacement_returns (env : Env) (maxCurrentPlacement : Int)
    (clusterNames : ClusterNames) (useTestResources : Bool) (m : Metrics)
    (store : List String)
    (ha : PollEvent.deadline ∈ env.applyEvents)
    (hr : PollEvent.deadline ∈ env.removalEvents)
    (hu : ∃ it ∈ env.updateEvents, it.sel = PollEvent.deadline) :
    (MeasureOnePlacement env maxCurrentPlacement clusterNames useTestResources m store).isSome
      = true := by
  have hmut : ∀ (crpName nsName currency fleetSize : String) (cn : ClusterNames) (u : Bool)
      (s : State),
      (mutateAndVerify env crpName nsName currency fleetSize cn u s).isSome = true := by
    intro crpName nsName currency fleetSize cn u s
    unfold mutateAndVerify
    cases u with
    | false => rfl
    | true =>
      simp only [if_true]
      cases env.deleteTestManifests with
      | some err => rfl
      | none =>
        simp only
        have h1 := resourcesDeletedLoop_returns env crpName cn env.removalEvents hr
          ((((s.emit (Effect.timeNow env.deletionStartTime)).logLine
            Log.removeNamespacedResources).emit
            (Effect.deleteTestManifests nsName)).logLine Log.verifyDeleted)
        obtain ⟨s2, hs2⟩ := Option.isSome_iff_exists.mp h1
        unfold resourcesDeletedCheck
        rw [hs2]
        simp only
        have h2 := updateLoop_returns env.deletionStartTime currency fleetSize
          env.updateEvents hu zeroCRP (s2.logLine Log.verifyUpdated)
        obtain ⟨s3, hs3⟩ := Option.isSome_iff_exists.mp h2
        unfold waitForCrpToCompleteUpdate
        rw [hs3]
        rfl
  have hcm : ∀ (crpName nsName currency : String) (cn : ClusterNames) (u : Bool) (s : State),
      (createAndMeasure env crpName nsName currency cn u s).isSome = true := by
    intro crpName nsName currency cn u s
    unfold createAndMeasure
    cases env.create with
    | some err => rfl
    | none =>
      simp only
      have h1 := waitForCRPAvailable_returns env crpName currency "0" cn env.applyEvents ha
        { metrics := { s.metrics with crpCount := inc32 s.metrics.crpCount }
          store := crpName :: s.store
          trace := Effect.log Log.verifyApplied :: Effect.hubCreate crpName :: s.trace }
      obtain ⟨⟨⟨fs, cn1⟩, s2⟩, hs2⟩ := Option.isSome_iff_exists.mp h1
      rw [hs2]
      simp only
      split
      · rfl
      · exact hmut _ _ _ _ _ _ _
  have hcp : ∀ (crpName nsName currency : String) (cn : ClusterNames) (u : Bool) (s : State),
      (createPlacementAndMeasure env crpName nsName currency cn u s).isSome = true := by
    intro crpName nsName currency cn u s
    unfold createPlacementAndMeasure
    cases env.createCRP with
    | some err => rfl
    | none => simp only [Option.isSome_map']; exact hcm _ _ _ _ _ _
  unfold MeasureOnePlacement
  cases useTestResources with
  | false => simp only [Bool.false_eq_true, if_false, Option.isSome_map']; exact hcp _ _ _ _ _ _
  | true =>
    simp only [if_true, Option.isSome_map']
    cases env.applyTestManifests with
    | some err => rfl
    | none => exact hcp _ _ _ _ _ _

/-! ## C1: the errors a run returns -/

/-- C1, as stated, fails: with the three setup steps succeeding, a run returns the
error of a failing final `hubClient.Delete(ctx, crp)` (without auxiliary resources)
and the error of a failing `deleteTestManifests` (with auxiliary resources). -/
theorem MeasureOnePlacement_error_after_setup :
    envDeleteFails.applyTestManifests = none ∧ envDeleteFails.createCRP = none ∧
    envDeleteFails.create = none ∧
    (MeasureOnePlacement envDeleteFails 1 [] false zeroMetrics []).map (fun r => r.err)
      = some (some "delete failed") ∧
    envDeleteTestManifestsFails.applyTestManifests = none ∧
    envDeleteTestManifestsFails.createCRP = none ∧
    envDeleteTestManifestsFails.create = none ∧
    (MeasureOnePlacement envDeleteTestManifestsFails 1 [] true zeroMetrics []).map
      (fun r => r.err) = some (some "delete manifests failed") := by
  decide

/-- C1, amended: a run returns a non-nil error only when `applyTestManifests`,
`createCRP`, `hubClient.Create`, `deleteTestManifests` or the final
`hubClient.Delete(ctx, crp)` returned that error; when those calls succeed the result
is nil, whatever else happens: a timeout of a poll loop, a failing deferred Delete of
the placement and a failing deferred `deleteNamespace` never make the result
non-nil. -/
theorem MeasureOnePlacement_error_sources (env : Env) (maxCurrentPlacement : Int)
    (clusterNames : ClusterNames) (useTestResources : Bool) (m : Metrics)
    (store : List String) (r : RunResult)
    (h : MeasureOnePlacement env maxCurrentPlacement clusterNames useTestResources m store
      = some r) :
    (∀ x, r.err = some x →
      (useTestResources = true ∧ env.applyTestManifests = some x) ∨
      env.createCRP = some x ∨ env.create = some x ∨
      (useTestResources = true ∧ env.deleteTestManifests = some x) ∨
      env.delete = some x) ∧
    ((useTestResources = true → env.applyTestManifests = none) → env.createCRP = none →
      env.create = none → (useTestResources = true → env.deleteTestManifests = none) →
      env.delete = none → r.err = none) := by
  have hsrc : ∀ x, r.err = some x →
      (useTestResources = true ∧ env.applyTestManifests = some x) ∨
      env.createCRP = some x ∨ env.create = some x ∨
      (useTestResources = true ∧ env.deleteTestManifests = some x) ∨
      env.delete = some x := by
    intro x hx
    unfold MeasureOnePlacement at h
    cases useTestResources with
    | false =>
      simp only [Bool.false_eq_true, if_false, Option.map_eq_some'] at h
      obtain ⟨⟨e1, s1⟩, h1, h2⟩ := h
      obtain ⟨h3, _⟩ := createPlacementAndMeasure_spec _ _ _ _ _ _ _ _ _ h1
      have he : e1 = some x := by rw [← hx, ← h2]
      exact Or.inr (h3 x he)
    | true =>
      simp only [if_true, Option.map_eq_some'] at h
      obtain ⟨⟨e1, s1⟩, ⟨⟨e2, s2⟩, h1, h1'⟩, h2⟩ := h
      have he : e2 = some x := by
        rw [← hx, ← h2]
        simp only [Prod.mk.injEq] at h1'
        exact h1'.1
      cases ha : env.applyTestManifests with
      | some err =>
        simp only [ha, Option.some.injEq, Prod.mk.injEq] at h1
        exact Or.inl ⟨rfl, by rw [h1.1, he]⟩
      | none =>
        simp only [ha] at h1
        obtain ⟨h3, _⟩ := createPlacementAndMeasure_spec _ _ _ _ _ _ _ _ _ h1
        exact Or.inr (h3 x he)
  refine ⟨hsrc, fun h1 h2 h3 h4 h5 => ?_⟩
  cases hr : r.err with
  | none => rfl
  | some x =>
    rcases hsrc x hr with ⟨hu, ha⟩ | ha | ha | ⟨hu, ha⟩ | ha
    · rw [h1 hu] at ha; cases ha
    · rw [h2] at ha; cases ha
    · rw [h3] at ha; cases ha
    · rw [h4 hu] at ha; cases ha
    · rw [h5] at ha; cases ha

/-- The amended C1 at the run of `envDeleteFails`: it returns, and its error is that
of the final Delete. -/
theorem MeasureOnePlacement_error_sources_witness :
    ∃ r, MeasureOnePlacement envDeleteFails 1 [] false zeroMetrics [] = some r ∧
      r.err = some "delete failed" ∧
      (∀ x, r.err = some x →
        (false = true ∧ envDeleteFails.applyTestManifests = some x) ∨
        envDeleteFails.createCRP = some x ∨ envDeleteFails.create = some x ∨
        (false = true ∧ envDeleteFails.deleteTestManifests = some x) ∨
        envDeleteFails.delete = some x) ∧
      ((false = true → envDeleteFails.applyTestManifests = none) →
        envDeleteFails.createCRP = none → envDeleteFails.create = none →
        (false = true → envDeleteFails.deleteTestManifests = none) →
        envDeleteFails.delete = none → r.err = none) :=
  ⟨_, rfl, rfl,
    MeasureOnePlacement_error_sources envDeleteFails 1 [] false zeroMetrics [] _ rfl⟩

/-! ## C2: the placement is gone when the run returns -/

/-- C2: when a run returns, the placement object it names is not in the store if it
was not there at the start, and on every path on which `hubClient.Create` was called
the object is not in the store and a deferred Delete of it was issued after the
Create. -/
theorem MeasureOnePlacement_cleanup (env : Env) (maxCurrentPlacement : Int)
    (clusterNames : ClusterNames) (useTestResources : Bool) (m : Metrics)
    (store : List String) (r : RunResult)
    (h : MeasureOnePlacement env maxCurrentPlacement clusterNames useTestResources m store
      = some r) :
    (crpPrefix ++ env.randCrp ∉ store → crpPrefix ++ env.randCrp ∉ r.store) ∧
    (Effect.hubCreate (crpPrefix ++ env.randCrp) ∈ r.trace →
      crpPrefix ++ env.randCrp ∉ r.store ∧
      ∃ later earlier,
        r.trace = later ++ Effect.hubDeleteDeferred (crpPrefix ++ env.randCrp) :: earlier ∧
        Effect.hubCreate (crpPrefix ++ env.randCrp) ∈ earlier) := by
  unfold MeasureOnePlacement at h
  cases useTestResources with
  | false =>
    simp only [Bool.false_eq_true, if_false, Option.map_eq_some'] at h
    obtain ⟨⟨e1, s1⟩, h1, h2⟩ := h
    obtain ⟨_, h3⟩ := createPlacementAndMeasure_spec _ _ _ _ _ _ _ _ _ h1
    rw [← h2]
    rcases h3 with ⟨hs, ht⟩ | ⟨hs, earlier, ht, hm⟩
    · refine ⟨fun hn => by simpa [hs] using hn, fun hc => ?_⟩
      simp [ht] at hc
    · exact ⟨fun _ => hs, fun _ => ⟨hs, [], earlier, by simpa using ht, hm⟩⟩
  | true =>
    simp only [if_true, Option.map_eq_some'] at h
    obtain ⟨⟨e1, s1⟩, ⟨⟨e2, s2⟩, h1, h1'⟩, h2⟩ := h
    simp only [Prod.mk.injEq] at h1'
    obtain ⟨_, h1'⟩ := h1'
    obtain ⟨later, hl, hlater⟩ := deferredDeleteNamespace_trace env (nsPrefix ++ env.randNs) s2
    have hst := deferredDeleteNamespace_store env (nsPrefix ++ env.randNs) s2
    rw [h1'] at hl hst
    rw [← h2]
    simp only
    cases ha : env.applyTestManifests with
    | some err =>
      simp only [ha, Option.some.injEq, Prod.mk.injEq] at h1
      obtain ⟨_, h1⟩ := h1
      refine ⟨fun hn => by rw [hst, ← h1]; exact hn, fun hc => ?_⟩
      rw [hl, ← h1] at hc
      exact absurd hc (not_mem_setup_trace _ _ later hlater _
        (by simp [State.logLine, State.emit]))
    | none =>
      simp only [ha] at h1
      obtain ⟨_, h3⟩ := createPlacementAndMeasure_spec _ _ _ _ _ _ _ _ _ h1
      rcases h3 with ⟨hs, ht⟩ | ⟨hs, earlier, ht, hm⟩
      · refine ⟨fun hn => by rw [hst, hs]; exact hn, fun hc => ?_⟩
        rw [hl, ht] at hc
        exact absurd hc (not_mem_setup_trace _ _ later hlater _
          (by simp [State.logLine, State.emit]))
      · rw [hst]
        exact ⟨fun _ => hs, fun _ => ⟨hs, later, earlier, by rw [hl, ht], hm⟩⟩

/-- C2 at the run of `sampleEnv` with auxiliary resources on a store holding another
placement: the run returns and its placement is not in the store. -/
theorem MeasureOnePlacement_cleanup_witness :
    ∃ r, MeasureOnePlacement sampleEnv 1 [] true zeroMetrics ["other"] = some r ∧
      r.store = ["other"] ∧
      (crpPrefix ++ sampleEnv.randCrp ∉ ["other"] → crpPrefix ++ sampleEnv.randCrp ∉ r.store) ∧
      (Effect.hubCreate (crpPrefix ++ sampleEnv.randCrp) ∈ r.trace →
        crpPrefix ++ sampleEnv.randCrp ∉ r.store ∧
        ∃ later earlier,
          r.trace = later ++ Effect.hubDeleteDeferred (crpPrefix ++ sampleEnv.randCrp) :: earlier ∧
          Effect.hubCreate (crpPrefix ++ sampleEnv.randCrp) ∈ earlier) :=
  ⟨_, rfl, by decide,
    MeasureOnePlacement_cleanup sampleEnv 1 [] true zeroMetrics ["other"] _ rfl⟩

/-! ## C3: an apply phase that ends on the deadline -/

theorem applyTickLog_cases (t : Tick) :
    applyTickLog t = Log.failedToGetCrp ∨ applyTickLog t = Log.applyFailedTryingAgain ∨
      applyTickLog t = Log.applyPending := by
  unfold applyTickLog
  cases t.fetch with
  | none => exact Or.inl rfl
  | some crp =>
    simp only
    split
    · exact Or.inr (Or.inl rfl)
    · exact Or.inr (Or.inr rfl)

theorem mem_applyTickLogs (ticks : List Tick) (x : Effect)
    (hx : x ∈ ((ticks.map applyTickLog).map Effect.log).reverse) :
    x = Effect.log Log.failedToGetCrp ∨ x = Effect.log Log.applyFailedTryingAgain ∨
      x = Effect.log Log.applyPending := by
  simp only [List.mem_reverse, List.mem_map] at hx
  obtain ⟨l, ⟨t, _, ht⟩, hl⟩ := hx
  rw [← hl, ← ht]
  rcases applyTickLog_cases t with h | h | h <;> simp [h]

/-- The state in which `waitForCRPAvailable` is entered (lines 122-124). -/
theorem createAndMeasure_apply_timeout (env : Env) (crpName nsName currency : String)
    (cn : ClusterNames) (u : Bool) (s : State) (ticks : List Tick)
    (rest : List (PollEvent Tick)) (hcreate : env.create = none)
    (hev : env.applyEvents = ticks.map PollEvent.tick ++ PollEvent.deadline :: rest)
    (hnever : ∀ t ∈ ticks, applyTickWaits t = true) :
    createAndMeasure env crpName nsName currency cn u s
      = some (none,
          { metrics :=
              { s.metrics with
                crpCount := inc32 s.metrics.crpCount
                applyTimeoutCount := inc32 s.metrics.applyTimeoutCount
                LoadTestApplyCountMetric :=
                  (currency, "0", "timeout") :: s.metrics.LoadTestApplyCountMetric }
            store := crpName :: s.store
            trace := Effect.log Log.applyTimeout ::
              (((ticks.map applyTickLog).map Effect.log).reverse ++
                Effect.log Log.verifyApplied :: Effect.hubCreate crpName :: s.trace) }) := by
  unfold createAndMeasure
  simp only [hcreate, hev]
  rw [waitForCRPAvailable_waiting_ticks env crpName currency "0" cn _ ticks _ hnever]
  simp only [waitForCRPAvailable, if_true, Option.some.injEq, Prod.mk.injEq, true_and]
  simp only [recordApplyTimeout, State.logLine, State.emit, logLines_metrics, logLines_store,
    logLines_trace]

/-- C3 (scenario A): when setup succeeds and every tick taken before the deadline
event fails to fetch a placement with a current-and-true Available condition, the run
returns nil; it increments `applyTimeoutCount` once, with the label
`(currency, "0", "timeout")`, and changes no other apply or update outcome; it calls
neither `deleteTestManifests` nor the two verifications nor the final Delete, and the
deferred Delete of the placement is issued and removes it from the store. -/
theorem MeasureOnePlacement_apply_timeout (env : Env) (maxCurrentPlacement : Int)
    (clusterNames : ClusterNames) (useTestResources : Bool) (m : Metrics)
    (store : List String) (ticks : List Tick) (rest : List (PollEvent Tick))
    (hsetup : useTestResources = true → env.applyTestManifests = none)
    (hcrp : env.createCRP = none) (hcreate : env.create = none)
    (hev : env.applyEvents = ticks.map PollEvent.tick ++ PollEvent.deadline :: rest)
    (hnever : ∀ t ∈ ticks, applyTickWaits t = true) :
    ∃ r, MeasureOnePlacement env maxCurrentPlacement clusterNames useTestResources m store
        = some r ∧
      r.err = none ∧
      r.metrics =
        { m with
          crpCount := inc32 m.crpCount
          applyTimeoutCount := inc32 m.applyTimeoutCount
          LoadTestApplyCountMetric :=
            (toString maxCurrentPlacement, "0", "timeout") :: m.LoadTestApplyCountMetric } ∧
      (m.applyTimeoutCount ≠ 2147483647 →
        r.metrics.applyTimeoutCount = m.applyTimeoutCount + 1) ∧
      r.metrics.applySuccessCount = m.applySuccessCount ∧
      r.metrics.applyFailCount = m.applyFailCount ∧
      r.metrics.updateSuccessCount = m.updateSuccessCount ∧
      r.metrics.updateFailCount = m.updateFailCount ∧
      r.metrics.updateTimeoutCount = m.updateTimeoutCount ∧
      r.metrics.LoadTestUpdateCountMetric = m.LoadTestUpdateCountMetric ∧
      Effect.deleteTestManifests (nsPrefix ++ env.randNs) ∉ r.trace ∧
      Effect.log Log.verifyDeleted ∉ r.trace ∧
      Effect.log Log.verifyUpdated ∉ r.trace ∧
      Effect.hubDelete (crpPrefix ++ env.randCrp) ∉ r.trace ∧
      Effect.hubDeleteDeferred (crpPrefix ++ env.randCrp) ∈ r.trace ∧
      crpPrefix ++ env.randCrp ∉ r.store := by
  have hne1 : ∀ t : Tick, applyTickLog t ≠ Log.verifyDeleted := fun t h => by
    rcases applyTickLog_cases t with h1 | h1 | h1 <;> rw [h1] at h <;> cases h
  have hne2 : ∀ t : Tick, applyTickLog t ≠ Log.verifyUpdated := fun t h => by
    rcases applyTickLog_cases t with h1 | h1 | h1 <;> rw [h1] at h <;> cases h
  cases useTestResources with
  | false =>
    refine ⟨_, by
      unfold MeasureOnePlacement createPlacementAndMeasure
      simp only [Bool.false_eq_true, if_false, hcrp]
      rw [createAndMeasure_apply_timeout env _ _ _ _ _ _ ticks rest hcreate hev hnever]
      rfl, ?_⟩
    refine ⟨rfl, rfl, fun hne => inc32_eq_add_one _ hne, rfl, rfl, rfl, rfl, rfl, rfl,
      ?_, ?_, ?_, ?_, ?_, ?_⟩
    all_goals
      simp [deferredDelete, State.emit, State.logLine, removePlacement, hne1, hne2]
  | true =>
    cases hd : env.deleteNamespace with
    | none =>
      refine ⟨_, by
        unfold MeasureOnePlacement createPlacementAndMeasure
        simp only [if_true, hsetup rfl, hcrp]
        rw [createAndMeasure_apply_timeout env _ _ _ _ _ _ ticks rest hcreate hev hnever]
        simp only [Option.map_some', deferredDeleteNamespace, hd]
        rfl, ?_⟩
      refine ⟨rfl, rfl, fun hne => inc32_eq_add_one _ hne, rfl, rfl, rfl, rfl, rfl, rfl,
        ?_, ?_, ?_, ?_, ?_, ?_⟩
      all_goals
        simp [deferredDelete, State.emit, State.logLine, removePlacement, hne1, hne2]
    | some err =>
      refine ⟨_, by
        unfold MeasureOnePlacement createPlacementAndMeasure
        simp only [if_true, hsetup rfl, hcrp]
        rw [createAndMeasure_apply_timeout env _ _ _ _ _ _ ticks rest hcreate hev hnever]
        simp only [Option.map_some', deferredDeleteNamespace, hd]
        rfl, ?_⟩
      refine ⟨rfl, rfl, fun hne => inc32_eq_add_one _ hne, rfl, rfl, rfl, rfl, rfl, rfl,
        ?_, ?_, ?_, ?_, ?_, ?_⟩
      all_goals
        simp [deferredDelete, State.emit, State.logLine, removePlacement, hne1, hne2]

/-- C3 at the run of `envNeverAvailable`: a failed fetch, a stale condition and a
false condition, then the deadline. -/
theorem MeasureOnePlacement_apply_timeout_witness :
    ∃ r, MeasureOnePlacement envNeverAvailable 1 [] true zeroMetrics [] = some r ∧
      r.err = none ∧
      r.metrics =
        { zeroMetrics with
          crpCount := inc32 zeroMetrics.crpCount
          applyTimeoutCount := inc32 zeroMetrics.applyTimeoutCount
          LoadTestApplyCountMetric :=
            (toString (1 : Int), "0", "timeout") :: zeroMetrics.LoadTestApplyCountMetric } ∧
      (zeroMetrics.applyTimeoutCount ≠ 2147483647 →
        r.metrics.applyTimeoutCount = zeroMetrics.applyTimeoutCount + 1) ∧
      r.metrics.applySuccessCount = zeroMetrics.applySuccessCount ∧
      r.metrics.applyFailCount = zeroMetrics.applyFailCount ∧
      r.metrics.updateSuccessCount = zeroMetrics.updateSuccessCount ∧
      r.metrics.updateFailCount = zeroMetrics.updateFailCount ∧
      r.metrics.updateTimeoutCount = zeroMetrics.updateTimeoutCount ∧
      r.metrics.LoadTestUpdateCountMetric = zeroMetrics.LoadTestUpdateCountMetric ∧
      Effect.deleteTestManifests (nsPrefix ++ envNeverAvailable.randNs) ∉ r.trace ∧
      Effect.log Log.verifyDeleted ∉ r.trace ∧
      Effect.log Log.verifyUpdated ∉ r.trace ∧
      Effect.hubDelete (crpPrefix ++ envNeverAvailable.randCrp) ∉ r.trace ∧
      Effect.hubDeleteDeferred (crpPrefix ++ envNeverAvailable.randCrp) ∈ r.trace ∧
      crpPrefix ++ envNeverAvailable.randCrp ∉ r.store :=
  MeasureOnePlacement_apply_timeout envNeverAvailable 1 [] true zeroMetrics []
    [{ now := 1, fetch := none }, { now := 2, fetch := some staleCRP },
      { now := 3, fetch := some failingCRP }] []
    (fun _ => rfl) rfl rfl rfl (by decide)

/-! ## C4: the outcome recorded by the apply phase -/

/-- C4, as stated, fails: when the placement is available but `getFleetSize` returns
an error, `waitForCRPAvailable` returns without a change to any metric variable, so
neither `applySuccessCount` nor `applyTimeoutCount` was increased. -/
theorem waitForCRPAvailable_return_without_outcome :
    (waitForCRPAvailable envFleetSizeFails "load-test-placement-a" "1" "0" []
        [PollEvent.tick { now := 5, fetch := some availableCRP }] zeroState).map
      (fun p => (p.1, p.2.metrics)) = some (("", []), zeroMetrics) := by
  decide

/-- C4, amended: every return of `waitForCRPAvailable` other than the one that follows
a failed `getFleetSize` has increased exactly one apply outcome counter.  On the
deadline it increases `applyTimeoutCount` alone, once, with the label
`(currency, fleetSize, "timeout")`.  On a tick with an available placement whose fleet
size is derived it increases `applySuccessCount` alone, once, with the label
`(currency, fleetSize, "succeed")` and exactly one latency sample.  The only other
return is the one on a tick with an available placement for which `getFleetSize`
returned an error. -/
theorem waitForCRPAvailable_outcome (env : Env) (crpName currency fleetSize : String)
    (cn : ClusterNames) (events : List (PollEvent Tick)) (s : State)
    (r : String × ClusterNames) (s' : State)
    (h : waitForCRPAvailable env crpName currency fleetSize cn events s = some (r, s')) :
    (PollEvent.deadline ∈ events ∧ r = (fleetSize, cn) ∧
      s'.metrics =
        { s.metrics with
          applyTimeoutCount := inc32 s.metrics.applyTimeoutCount
          LoadTestApplyCountMetric :=
            (currency, fleetSize, "timeout") :: s.metrics.LoadTestApplyCountMetric } ∧
      (s.metrics.applyTimeoutCount ≠ 2147483647 →
        s'.metrics.applyTimeoutCount = s.metrics.applyTimeoutCount + 1))
    ∨ (∃ t crp, PollEvent.tick t ∈ events ∧ t.fetch = some crp ∧
        IsConditionStatusTrue
          (crp.GetCondition ClusterResourcePlacementAvailableConditionType) crp.generation = true ∧
        env.getFleetSize crp cn = (r.1, r.2, none) ∧
        s'.metrics =
          { s.metrics with
            applySuccessCount := inc32 s.metrics.applySuccessCount
            LoadTestApplyCountMetric :=
              (currency, r.1, "succeed") :: s.metrics.LoadTestApplyCountMetric
            applyQuantile := (t.now - env.startTime) :: s.metrics.applyQuantile
            ApplyLatencyCountMetric :=
              (currency, r.1, t.now - env.startTime) :: s.metrics.ApplyLatencyCountMetric } ∧
        (s.metrics.applySuccessCount ≠ 2147483647 →
          s'.metrics.applySuccessCount = s.metrics.applySuccessCount + 1))
    ∨ (∃ t crp cn1 e, PollEvent.tick t ∈ events ∧ t.fetch = some crp ∧
        IsConditionStatusTrue
          (crp.GetCondition ClusterResourcePlacementAvailableConditionType) crp.generation = true ∧
        env.getFleetSize crp cn = (r.1, cn1, some e) ∧ r.2 = []) := by
  rcases waitForCRPAvailable_kinds env crpName currency fleetSize cn events s r s' h with
    ⟨h1, h2, h3⟩ | ⟨t, crp, h1, h2, h3, h4, h5⟩ | ⟨t, crp, cn1, e, h1, h2, h3, h4, h5, _⟩
  · left
    refine ⟨h1, h2, h3, fun hne => ?_⟩
    rw [h3]
    exact inc32_eq_add_one _ hne
  · right; left
    refine ⟨t, crp, h1, h2, h3, h4, h5, fun hne => ?_⟩
    rw [h5]
    exact inc32_eq_add_one _ hne
  · right; right
    exact ⟨t, crp, cn1, e, h1, h2, h3, h4, h5⟩

/-- The amended C4 at the apply phase of `sampleEnv`: it returns on its first tick with
the fleet size `"1"`. -/
theorem waitForCRPAvailable_outcome_witness :
    ∃ r s', waitForCRPAvailable sampleEnv "load-test-placement-a" "1" "0" []
        sampleEnv.applyEvents zeroState = some (r, s') ∧
      r = ("1", ["member-1"]) ∧
      s'.metrics.applySuccessCount = 1 ∧ s'.metrics.applyTimeoutCount = 0 ∧
      s'.metrics.applyQuantile = [5] ∧
      ((PollEvent.deadline ∈ sampleEnv.applyEvents ∧ r = ("0", []) ∧
        s'.metrics =
          { zeroState.metrics with
            applyTimeoutCount := inc32 zeroState.metrics.applyTimeoutCount
            LoadTestApplyCountMetric :=
              ("1", "0", "timeout") :: zeroState.metrics.LoadTestApplyCountMetric } ∧
        (zeroState.metrics.applyTimeoutCount ≠ 2147483647 →
          s'.metrics.applyTimeoutCount = zeroState.metrics.applyTimeoutCount + 1))
      ∨ (∃ t crp, PollEvent.tick t ∈ sampleEnv.applyEvents ∧ t.fetch = some crp ∧
          IsConditionStatusTrue
            (crp.GetCondition ClusterResourcePlacementAvailableConditionType) crp.generation
              = true ∧
          sampleEnv.getFleetSize crp [] = (r.1, r.2, none) ∧
          s'.metrics =
            { zeroState.metrics with
              applySuccessCount := inc32 zeroState.metrics.applySuccessCount
              LoadTestApplyCountMetric :=
                ("1", r.1, "succeed") :: zeroState.metrics.LoadTestApplyCountMetric
              applyQuantile := (t.now - sampleEnv.startTime) :: zeroState.metrics.applyQuantile
              ApplyLatencyCountMetric :=
                ("1", r.1, t.now - sampleEnv.startTime) ::
                  zeroState.metrics.ApplyLatencyCountMetric } ∧
          (zeroState.metrics.applySuccessCount ≠ 2147483647 →
            s'.metrics.applySuccessCount = zeroState.metrics.applySuccessCount + 1))
      ∨ (∃ t crp cn1 e, PollEvent.tick t ∈ sampleEnv.applyEvents ∧ t.fetch = some crp ∧
          IsConditionStatusTrue
            (crp.GetCondition ClusterResourcePlacementAvailableConditionType) crp.generation
              = true ∧
          sampleEnv.getFleetSize crp [] = (r.1, cn1, some e) ∧ r.2 = [])) :=
  ⟨_, _, rfl, by decide, by decide, by decide, by decide,
    waitForCRPAvailable_outcome sampleEnv "load-test-placement-a" "1" "0" []
      sampleEnv.applyEvents zeroState _ _ rfl⟩

/-! ## C5: the conditions that decide the update outcome -/

/-- C5 fails on the code: in `staleConditionIters` the placement fetched on the tick
has its Applied, WorkSynchronized and Scheduled conditions false, yet
`waitForCrpToCompleteUpdate` records an update success on that tick, because the three
conditions it tests were read (lines 258-260) from the placement fetched at the head of
the iteration, before the tick. -/
theorem waitForCrpToCompleteUpdate_success_on_stale_conditions :
    waitForCrpToCompleteUpdate 6 "1" "1" staleConditionIters zeroState
      = some (recordUpdateSuccess "1" "1" 3 (zeroState.logLine Log.updateSucceeded)) ∧
    (recordUpdateSuccess "1" "1" 3 (zeroState.logLine Log.updateSucceeded)).metrics.updateSuccessCount
      = 1 ∧
    IsConditionStatusTrue
      (failingCRP.GetCondition ClusterResourcePlacementAppliedConditionType)
      failingCRP.generation = false ∧
    IsConditionStatusTrue
      (failingCRP.GetCondition ClusterResourcePlacementWorkSynchronizedConditionType)
      failingCRP.generation = false ∧
    IsConditionStatusTrue
      (failingCRP.GetCondition ClusterResourcePlacementScheduledConditionType)
      failingCRP.generation = false := by
  decide

/-! ## C6: stale and absent conditions -/

/-- C6: for an absent condition and for a condition whose observedGeneration differs
from the generation `g`, `IsConditionStatusTrue` and `IsConditionStatusFalse` both
return false, and a tick of `waitForCRPAvailable` that fetches a placement of
generation `g` with that Available condition takes the pending branch: it writes the
pending log line, changes nothing else and goes on with the next event. -/
theorem stale_condition_pending (cond : Option Condition) (g : Int)
    (hstale : ∀ c, cond = some c → c.observedGeneration ≠ g) :
    IsConditionStatusTrue cond g = false ∧ IsConditionStatusFalse cond g = false ∧
    ∀ (env : Env) (crpName currency fleetSize : String) (cn : ClusterNames) (t : Tick)
      (crp : ClusterResourcePlacement) (rest : List (PollEvent Tick)) (s : State),
      t.fetch = some crp →
      crp.GetCondition ClusterResourcePlacementAvailableConditionType = cond →
      crp.generation = g →
      waitForCRPAvailable env crpName currency fleetSize cn (PollEvent.tick t :: rest) s
        = waitForCRPAvailable env crpName currency fleetSize cn rest
            (s.logLine Log.applyPending) := by
  have h1 : IsConditionStatusTrue cond g = false := by
    cases cond with
    | none => rfl
    | some c => simp [IsConditionStatusTrue, hstale c rfl]
  have h2 : IsConditionStatusFalse cond g = false := by
    cases cond with
    | none => rfl
    | some c => simp [IsConditionStatusFalse, hstale c rfl]
  refine ⟨h1, h2, ?_⟩
  intro env crpName currency fleetSize cn t crp rest s hf hc hg
  subst hc hg
  simp [waitForCRPAvailable, hf, h1, h2]

/-- C6 at the Available condition of `staleCRP`, computed for generation 1 on a
placement of generation 2. -/
theorem stale_condition_pending_witness :
    staleCRP.GetCondition ClusterResourcePlacementAvailableConditionType
      = some { type := "Available", status := "True", observedGeneration := 1 } ∧
    IsConditionStatusTrue
      (some { type := "Available", status := "True", observedGeneration := 1 }) 2 = false ∧
    IsConditionStatusFalse
      (some { type := "Available", status := "True", observedGeneration := 1 }) 2 = false ∧
    ∀ (env : Env) (crpName currency fleetSize : String) (cn : ClusterNames) (t : Tick)
      (crp : ClusterResourcePlacement) (rest : List (PollEvent Tick)) (s : State),
      t.fetch = some crp →
      crp.GetCondition ClusterResourcePlacementAvailableConditionType
        = some { type := "Available", status := "True", observedGeneration := 1 } →
      crp.generation = 2 →
      waitForCRPAvailable env crpName currency fleetSize cn (PollEvent.tick t :: rest) s
        = waitForCRPAvailable env crpName currency fleetSize cn rest
            (s.logLine Log.applyPending) :=
  ⟨by decide,
    stale_condition_pending
      (some { type := "Available", status := "True", observedGeneration := 1 }) 2
      (fun c hc => by cases hc; decide)⟩

/-! ## C7: a cancelled context -/

theorem waitForCRPAvailable_failed_ticks (env : Env) (crpName currency fleetSize : String)
    (cn : ClusterNames) (rest : List (PollEvent Tick)) :
    ∀ (nows : List Int) (s : State),
      waitForCRPAvailable env crpName currency fleetSize cn
          (nows.map (fun n => PollEvent.tick { now := n, fetch := none }) ++ rest) s
        = waitForCRPAvailable env crpName currency fleetSize cn rest
            (s.logLines (List.replicate nows.length Log.failedToGetCrp)) := by
  intro nows
  induction nows with
  | nil => intro s; rfl
  | cons n nows ih =>
    intro s
    simp only [List.map_cons, List.cons_append, List.length_cons, List.replicate_succ,
      logLines_cons]
    rw [← ih (s.logLine Log.failedToGetCrp)]
    simp [waitForCRPAvailable]

theorem resourcesDeletedLoop_failed_ticks (env : Env) (crpName : String) (cn : ClusterNames)
    (rest : List (PollEvent RemovalTick)) :
    ∀ (works : List (String → String → Option Work)) (s : State),
      resourcesDeletedLoop env crpName cn
          (works.map (fun w => PollEvent.tick { fetch := none, works := w }) ++ rest) s
        = resourcesDeletedLoop env crpName cn rest
            (s.logLines (List.replicate works.length Log.failedToGetCrp)) := by
  intro works
  induction works with
  | nil => intro s; rfl
  | cons w works ih =>
    intro s
    simp only [List.map_cons, List.cons_append, List.length_cons, List.replicate_succ,
      logLines_cons]
    rw [← ih (s.logLine Log.failedToGetCrp)]
    simp [resourcesDeletedLoop]

theorem updateLoop_failed_iters (deletionStartTime : Int) (currency fleetSize : String)
    (rest : List UpdateIter) :
    ∀ (nows : List Int) (crp : ClusterResourcePlacement) (s : State),
      updateLoop deletionStartTime currency fleetSize
          (nows.map (fun n =>
            { top := none, sel := PollEvent.tick { now := n, fetch := none } }) ++ rest) crp s
        = updateLoop deletionStartTime currency fleetSize rest crp
            (s.logLines (List.replicate (2 * nows.length) Log.failedToGetCrp)) := by
  intro nows
  induction nows with
  | nil => intro crp s; rfl
  | cons n nows ih =>
    intro crp s
    have hlen : 2 * (n :: nows).length = 2 * nows.length + 1 + 1 := by
      simp only [List.length_cons]; omega
    simp only [List.map_cons, List.cons_append, hlen, List.replicate_succ, logLines_cons]
    rw [← ih crp ((s.logLine Log.failedToGetCrp).logLine Log.failedToGetCrp)]
    rw [updateLoop_tick_fetchError]
    rfl

/-- C7, as stated, fails: under a cancelled context, where every Get returns the error
of the context, `waitForCRPAvailable` has not returned after three ticks; it returns
when the deadline event is taken, and then with the timeout outcome:
`applyTimeoutCount` is incremented. -/
theorem waitForCRPAvailable_cancelled_waits_for_deadline :
    waitForCRPAvailable sampleEnv "load-test-placement-a" "1" "0" [] cancelledTicks zeroState
      = none ∧
    (waitForCRPAvailable sampleEnv "load-test-placement-a" "1" "0" []
        (cancelledTicks ++ [PollEvent.deadline]) zeroState).map
      (fun p => (p.2.metrics.applyTimeoutCount, p.2.metrics.LoadTestApplyCountMetric))
      = some (1, [("1", "0", "timeout")]) := by
  decide

/-- C7, amended: the poll loops have no case for a cancelled context.  While every Get
fails, as it does under a cancelled context, none of the three loops returns on a
tick, however many ticks are taken; each returns when the deadline event is taken,
and then with its timeout outcome: `applyTimeoutCount` and `updateTimeoutCount` are
incremented with the label "timeout", and `resourcesDeletedCheck` writes its timeout
log line. -/
theorem poll_loops_cancelled_return_on_deadline (env : Env)
    (crpName currency fleetSize : String) (cn : ClusterNames) (deletionStartTime : Int)
    (nows : List Int) (works : List (String → String → Option Work)) (s : State) :
    waitForCRPAvailable env crpName currency fleetSize cn
        (nows.map (fun n => PollEvent.tick { now := n, fetch := none })) s = none ∧
    (∀ rest, waitForCRPAvailable env crpName currency fleetSize cn
        (nows.map (fun n => PollEvent.tick { now := n, fetch := none })
          ++ PollEvent.deadline :: rest) s
      = some ((fleetSize, cn),
          recordApplyTimeout currency fleetSize
            ((s.logLines (List.replicate nows.length Log.failedToGetCrp)).logLine
              Log.applyTimeout))) ∧
    resourcesDeletedCheck env crpName cn
        (works.map (fun w => PollEvent.tick { fetch := none, works := w })) s = none ∧
    (∀ rest, resourcesDeletedCheck env crpName cn
        (works.map (fun w => PollEvent.tick { fetch := none, works := w })
          ++ PollEvent.deadline :: rest) s
      = some (((s.logLine Log.verifyDeleted).logLines
          (List.replicate works.length Log.failedToGetCrp)).logLine Log.deleteTimeout)) ∧
    waitForCrpToCompleteUpdate deletionStartTime currency fleetSize
        (nows.map (fun n =>
          { top := none, sel := PollEvent.tick { now := n, fetch := none } })) s = none ∧
    (∀ rest, waitForCrpToCompleteUpdate deletionStartTime currency fleetSize
        (nows.map (fun n =>
          { top := none, sel := PollEvent.tick { now := n, fetch := none } })
          ++ { top := none, sel := PollEvent.deadline } :: rest) s
      = some (recordUpdateTimeout currency fleetSize
          (((s.logLines (List.replicate (2 * nows.length) Log.failedToGetCrp)).logLine
            Log.failedToGetCrp).logLine Log.updateTimeout))) := by
  refine ⟨?_, ?_, ?_, ?_, ?_, ?_⟩
  · have h := waitForCRPAvailable_failed_ticks env crpName currency fleetSize cn [] nows s
    rw [List.append_nil] at h
    rw [h]
    rfl
  · intro rest
    rw [waitForCRPAvailable_failed_ticks]
    rfl
  · have h := resourcesDeletedLoop_failed_ticks env crpName cn [] works
      (s.logLine Log.verifyDeleted)
    rw [List.append_nil] at h
    unfold resourcesDeletedCheck
    rw [h]
    rfl
  · intro rest
    unfold resourcesDeletedCheck
    rw [resourcesDeletedLoop_failed_ticks]
    rfl
  · have h := updateLoop_failed_iters deletionStartTime currency fleetSize [] nows zeroCRP s
    rw [List.append_nil] at h
    unfold waitForCrpToCompleteUpdate
    rw [h]
    rfl
  · intro rest
    unfold waitForCrpToCompleteUpdate
    rw [updateLoop_failed_iters]
    rfl

/-! ## C8: failed fetches -/

theorem resourcesDeletedLoop_all_fetches_fail (env : Env) (crpName : String)
    (cn : ClusterNames) :
    ∀ (events : List (PollEvent RemovalTick)) (s s' : State),
      (∀ t, PollEvent.tick t ∈ events → t.fetch = none) →
      resourcesDeletedLoop env crpName cn events s = some s' →
      PollEvent.deadline ∈ events ∧ s'.metrics = s.metrics ∧
        s'.trace.head? = some (Effect.log Log.deleteTimeout) := by
  intro events
  induction events with
  | nil => intro s s' _ h; simp [resourcesDeletedLoop] at h
  | cons ev rest ih =>
    intro s s' hall h
    cases ev with
    | deadline =>
      simp only [resourcesDeletedLoop, Option.some.injEq] at h
      rw [← h]
      exact ⟨List.mem_cons_self _ _, rfl, rfl⟩
    | tick t =>
      have hf : t.fetch = none := hall t (List.mem_cons_self _ _)
      simp only [resourcesDeletedLoop, hf] at h
      obtain ⟨h1, h2, h3⟩ := ih _ s' (fun u hu => hall u (List.mem_cons_of_mem _ hu)) h
      exact ⟨List.mem_cons_of_mem _ h1, h2, h3⟩

theorem updateLoop_all_fetches_fail (deletionStartTime : Int) (currency fleetSize : String) :
    ∀ (iters : List UpdateIter) (crp : ClusterResourcePlacement) (s s' : State),
      (∀ it ∈ iters, ∀ t, it.sel = PollEvent.tick t → t.fetch = none) →
      updateLoop deletionStartTime currency fleetSize iters crp s = some s' →
      (∃ it ∈ iters, it.sel = PollEvent.deadline) ∧
        s'.metrics = (recordUpdateTimeout currency fleetSize s).metrics := by
  intro iters
  induction iters with
  | nil => intro crp s s' _ h; simp [updateLoop] at h
  | cons it rest ih =>
    intro crp s s' hall h
    obtain ⟨top, sel⟩ := it
    have hm := afterTopFetch_metrics top s
    cases sel with
    | deadline =>
      simp only [updateLoop, Option.some.injEq] at h
      rw [← h]
      refine ⟨⟨_, List.mem_cons_self _ _, rfl⟩, ?_⟩
      simp [recordUpdateTimeout, State.logLine, State.emit, hm]
    | tick t =>
      have hf : t.fetch = none := hall _ (List.mem_cons_self _ _) t rfl
      simp only [updateLoop, hf] at h
      obtain ⟨⟨it, h1, h2⟩, h3⟩ :=
        ih _ _ s' (fun u hu => hall u (List.mem_cons_of_mem _ hu)) h
      refine ⟨⟨it, List.mem_cons_of_mem _ h1, h2⟩, ?_⟩
      simpa [recordUpdateTimeout, State.logLine, State.emit, hm] using h3

/-- C8: in each of the three poll loops a tick on which the Get of the placement fails
leaves the metric variables and the store as they are and the loop goes on with the
next event; and when the Get fails on every tick, a loop that returns has taken the
deadline event and has recorded its timeout outcome. -/
theorem fetch_errors_not_fatal (env : Env) (crpName currency fleetSize : String)
    (cn : ClusterNames) (deletionStartTime : Int) :
    (∀ (now : Int) (rest : List (PollEvent Tick)) (s : State),
      ∃ s1, s1.metrics = s.metrics ∧ s1.store = s.store ∧
        waitForCRPAvailable env crpName currency fleetSize cn
            (PollEvent.tick { now := now, fetch := none } :: rest) s
          = waitForCRPAvailable env crpName currency fleetSize cn rest s1) ∧
    (∀ (w : String → String → Option Work) (rest : List (PollEvent RemovalTick)) (s : State),
      ∃ s1, s1.metrics = s.metrics ∧ s1.store = s.store ∧
        resourcesDeletedLoop env crpName cn
            (PollEvent.tick { fetch := none, works := w } :: rest) s
          = resourcesDeletedLoop env crpName cn rest s1) ∧
    (∀ (top : Option ClusterResourcePlacement) (now : Int) (rest : List UpdateIter)
      (crp : ClusterResourcePlacement) (s : State),
      ∃ s1, s1.metrics = s.metrics ∧ s1.store = s.store ∧
        updateLoop deletionStartTime currency fleetSize
            ({ top := top, sel := PollEvent.tick { now := now, fetch := none } } :: rest) crp s
          = updateLoop deletionStartTime currency fleetSize rest (top.getD crp) s1) ∧
    (∀ (events : List (PollEvent Tick)) (s : State) (r : String × ClusterNames) (s' : State),
      (∀ t, PollEvent.tick t ∈ events → t.fetch = none) →
      waitForCRPAvailable env crpName currency fleetSize cn events s = some (r, s') →
      PollEvent.deadline ∈ events ∧ r = (fleetSize, cn) ∧
        s'.metrics = (recordApplyTimeout currency fleetSize s).metrics) ∧
    (∀ (events : List (PollEvent RemovalTick)) (s s' : State),
      (∀ t, PollEvent.tick t ∈ events → t.fetch = none) →
      resourcesDeletedCheck env crpName cn events s = some s' →
      PollEvent.deadline ∈ events ∧ s'.metrics = s.metrics ∧
        s'.trace.head? = some (Effect.log Log.deleteTimeout)) ∧
    (∀ (iters : List UpdateIter) (s s' : State),
      (∀ it ∈ iters, ∀ t, it.sel = PollEvent.tick t → t.fetch = none) →
      waitForCrpToCompleteUpdate deletionStartTime currency fleetSize iters s = some s' →
      (∃ it ∈ iters, it.sel = PollEvent.deadline) ∧
        s'.metrics = (recordUpdateTimeout currency fleetSize s).metrics) := by
  refine ⟨?_, ?_, ?_, ?_, ?_, ?_⟩
  · intro now rest s
    exact ⟨s.logLine Log.failedToGetCrp, rfl, rfl, by simp [waitForCRPAvailable]⟩
  · intro w rest s
    exact ⟨s.logLine Log.failedToGetCrp, rfl, rfl, by simp [resourcesDeletedLoop]⟩
  · intro top now rest crp s
    exact ⟨(afterTopFetch top s).logLine Log.failedToGetCrp, afterTopFetch_metrics top s,
      afterTopFetch_store top s, updateLoop_tick_fetchError _ _ _ _ _ _ _ _⟩
  · intro events s r s' hall h
    rcases waitForCRPAvailable_kinds env crpName currency fleetSize cn events s r s' h with
      h1 | ⟨t, crp, hm, hf, _⟩ | ⟨t, crp, _, _, hm, hf, _⟩
    · exact h1
    · rw [hall t hm] at hf; cases hf
    · rw [hall t hm] at hf; cases hf
  · intro events s s' hall h
    exact resourcesDeletedLoop_all_fetches_fail env crpName cn events
      (s.logLine Log.verifyDeleted) s' hall h
  · intro iters s s' hall h
    exact updateLoop_all_fetches_fail deletionStartTime currency fleetSize iters _ s s' hall h

/-! ## C9: the removal verification -/

theorem not_removalTickSucceeds_of_lagging (env : Env) (crpName : String) (cn : ClusterNames)
    (t : RemovalTick) (c : String) (hc : c ∈ cn)
    (hlag : ∀ w, t.works (crpName ++ "-work") (env.namespaceOf c) = some w →
      w.manifestConditions.length ≠ 2) :
    ¬ removalTickSucceeds env crpName cn t := by
  rintro ⟨crp, _, _, hall⟩
  obtain ⟨w, hw, hl⟩ := hall c hc
  exact hlag w hw hl

/-- C9: a tick of `resourcesDeletedCheck` returns with the success log line exactly
when the fetched placement status lists two selected resources and, for every cluster
name of the snapshot, the Get of the work object `<crp>-work` in the namespace of the
cluster succeeds and its status holds two manifest conditions.  Otherwise the loop
goes on with the next event; in particular it does so when for one cluster of the
snapshot the Get fails or the work holds another number of manifest conditions. -/
theorem resourcesDeleted_tick_succeeds_iff (env : Env) (crpName : String)
    (cn : ClusterNames) (t : RemovalTick) (s : State) :
    (resourcesDeletedLoop env crpName cn [PollEvent.tick t] s
        = some (s.logLine Log.deleteSucceeded) ↔ removalTickSucceeds env crpName cn t) ∧
    (removalTickSucceeds env crpName cn t →
      ∀ rest, resourcesDeletedLoop env crpName cn (PollEvent.tick t :: rest) s
        = some (s.logLine Log.deleteSucceeded)) ∧
    (¬ removalTickSucceeds env crpName cn t →
      ∃ l, l ≠ Log.deleteSucceeded ∧
        ∀ rest, resourcesDeletedLoop env crpName cn (PollEvent.tick t :: rest) s
          = resourcesDeletedLoop env crpName cn rest (s.logLine l)) ∧
    (∀ c ∈ cn,
      (∀ w, t.works (crpName ++ "-work") (env.namespaceOf c) = some w →
        w.manifestConditions.length ≠ 2) →
      resourcesDeletedLoop env crpName cn [PollEvent.tick t] s = none ∧
      ∃ l, l ≠ Log.deleteSucceeded ∧
        ∀ rest, resourcesDeletedLoop env crpName cn (PollEvent.tick t :: rest) s
          = resourcesDeletedLoop env crpName cn rest (s.logLine l)) := by
  have hwait : ¬ removalTickSucceeds env crpName cn t →
      ∃ l, l ≠ Log.deleteSucceeded ∧
        ∀ rest, resourcesDeletedLoop env crpName cn (PollEvent.tick t :: rest) s
          = resourcesDeletedLoop env crpName cn rest (s.logLine l) := fun hn =>
    ⟨removalTickLog env crpName cn t,
      (resourcesDeletedLoop_tick_waits env crpName cn t [] s hn).2,
      fun rest => (resourcesDeletedLoop_tick_waits env crpName cn t rest s hn).1⟩
  refine ⟨⟨fun h => ?_, fun h => resourcesDeletedLoop_tick_succeeds env crpName cn t [] s h⟩,
    fun h rest => resourcesDeletedLoop_tick_succeeds env crpName cn t rest s h, hwait, ?_⟩
  · by_contra hn
    rw [(resourcesDeletedLoop_tick_waits env crpName cn t [] s hn).1] at h
    simp [resourcesDeletedLoop] at h
  · intro c hc hlag
    have hn := not_removalTickSucceeds_of_lagging env crpName cn t c hc hlag
    refine ⟨?_, hwait hn⟩
    rw [(resourcesDeletedLoop_tick_waits env crpName cn t [] s hn).1]
    rfl

/-! ## C10: a removal verification that ends on the deadline -/

/-- C10 (scenario D): in a run with auxiliary resources whose setup succeeds, whose
apply phase records a success with a fleet size other than `"0"` and whose
`deleteTestManifests` succeeds, if one cluster of the snapshot never shows two manifest
conditions on the ticks taken before the deadline event of `resourcesDeletedCheck`,
then `waitForCrpToCompleteUpdate` is called next, on a state `sU` whose metric
variables are those left by the apply phase (the removal timeout recorded no update
outcome); the run returns exactly when that call returns, and its result is the result
of the final Delete. -/
theorem MeasureOnePlacement_removal_timeout (env : Env) (maxCurrentPlacement : Int)
    (clusterNames : ClusterNames) (m : Metrics) (store : List String)
    (pend : List Tick) (t : Tick) (arest : List (PollEvent Tick))
    (crp : ClusterResourcePlacement) (fs : String) (cn1 : ClusterNames)
    (rticks : List RemovalTick) (rrest : List (PollEvent RemovalTick)) (c : String)
    (hsetup : env.applyTestManifests = none) (hcrp : env.createCRP = none)
    (hcreate : env.create = none)
    (hev : env.applyEvents = pend.map PollEvent.tick ++ PollEvent.tick t :: arest)
    (hpend : ∀ p ∈ pend, applyTickWaits p = true)
    (hfetch : t.fetch = some crp)
    (havail : IsConditionStatusTrue
      (crp.GetCondition ClusterResourcePlacementAvailableConditionType) crp.generation = true)
    (hfleet : env.getFleetSize crp clusterNames = (fs, cn1, none))
    (hfs : fs ≠ "0")
    (hdel : env.deleteTestManifests = none)
    (hrev : env.removalEvents = rticks.map PollEvent.tick ++ PollEvent.deadline :: rrest)
    (hc : c ∈ cn1)
    (hlag : ∀ rt ∈ rticks, ∀ w,
      rt.works ((crpPrefix ++ env.randCrp) ++ "-work") (env.namespaceOf c) = some w →
        w.manifestConditions.length ≠ 2) :
    ∃ sU : State,
      sU.metrics =
        { m with
          crpCount := inc32 m.crpCount
          applySuccessCount := inc32 m.applySuccessCount
          LoadTestApplyCountMetric :=
            (toString maxCurrentPlacement, fs, "succeed") :: m.LoadTestApplyCountMetric
          applyQuantile := (t.now - env.startTime) :: m.applyQuantile
          ApplyLatencyCountMetric :=
            (toString maxCurrentPlacement, fs, t.now - env.startTime) ::
              m.ApplyLatencyCountMetric } ∧
      sU.trace.head? = some (Effect.log Log.verifyUpdated) ∧
      Effect.log Log.deleteTimeout ∈ sU.trace ∧
      MeasureOnePlacement env maxCurrentPlacement clusterNames true m store
        = (waitForCrpToCompleteUpdate env.deletionStartTime (toString maxCurrentPlacement) fs
            env.updateEvents sU).map
          (fun s3 =>
            { err := env.delete
              metrics := s3.metrics
              store :=
                (deferredDeleteNamespace env (nsPrefix ++ env.randNs)
                  (deferredDelete (crpPrefix ++ env.randCrp)
                    (finalDelete env (crpPrefix ++ env.randCrp) s3).2)).store
              trace :=
                (deferredDeleteNamespace env (nsPrefix ++ env.randNs)
                  (deferredDelete (crpPrefix ++ env.randCrp)
                    (finalDelete env (crpPrefix ++ env.randCrp) s3).2)).trace }) := by
  have hnot : ∀ rt ∈ rticks,
      ¬ removalTickSucceeds env (crpPrefix ++ env.randCrp) cn1 rt := fun rt hrt =>
    not_removalTickSucceeds_of_lagging env _ cn1 rt c hc (hlag rt hrt)
  refine ⟨State.logLine (State.logLine (State.logLines (State.logLine (State.emit
    (State.logLine (State.emit
      (recordApplySuccess (toString maxCurrentPlacement) fs (t.now - env.startTime)
        (State.logLine (State.logLines
          { metrics := { m with crpCount := inc32 m.crpCount }
            store := (crpPrefix ++ env.randCrp) :: store
            trace := [Effect.log Log.verifyApplied, Effect.hubCreate (crpPrefix ++ env.randCrp),
              Effect.createCRP (crpPrefix ++ env.randCrp), Effect.log Log.createPlacement,
              Effect.applyTestManifests (nsPrefix ++ env.randNs),
              Effect.log Log.createResourcesInNamespace] }
          (pend.map applyTickLog)) Log.applySucceeded))
      (Effect.timeNow env.deletionStartTime))
      Log.removeNamespacedResources)
    (Effect.deleteTestManifests (nsPrefix ++ env.randNs))) Log.verifyDeleted)
    (rticks.map (removalTickLog env (crpPrefix ++ env.randCrp) cn1))) Log.deleteTimeout)
    Log.verifyUpdated, ?_, rfl, ?_, ?_⟩
  · simp only [logLine_metrics, logLines_metrics, State.emit, recordApplySuccess]
  · simp [State.logLine, State.emit]
  · unfold MeasureOnePlacement createPlacementAndMeasure createAndMeasure
    simp only [if_true, hsetup, hcrp, hcreate, hev]
    rw [waitForCRPAvailable_waiting_ticks env _ _ "0" clusterNames _ pend _ hpend,
      waitForCRPAvailable_tick_true env _ _ "0" clusterNames t arest _ crp hfetch havail]
    simp only [hfleet, if_neg hfs]
    unfold mutateAndVerify resourcesDeletedCheck
    simp only [if_true, hdel, hrev]
    rw [resourcesDeletedLoop_waiting_ticks env _ cn1 _ rticks _ hnot]
    simp only [resourcesDeletedLoop]
    cases hu : waitForCrpToCompleteUpdate env.deletionStartTime (toString maxCurrentPlacement)
        fs env.updateEvents _ with
    | none => simp [State.logLine, State.emit] at hu ⊢; simp [hu]
    | some s3 =>
      simp [State.logLine, State.emit] at hu ⊢
      simp [hu, finalDelete_err, finalDelete_metrics, deferredDeleteNamespace_metrics,
        deferredDelete, State.emit]

/-- C10 at the run of `envLaggingCluster`: the removal check ends on its deadline, the
update check is entered and ends on its own deadline, and the run returns nil. -/
theorem MeasureOnePlacement_removal_timeout_witness :
    (∃ r, MeasureOnePlacement envLaggingCluster 1 [] true zeroMetrics [] = some r ∧
      r.err = none ∧ r.metrics.updateTimeoutCount = 1 ∧
      r.metrics.LoadTestUpdateCountMetric = [("1", "1", "timeout")] ∧
      Effect.log Log.deleteTimeout ∈ r.trace ∧ Effect.log Log.verifyUpdated ∈ r.trace) ∧
    ∃ sU : State,
      sU.metrics =
        { zeroMetrics with
          crpCount := inc32 zeroMetrics.crpCount
          applySuccessCount := inc32 zeroMetrics.applySuccessCount
          LoadTestApplyCountMetric :=
            (toString (1 : Int), "1", "succeed") :: zeroMetrics.LoadTestApplyCountMetric
          applyQuantile := (5 - envLaggingCluster.startTime) :: zeroMetrics.applyQuantile
          ApplyLatencyCountMetric :=
            (toString (1 : Int), "1", 5 - envLaggingCluster.startTime) ::
              zeroMetrics.ApplyLatencyCountMetric } ∧
      sU.trace.head? = some (Effect.log Log.verifyUpdated) ∧
      Effect.log Log.deleteTimeout ∈ sU.trace ∧
      MeasureOnePlacement envLaggingCluster 1 [] true zeroMetrics []
        = (waitForCrpToCompleteUpdate envLaggingCluster.deletionStartTime
            (toString (1 : Int)) "1" envLaggingCluster.updateEvents sU).map
          (fun s3 =>
            { err := envLaggingCluster.delete
              metrics := s3.metrics
              store :=
                (deferredDeleteNamespace envLaggingCluster (nsPrefix ++ envLaggingCluster.randNs)
                  (deferredDelete (crpPrefix ++ envLaggingCluster.randCrp)
                    (finalDelete envLaggingCluster
                      (crpPrefix ++ envLaggingCluster.randCrp) s3).2)).store
              trace :=
                (deferredDeleteNamespace envLaggingCluster (nsPrefix ++ envLaggingCluster.randNs)
                  (deferredDelete (crpPrefix ++ envLaggingCluster.randCrp)
                    (finalDelete envLaggingCluster
                      (crpPrefix ++ envLaggingCluster.randCrp) s3).2)).trace }) :=
  ⟨⟨_, rfl, by decide, by decide, by decide, by decide, by decide⟩,
    MeasureOnePlacement_removal_timeout envLaggingCluster 1 [] zeroMetrics []
      [] { now := 5, fetch := some availableCRP } [] availableCRP "1" ["member-1"]
      [laggingTick, laggingTick] [] "member-1"
      rfl rfl rfl rfl (by decide) rfl (by decide) (by decide) (by decide) rfl rfl (by decide)
      (fun rt hrt w hw => by
        have hrt1 : rt = laggingTick := by simpa using hrt
        subst hrt1
        have hw1 : w = { manifestConditions := ["namespace", "crd", "configmap"] } := by
          simpa [laggingTick] using hw.symm
        subst hw1
        decide)⟩

/-! ## The update metrics of a run -/

/-- Every return of the loop of `waitForCrpToCompleteUpdate` is the deadline case of an
iteration, with the timeout outcome, or the ticker case of an iteration, with the
success outcome and the sample `t.now - deletionStartTime`. -/
theorem updateLoop_kinds (deletionStartTime : Int) (currency fleetSize : String) :
    ∀ (iters : List UpdateIter) (crp : ClusterResourcePlacement) (s s' : State),
      updateLoop deletionStartTime currency fleetSize iters crp s = some s' →
      ((∃ it ∈ iters, it.sel = PollEvent.deadline) ∧
        s'.metrics = (recordUpdateTimeout currency fleetSize s).metrics) ∨
      (∃ it ∈ iters, ∃ t, it.sel = PollEvent.tick t ∧
        s'.metrics
          = (recordUpdateSuccess currency fleetSize (t.now - deletionStartTime) s).metrics) := by
  intro iters
  induction iters with
  | nil => intro crp s s' h; simp [updateLoop] at h
  | cons it rest ih =>
    intro crp s s' h
    obtain ⟨top, sel⟩ := it
    have hm := afterTopFetch_metrics top s
    have hstep : ∀ (crp1 : ClusterResourcePlacement) (l : Log),
        updateLoop deletionStartTime currency fleetSize rest crp1
          ((afterTopFetch top s).logLine l) = some s' →
        ((∃ it ∈ ({ top := top, sel := sel } : UpdateIter) :: rest,
            it.sel = PollEvent.deadline) ∧
          s'.metrics = (recordUpdateTimeout currency fleetSize s).metrics) ∨
        (∃ it ∈ ({ top := top, sel := sel } : UpdateIter) :: rest, ∃ t,
          it.sel = PollEvent.tick t ∧
          s'.metrics
            = (recordUpdateSuccess currency fleetSize (t.now - deletionStartTime) s).metrics) := by
      intro crp1 l h1
      rcases ih crp1 _ s' h1 with ⟨⟨it, hmem, hsel⟩, h2⟩ | ⟨it, hmem, t, hsel, h2⟩
      · left
        refine ⟨⟨it, List.mem_cons_of_mem _ hmem, hsel⟩, ?_⟩
        simpa [recordUpdateTimeout, State.logLine, State.emit, hm] using h2
      · right
        refine ⟨it, List.mem_cons_of_mem _ hmem, t, hsel, ?_⟩
        simpa [recordUpdateSuccess, State.logLine, State.emit, hm] using h2
    cases sel with
    | deadline =>
      simp only [updateLoop, Option.some.injEq] at h
      rw [← h]
      left
      refine ⟨⟨_, List.mem_cons_self _ _, rfl⟩, ?_⟩
      simp [recordUpdateTimeout, State.logLine, State.emit, hm]
    | tick t =>
      cases hf : t.fetch with
      | none =>
        simp only [updateLoop, hf] at h
        exact hstep _ _ h
      | some crp2 =>
        simp only [updateLoop, hf] at h
        split at h
        · simp only [Option.some.injEq] at h
          rw [← h]
          right
          refine ⟨_, List.mem_cons_self _ _, t, rfl, ?_⟩
          simp [recordUpdateSuccess, State.logLine, State.emit, hm]
        · split at h
          · exact hstep _ _ h
          · exact hstep _ _ h

theorem waitForCRPAvailable_updateView (env : Env) (crpName currency fleetSize : String)
    (cn : ClusterNames) (events : List (PollEvent Tick)) (s : State)
    (r : String × ClusterNames) (s' : State)
    (h : waitForCRPAvailable env crpName currency fleetSize cn events s = some (r, s')) :
    s'.metrics.updateView = s.metrics.updateView := by
  rcases waitForCRPAvailable_kinds env crpName currency fleetSize cn events s r s' h with
    ⟨_, _, h1⟩ | ⟨_, _, _, _, _, _, h1⟩ | ⟨_, _, _, _, _, _, _, _, _, h1⟩
  · rw [h1]; rfl
  · rw [h1]; rfl
  · rw [h1]

/-- The part of a run after the apply phase records an update success only in
`waitForCrpToCompleteUpdate`, with the sample measured from `env.deletionStartTime`;
otherwise it leaves the update success counter and the update samples as they are. -/
theorem mutateAndVerify_update (env : Env) (crpName nsName currency fleetSize : String)
    (cn : ClusterNames) (u : Bool) (s : State) (e : Option Err) (s' : State)
    (h : mutateAndVerify env crpName nsName currency fleetSize cn u s = some (e, s')) :
    (s'.metrics.updateSuccessCount = s.metrics.updateSuccessCount ∧
      s'.metrics.updateQuantile = s.metrics.updateQuantile ∧
      s'.metrics.UpdateLatencyCountMetric = s.metrics.UpdateLatencyCountMetric) ∨
    (∃ it ∈ env.updateEvents, ∃ t, it.sel = PollEvent.tick t ∧
      s'.metrics
        = (recordUpdateSuccess currency fleetSize (t.now - env.deletionStartTime) s).metrics) := by
  unfold mutateAndVerify at h
  cases u with
  | false =>
    simp only [Bool.false_eq_true, if_false, Option.some.injEq] at h
    have h1 := finalDelete_metrics env crpName (s.emit (Effect.timeNow env.deletionStartTime))
    rw [h] at h1
    simp only at h1
    left
    rw [h1]
    exact ⟨rfl, rfl, rfl⟩
  | true =>
    simp only [if_true] at h
    cases hd : env.deleteTestManifests with
    | some err =>
      simp only [hd, Option.some.injEq, Prod.mk.injEq] at h
      obtain ⟨_, h2⟩ := h
      left
      rw [← h2]
      exact ⟨rfl, rfl, rfl⟩
    | none =>
      simp only [hd] at h
      cases hr : resourcesDeletedCheck env crpName cn env.removalEvents
          (((s.emit (Effect.timeNow env.deletionStartTime)).logLine
            Log.removeNamespacedResources).emit (Effect.deleteTestManifests nsName)) with
      | none => simp [hr] at h
      | some s2 =>
        simp only [hr] at h
        cases hu : waitForCrpToCompleteUpdate env.deletionStartTime currency fleetSize
            env.updateEvents (s2.logLine Log.verifyUpdated) with
        | none => simp [hu] at h
        | some s3 =>
          simp only [hu, Option.some.injEq] at h
          have h1 := finalDelete_metrics env crpName s3
          rw [h] at h1
          simp only at h1
          obtain ⟨hm2, _, _⟩ := resourcesDeletedCheck_frame env crpName cn _ _ s2 hr
          have hm2' : s2.metrics = s.metrics := hm2
          rcases updateLoop_kinds _ _ _ _ _ _ s3 hu with ⟨_, h3⟩ | ⟨it, hmem, t, hsel, h3⟩
          · left
            rw [h1, h3]
            simp [recordUpdateTimeout, State.logLine, State.emit, hm2']
          · right
            refine ⟨it, hmem, t, hsel, ?_⟩
            rw [h1, h3]
            simp [recordUpdateSuccess, State.logLine, State.emit, hm2']

/-- The part of a run after the Delete has been deferred records an update success
only in `waitForCrpToCompleteUpdate`, entered on a state whose update metrics are those
of the start, with the sample measured from `env.deletionStartTime`. -/
theorem createAndMeasure_update (env : Env) (crpName nsName currency : String)
    (cn : ClusterNames) (u : Bool) (s : State) (e : Option Err) (s' : State)
    (h : createAndMeasure env crpName nsName currency cn u s = some (e, s')) :
    (s'.metrics.updateSuccessCount = s.metrics.updateSuccessCount ∧
      s'.metrics.updateQuantile = s.metrics.updateQuantile ∧
      s'.metrics.UpdateLatencyCountMetric = s.metrics.UpdateLatencyCountMetric) ∨
    (∃ (fs : String) (s2 : State), s2.metrics.updateView = s.metrics.updateView ∧
      ∃ it ∈ env.updateEvents, ∃ t, it.sel = PollEvent.tick t ∧
        s'.metrics
          = (recordUpdateSuccess currency fs (t.now - env.deletionStartTime) s2).metrics) := by
  unfold createAndMeasure at h
  cases hc : env.create with
  | some err =>
    simp only [hc, Option.some.injEq, Prod.mk.injEq] at h
    obtain ⟨_, h2⟩ := h
    left
    rw [← h2]
    exact ⟨rfl, rfl, rfl⟩
  | none =>
    simp only [hc] at h
    split at h
    · simp at h
    · rename_i fs1 cn1 s2 hw
      have hv := waitForCRPAvailable_updateView _ _ _ _ _ _ _ _ _ hw
      have hv' : s2.metrics.updateView = s.metrics.updateView := hv
      split at h
      · simp only [Option.some.injEq, Prod.mk.injEq] at h
        obtain ⟨_, h2⟩ := h
        left
        rw [← h2]
        simp only [Metrics.updateView, Prod.mk.injEq] at hv'
        exact ⟨hv'.1, hv'.2.2.2.2.1, hv'.2.2.2.2.2⟩
      · rcases mutateAndVerify_update _ _ _ _ _ _ _ _ _ _ h with ⟨h1, h2, h3⟩ | h1
        · left
          simp only [Metrics.updateView, Prod.mk.injEq] at hv'
          exact ⟨h1.trans hv'.1, h2.trans hv'.2.2.2.2.1, h3.trans hv'.2.2.2.2.2⟩
        · right
          exact ⟨fs1, s2, hv', h1⟩

theorem createPlacementAndMeasure_update (env : Env) (crpName nsName currency : String)
    (cn : ClusterNames) (u : Bool) (s : State) (e : Option Err) (s' : State)
    (h : createPlacementAndMeasure env crpName nsName currency cn u s = some (e, s')) :
    (s'.metrics.updateSuccessCount = s.metrics.updateSuccessCount ∧
      s'.metrics.updateQuantile = s.metrics.updateQuantile ∧
      s'.metrics.UpdateLatencyCountMetric = s.metrics.UpdateLatencyCountMetric) ∨
    (∃ (fs : String) (s2 : State), s2.metrics.updateView = s.metrics.updateView ∧
      ∃ it ∈ env.updateEvents, ∃ t, it.sel = PollEvent.tick t ∧
        s'.metrics
          = (recordUpdateSuccess currency fs (t.now - env.deletionStartTime) s2).metrics) := by
  unfold createPlacementAndMeasure at h
  cases hc : env.createCRP with
  | some err =>
    simp only [hc, Option.some.injEq, Prod.mk.injEq] at h
    obtain ⟨_, h2⟩ := h
    left
    rw [← h2]
    exact ⟨rfl, rfl, rfl⟩
  | none =>
    simp only [hc, Option.map_eq_some'] at h
    obtain ⟨⟨e1, s1⟩, h1, h2⟩ := h
    simp only [Prod.mk.injEq] at h2
    obtain ⟨_, h3⟩ := h2
    have hm : s'.metrics = s1.metrics := by rw [← h3]; rfl
    rw [hm]
    have h4 := createAndMeasure_update _ _ _ _ _ _ _ _ _ h1
    exact h4

/-- The metric variables a run leaves are those of the state in which
`createPlacementAndMeasure` returns. -/
theorem MeasureOnePlacement_metrics (env : Env) (maxCurrentPlacement : Int)
    (clusterNames : ClusterNames) (useTestResources : Bool) (m : Metrics)
    (store : List String) (r : RunResult)
    (h : MeasureOnePlacement env maxCurrentPlacement clusterNames useTestResources m store
      = some r) :
    (r.metrics.updateSuccessCount = m.updateSuccessCount ∧
      r.metrics.updateQuantile = m.updateQuantile ∧
      r.metrics.UpdateLatencyCountMetric = m.UpdateLatencyCountMetric) ∨
    (∃ (fs : String) (s2 : State), s2.metrics.updateView = m.updateView ∧
      ∃ it ∈ env.updateEvents, ∃ t, it.sel = PollEvent.tick t ∧
        r.metrics
          = (recordUpdateSuccess (toString maxCurrentPlacement) fs
              (t.now - env.deletionStartTime) s2).metrics) := by
  unfold MeasureOnePlacement at h
  cases useTestResources with
  | false =>
    simp only [Bool.false_eq_true, if_false, Option.map_eq_some'] at h
    obtain ⟨⟨e1, s1⟩, h1, h2⟩ := h
    rw [← h2]
    have h4 := createPlacementAndMeasure_update _ _ _ _ _ _ _ _ _ h1
    exact h4
  | true =>
    simp only [if_true, Option.map_eq_some'] at h
    obtain ⟨⟨e1, s1⟩, ⟨⟨e2, s2⟩, h1, h1'⟩, h2⟩ := h
    simp only [Prod.mk.injEq] at h1'
    obtain ⟨_, h1'⟩ := h1'
    have hm : s1.metrics = s2.metrics := by
      rw [← h1']; exact deferredDeleteNamespace_metrics _ _ _
    rw [← h2]
    simp only [hm]
    cases ha : env.applyTestManifests with
    | some err =>
      simp only [ha, Option.some.injEq, Prod.mk.injEq] at h1
      obtain ⟨_, h1⟩ := h1
      left
      rw [← h1]
      exact ⟨rfl, rfl, rfl⟩
    | none =>
      simp only [ha] at h1
      have h4 := createPlacementAndMeasure_update _ _ _ _ _ _ _ _ _ h1
      exact h4

/-! ## C14: the fleet size "0" -/

/-- The log lines that `waitForCRPAvailable` adds to the trace are its own: none of
them is the first line of `resourcesDeletedCheck` or the line written before
`waitForCrpToCompleteUpdate`. -/
theorem waitForCRPAvailable_own_logs (env : Env) (crpName currency fleetSize : String)
    (cn : ClusterNames) :
    ∀ (events : List (PollEvent Tick)) (s : State) (r : String × ClusterNames) (s' : State),
      waitForCRPAvailable env crpName currency fleetSize cn events s = some (r, s') →
      ∃ logs : List Log, s'.trace = logs.map Effect.log ++ s.trace ∧
        ∀ l ∈ logs, l ≠ Log.verifyDeleted ∧ l ≠ Log.verifyUpdated := by
  intro events
  induction events with
  | nil => intro s r s' h; simp [waitForCRPAvailable] at h
  | cons ev rest ih =>
    intro s r s' h
    cases ev with
    | deadline =>
      simp only [waitForCRPAvailable, Option.some.injEq, Prod.mk.injEq] at h
      obtain ⟨_, h2⟩ := h
      rw [← h2]
      exact ⟨[Log.applyTimeout], rfl, by simp⟩
    | tick t =>
      by_cases hw : applyTickWaits t = true
      · rw [waitForCRPAvailable_tick_waits env crpName currency fleetSize cn t rest s hw] at h
        obtain ⟨logs, h2, h3⟩ := ih _ r s' h
        refine ⟨logs ++ [applyTickLog t], by rw [h2]; simp [State.logLine, State.emit], ?_⟩
        intro l hl
        rcases List.mem_append.mp hl with h4 | h4
        · exact h3 l h4
        · have h5 : l = applyTickLog t := by simpa using h4
          rw [h5]
          rcases applyTickLog_cases t with h6 | h6 | h6 <;> rw [h6] <;> simp
      · obtain ⟨crp, hf, ht1⟩ := not_applyTickWaits t hw
        rw [waitForCRPAvailable_tick_true env crpName currency fleetSize cn t rest s crp hf ht1] at h
        rcases hg : env.getFleetSize crp cn with ⟨fs, cn1, e⟩
        rw [hg] at h
        cases e with
        | none =>
          simp only [Option.some.injEq, Prod.mk.injEq] at h
          obtain ⟨_, h2⟩ := h
          rw [← h2]
          exact ⟨[Log.applySucceeded], rfl, by simp⟩
        | some e =>
          simp only [Option.some.injEq, Prod.mk.injEq] at h
          obtain ⟨_, h2⟩ := h
          rw [← h2]
          exact ⟨[Log.failedToGetFleetSize, Log.applySucceeded], rfl, by simp⟩

/-- A run whose setup succeeds is the rest of `MeasureOnePlacement` from line 126 on,
applied to what `waitForCRPAvailable` returns, followed by the deferred calls. -/
theorem MeasureOnePlacement_after_apply (env : Env) (maxCurrentPlacement : Int)
    (clusterNames : ClusterNames) (useTestResources : Bool) (m : Metrics)
    (store : List String) (fs : String) (cn1 : ClusterNames) (s2 : State)
    (hsetup : useTestResources = true → env.applyTestManifests = none)
    (hcrp : env.createCRP = none) (hcreate : env.create = none)
    (hw : waitForCRPAvailable env (crpPrefix ++ env.randCrp) (toString maxCurrentPlacement) "0"
        clusterNames env.applyEvents (applyEntryState env useTestResources m store)
      = some ((fs, cn1), s2)) :
    MeasureOnePlacement env maxCurrentPlacement clusterNames useTestResources m store
      = (if fs = "0" then some (none, s2)
          else mutateAndVerify env (crpPrefix ++ env.randCrp) (nsPrefix ++ env.randNs)
            (toString maxCurrentPlacement) fs cn1 useTestResources s2).map
          (fun p => runResult p.1 (runDeferred env useTestResources p.2)) := by
  cases useTestResources with
  | false =>
    have hw' : waitForCRPAvailable env (crpPrefix ++ env.randCrp)
        (toString maxCurrentPlacement) "0" clusterNames env.applyEvents
        { metrics := { m with crpCount := inc32 m.crpCount }
          store := (crpPrefix ++ env.randCrp) :: store
          trace := [Effect.log Log.verifyApplied, Effect.hubCreate (crpPrefix ++ env.randCrp),
            Effect.createCRP (crpPrefix ++ env.randCrp), Effect.log Log.createPlacement] }
        = some ((fs, cn1), s2) := hw
    unfold MeasureOnePlacement createPlacementAndMeasure createAndMeasure
    simp only [Bool.false_eq_true, if_false, hcrp, hcreate, State.logLine, State.emit, hw']
    by_cases hz : fs = "0"
    · simp [hz, runResult, runDeferred]
    · simp only [if_neg hz, Option.map_map]
      rfl
  | true =>
    have hw' : waitForCRPAvailable env (crpPrefix ++ env.randCrp)
        (toString maxCurrentPlacement) "0" clusterNames env.applyEvents
        { metrics := { m with crpCount := inc32 m.crpCount }
          store := (crpPrefix ++ env.randCrp) :: store
          trace := [Effect.log Log.verifyApplied, Effect.hubCreate (crpPrefix ++ env.randCrp),
            Effect.createCRP (crpPrefix ++ env.randCrp), Effect.log Log.createPlacement,
            Effect.applyTestManifests (nsPrefix ++ env.randNs),
            Effect.log Log.createResourcesInNamespace] }
        = some ((fs, cn1), s2) := hw
    unfold MeasureOnePlacement createPlacementAndMeasure createAndMeasure
    simp only [if_true, hsetup rfl, hcrp, hcreate, State.logLine, State.emit, hw']
    by_cases hz : fs = "0"
    · simp [hz, runResult, runDeferred]
    · simp only [if_neg hz, Option.map_map]
      rfl

/-- The calls that lines 130-145 make before they return: with auxiliary resources
`deleteTestManifests`, without them the final Delete of the placement. -/
theorem mutateAndVerify_calls (env : Env) (crpName nsName currency fleetSize : String)
    (cn : ClusterNames) (u : Bool) (s : State) (e : Option Err) (s' : State)
    (h : mutateAndVerify env crpName nsName currency fleetSize cn u s = some (e, s')) :
    (u = true → Effect.deleteTestManifests nsName ∈ s'.trace) ∧
    (u = false → Effect.hubDelete crpName ∈ s'.trace) := by
  unfold mutateAndVerify at h
  cases u with
  | false =>
    simp only [Bool.false_eq_true, if_false, Option.some.injEq] at h
    have h2 := finalDelete_trace env crpName (s.emit (Effect.timeNow env.deletionStartTime))
    rw [h] at h2
    simp only at h2
    exact ⟨fun hu => (by cases hu), fun _ => (by rw [h2]; exact List.mem_cons_self _ _)⟩
  | true =>
    refine ⟨fun _ => ?_, fun hu => (by cases hu)⟩
    simp only [if_true] at h
    cases hd : env.deleteTestManifests with
    | some err =>
      simp only [hd, Option.some.injEq, Prod.mk.injEq] at h
      obtain ⟨_, h2⟩ := h
      rw [← h2]
      simp [recordUpdateFailed, State.logLine, State.emit]
    | none =>
      simp only [hd] at h
      cases hr : resourcesDeletedCheck env crpName cn env.removalEvents
          (((s.emit (Effect.timeNow env.deletionStartTime)).logLine
            Log.removeNamespacedResources).emit (Effect.deleteTestManifests nsName)) with
      | none => simp [hr] at h
      | some s2 =>
        simp only [hr] at h
        cases hu : waitForCrpToCompleteUpdate env.deletionStartTime currency fleetSize
            env.updateEvents (s2.logLine Log.verifyUpdated) with
        | none => simp [hu] at h
        | some s3 =>
          simp only [hu, Option.some.injEq] at h
          have h2 := finalDelete_trace env crpName s3
          rw [h] at h2
          simp only at h2
          obtain ⟨_, _, l2, ht2⟩ := resourcesDeletedCheck_frame env crpName cn _ _ s2 hr
          obtain ⟨_, ⟨l3, ht3⟩, _⟩ := updateLoop_frame _ _ _ _ _ _ s3 hu
          rw [h2, ht3]
          simp [State.logLine, State.emit, ht2]

theorem runDeferred_metrics (env : Env) (u : Bool) (s : State) :
    (runDeferred env u s).metrics = s.metrics := by
  unfold runDeferred
  cases u with
  | false => rfl
  | true => simp only [if_true]; rw [deferredDeleteNamespace_metrics]; rfl

theorem runDeferred_trace (env : Env) (u : Bool) (s : State) :
    ∃ later : List Effect, (runDeferred env u s).trace = later ++ s.trace ∧
      ∀ x ∈ later, x = Effect.deleteNamespace (nsPrefix ++ env.randNs) ∨
        x = Effect.log Log.failedToDeleteNamespace ∨
        x = Effect.hubDeleteDeferred (crpPrefix ++ env.randCrp) := by
  unfold runDeferred
  cases u with
  | false =>
    exact ⟨[Effect.hubDeleteDeferred (crpPrefix ++ env.randCrp)], rfl, by simp⟩
  | true =>
    simp only [if_true]
    obtain ⟨later, h1, h2⟩ := deferredDeleteNamespace_trace env (nsPrefix ++ env.randNs)
      (deferredDelete (crpPrefix ++ env.randCrp) s)
    refine ⟨later ++ [Effect.hubDeleteDeferred (crpPrefix ++ env.randCrp)], ?_, ?_⟩
    · rw [h1]; simp [deferredDelete, State.emit]
    · intro x hx
      rcases List.mem_append.mp hx with h3 | h3
      · rcases h2 x h3 with h4 | h4
        · exact Or.inl h4
        · exact Or.inr (Or.inl h4)
      · exact Or.inr (Or.inr (by simpa using h3))

/-- C14: in a run whose setup succeeds, let `waitForCRPAvailable` return the fleet size
`fs`, the cluster names `cn1` and the state `s2`.  If `fs` is `"0"`, the run returns
nil after the deferred calls alone: it changes no update counter and calls neither
`deleteTestManifests` nor `resourcesDeletedCheck` nor `waitForCrpToCompleteUpdate` nor
the final Delete.  If `fs` is anything else, whatever `cn1` is, the run goes on with
lines 130-145 on `fs`, `cn1` and `s2`: with auxiliary resources it calls
`deleteTestManifests`, without them it goes to the final Delete. -/
theorem fleetSize_zero_is_the_abort_sentinel (env : Env) (maxCurrentPlacement : Int)
    (clusterNames : ClusterNames) (useTestResources : Bool) (m : Metrics)
    (store : List String) (fs : String) (cn1 : ClusterNames) (s2 : State)
    (hsetup : useTestResources = true → env.applyTestManifests = none)
    (hcrp : env.createCRP = none) (hcreate : env.create = none)
    (hw : waitForCRPAvailable env (crpPrefix ++ env.randCrp) (toString maxCurrentPlacement) "0"
        clusterNames env.applyEvents (applyEntryState env useTestResources m store)
      = some ((fs, cn1), s2)) :
    (fs = "0" →
      MeasureOnePlacement env maxCurrentPlacement clusterNames useTestResources m store
        = some (runResult none (runDeferred env useTestResources s2)) ∧
      (runDeferred env useTestResources s2).metrics.updateView = m.updateView ∧
      Effect.deleteTestManifests (nsPrefix ++ env.randNs)
        ∉ (runDeferred env useTestResources s2).trace ∧
      Effect.log Log.verifyDeleted ∉ (runDeferred env useTestResources s2).trace ∧
      Effect.log Log.verifyUpdated ∉ (runDeferred env useTestResources s2).trace ∧
      Effect.hubDelete (crpPrefix ++ env.randCrp)
        ∉ (runDeferred env useTestResources s2).trace) ∧
    (fs ≠ "0" →
      MeasureOnePlacement env maxCurrentPlacement clusterNames useTestResources m store
        = (mutateAndVerify env (crpPrefix ++ env.randCrp) (nsPrefix ++ env.randNs)
            (toString maxCurrentPlacement) fs cn1 useTestResources s2).map
            (fun p => runResult p.1 (runDeferred env useTestResources p.2)) ∧
      ∀ r, MeasureOnePlacement env maxCurrentPlacement clusterNames useTestResources m store
          = some r →
        (useTestResources = true →
          Effect.deleteTestManifests (nsPrefix ++ env.randNs) ∈ r.trace) ∧
        (useTestResources = false →
          Effect.hubDelete (crpPrefix ++ env.randCrp) ∈ r.trace)) := by
  have hrun := MeasureOnePlacement_after_apply env maxCurrentPlacement clusterNames
    useTestResources m store fs cn1 s2 hsetup hcrp hcreate hw
  refine ⟨fun hz => ?_, fun hz => ?_⟩
  · obtain ⟨later, hl, hlater⟩ := runDeferred_trace env useTestResources s2
    obtain ⟨logs, hlogs, hown⟩ := waitForCRPAvailable_own_logs _ _ _ _ _ _ _ _ _ hw
    have hnot : ∀ x : Effect,
        (x ≠ Effect.deleteNamespace (nsPrefix ++ env.randNs) ∧
          x ≠ Effect.log Log.failedToDeleteNamespace ∧
          x ≠ Effect.hubDeleteDeferred (crpPrefix ++ env.randCrp)) →
        (∀ l, x = Effect.log l → l = Log.verifyDeleted ∨ l = Log.verifyUpdated) →
        x ∉ (applyEntryState env useTestResources m store).trace →
        x ∉ (runDeferred env useTestResources s2).trace := by
      intro x hx1 hx2 hx3 hmem
      rw [hl, hlogs] at hmem
      rcases List.mem_append.mp hmem with h1 | h1
      · rcases hlater x h1 with h2 | h2 | h2
        · exact hx1.1 h2
        · exact hx1.2.1 h2
        · exact hx1.2.2 h2
      · rcases List.mem_append.mp h1 with h2 | h2
        · obtain ⟨l, hl1, hl2⟩ := List.mem_map.mp h2
          rcases hx2 l hl2.symm with h3 | h3
          · exact (hown l hl1).1 h3
          · exact (hown l hl1).2 h3
        · exact hx3 h2
    refine ⟨by rw [hrun]; simp [hz], ?_, ?_, ?_, ?_, ?_⟩
    · rw [runDeferred_metrics, waitForCRPAvailable_updateView _ _ _ _ _ _ _ _ _ hw]
      rfl
    · refine hnot _ (by simp) (fun l hl => by cases hl) ?_
      cases useTestResources <;> simp [applyEntryState]
    · refine hnot _ (by simp) (fun l hl => Or.inl (by cases hl; rfl)) ?_
      cases useTestResources <;> simp [applyEntryState]
    · refine hnot _ (by simp) (fun l hl => Or.inr (by cases hl; rfl)) ?_
      cases useTestResources <;> simp [applyEntryState]
    · refine hnot _ (by simp) (fun l hl => by cases hl) ?_
      cases useTestResources <;> simp [applyEntryState]
  · have hrun' : MeasureOnePlacement env maxCurrentPlacement clusterNames useTestResources
        m store
        = (mutateAndVerify env (crpPrefix ++ env.randCrp) (nsPrefix ++ env.randNs)
            (toString maxCurrentPlacement) fs cn1 useTestResources s2).map
            (fun p => runResult p.1 (runDeferred env useTestResources p.2)) := by
      rw [hrun, if_neg hz]
    refine ⟨hrun', ?_⟩
    intro r hr
    rw [hrun'] at hr
    obtain ⟨⟨e, s3⟩, h1, h2⟩ := Option.map_eq_some'.mp hr
    obtain ⟨hc1, hc2⟩ := mutateAndVerify_calls _ _ _ _ _ _ _ _ _ _ h1
    obtain ⟨later, hl, _⟩ := runDeferred_trace env useTestResources s3
    have htr : r.trace = later ++ s3.trace := by rw [← h2]; exact hl
    exact ⟨fun hu => by rw [htr]; exact List.mem_append_right _ (hc1 hu),
      fun hu => by rw [htr]; exact List.mem_append_right _ (hc2 hu)⟩

/-- C14 at two runs with auxiliary resources.  In `envNeverAvailable` the apply loop
ends on its deadline with the fleet size `"0"` and the run returns nil at once.  In
`envFleetSizeFails` the fleet-size derivation fails, the loop returns the fleet size
`""` with no cluster names, and the run goes on with `deleteTestManifests`. -/
theorem fleetSize_zero_is_the_abort_sentinel_witness :
    (∃ s2, waitForCRPAvailable envNeverAvailable (crpPrefix ++ envNeverAvailable.randCrp)
        (toString (1 : Int)) "0" [] envNeverAvailable.applyEvents
        (applyEntryState envNeverAvailable true zeroMetrics []) = some (("0", []), s2) ∧
      MeasureOnePlacement envNeverAvailable 1 [] true zeroMetrics []
        = some (runResult none (runDeferred envNeverAvailable true s2)) ∧
      (runDeferred envNeverAvailable true s2).metrics.updateView = zeroMetrics.updateView) ∧
    (∃ s2, waitForCRPAvailable envFleetSizeFails (crpPrefix ++ envFleetSizeFails.randCrp)
        (toString (1 : Int)) "0" [] envFleetSizeFails.applyEvents
        (applyEntryState envFleetSizeFails true zeroMetrics []) = some (("", []), s2) ∧
      ∃ r, MeasureOnePlacement envFleetSizeFails 1 [] true zeroMetrics [] = some r ∧
        Effect.deleteTestManifests (nsPrefix ++ envFleetSizeFails.randNs) ∈ r.trace) :=
  ⟨⟨_, rfl,
      ((fleetSize_zero_is_the_abort_sentinel envNeverAvailable 1 [] true zeroMetrics []
        "0" [] _ (fun _ => rfl) rfl rfl rfl).1 rfl).1,
      ((fleetSize_zero_is_the_abort_sentinel envNeverAvailable 1 [] true zeroMetrics []
        "0" [] _ (fun _ => rfl) rfl rfl rfl).1 rfl).2.1⟩,
    ⟨_, rfl, _, rfl,
      (((fleetSize_zero_is_the_abort_sentinel envFleetSizeFails 1 [] true zeroMetrics []
        "" [] _ (fun _ => rfl) rfl rfl rfl).2 (by decide)).2 _ rfl).1 rfl⟩⟩

/-! ## C11: the update latency -/

/-- The loop of `waitForCrpToCompleteUpdate` returns on one iteration of its list: it
is still waiting after the iterations before it, it returns on it whatever follows,
and that iteration is either the deadline case, with the timeout outcome, or the ticker
case of a tick `t`, with the success outcome and the sample `t.now - deletionStartTime`. -/
theorem updateLoop_returning_iter (deletionStartTime : Int) (currency fleetSize : String) :
    ∀ (iters : List UpdateIter) (crp : ClusterResourcePlacement) (s s' : State),
      updateLoop deletionStartTime currency fleetSize iters crp s = some s' →
      ∃ pre it rest, iters = pre ++ it :: rest ∧
        updateLoop deletionStartTime currency fleetSize pre crp s = none ∧
        updateLoop deletionStartTime currency fleetSize (pre ++ [it]) crp s = some s' ∧
        ((it.sel = PollEvent.deadline ∧
            s'.metrics = (recordUpdateTimeout currency fleetSize s).metrics) ∨
          (∃ t, it.sel = PollEvent.tick t ∧
            s'.metrics
              = (recordUpdateSuccess currency fleetSize (t.now - deletionStartTime) s).metrics)) := by
  intro iters
  induction iters with
  | nil => intro crp s s' h; simp [updateLoop] at h
  | cons it rest ih =>
    intro crp s s' h
    obtain ⟨top, sel⟩ := it
    have hm := afterTopFetch_metrics top s
    have hcont : ∀ (crp1 : ClusterResourcePlacement) (s1 : State), s1.metrics = s.metrics →
        (∀ xs, updateLoop deletionStartTime currency fleetSize
            (({ top := top, sel := sel } : UpdateIter) :: xs) crp s
          = updateLoop deletionStartTime currency fleetSize xs crp1 s1) →
        updateLoop deletionStartTime currency fleetSize rest crp1 s1 = some s' →
        ∃ pre it rest1, ({ top := top, sel := sel } : UpdateIter) :: rest = pre ++ it :: rest1 ∧
          updateLoop deletionStartTime currency fleetSize pre crp s = none ∧
          updateLoop deletionStartTime currency fleetSize (pre ++ [it]) crp s = some s' ∧
          ((it.sel = PollEvent.deadline ∧
              s'.metrics = (recordUpdateTimeout currency fleetSize s).metrics) ∨
            (∃ t, it.sel = PollEvent.tick t ∧
              s'.metrics
                = (recordUpdateSuccess currency fleetSize (t.now - deletionStartTime)
                    s).metrics)) := by
      intro crp1 s1 hm1 hstep h1
      obtain ⟨pre, it, rest1, hsplit, hnone, hsome, hkind⟩ := ih crp1 s1 s' h1
      refine ⟨{ top := top, sel := sel } :: pre, it, rest1, by rw [hsplit]; rfl, ?_, ?_, ?_⟩
      · rw [hstep pre]; exact hnone
      · rw [List.cons_append, hstep (pre ++ [it])]; exact hsome
      · rcases hkind with ⟨hd, hk⟩ | ⟨t, ht, hk⟩
        · left
          refine ⟨hd, ?_⟩
          rw [hk]
          simp [recordUpdateTimeout, hm1]
        · right
          refine ⟨t, ht, ?_⟩
          rw [hk]
          simp [recordUpdateSuccess, hm1]
    cases sel with
    | deadline =>
      simp only [updateLoop, Option.some.injEq] at h
      refine ⟨[], { top := top, sel := PollEvent.deadline }, rest, rfl, rfl, ?_, Or.inl ⟨rfl, ?_⟩⟩
      · simp only [List.nil_append, updateLoop]
        rw [h]
      · rw [← h]
        simp [recordUpdateTimeout, State.logLine, State.emit, hm]
    | tick t =>
      cases hf : t.fetch with
      | none =>
        simp only [updateLoop, hf] at h
        exact hcont _ _ (by simp [State.logLine, State.emit, hm])
          (fun xs => by simp only [updateLoop, hf]) h
      | some crp2 =>
        simp only [updateLoop, hf] at h
        split at h
        · rename_i hc
          simp only [Option.some.injEq] at h
          refine ⟨[], { top := top, sel := PollEvent.tick t }, rest, rfl, rfl, ?_,
            Or.inr ⟨t, rfl, ?_⟩⟩
          · simp only [List.nil_append, updateLoop, hf, hc, if_true]
            rw [h]
          · rw [← h]
            simp [recordUpdateSuccess, State.logLine, State.emit, hm]
        · rename_i hc
          split at h
          · rename_i hc2
            exact hcont _ _ (by simp [State.logLine, State.emit, hm])
              (fun xs => by simp only [updateLoop, hf, hc, hc2, Bool.false_eq_true, if_true, if_false]) h
          · rename_i hc2
            exact hcont _ _ (by simp [State.logLine, State.emit, hm])
              (fun xs => by simp only [updateLoop, hf, hc, hc2, Bool.false_eq_true, if_false]) h

/-- Lines 130-145 record an update success only with auxiliary resources, in
`waitForCrpToCompleteUpdate`, entered on a state `sU` whose trace holds the clock
reading of line 130 before the call of `deleteTestManifests`; the loop returns on the
ticker case of one iteration, and the sample is the reading of that tick minus
`env.deletionStartTime`. -/
theorem mutateAndVerify_success (env : Env) (crpName nsName currency fleetSize : String)
    (cn : ClusterNames) (u : Bool) (s : State) (e : Option Err) (s' : State)
    (h : mutateAndVerify env crpName nsName currency fleetSize cn u s = some (e, s'))
    (hne : s'.metrics.updateSuccessCount ≠ s.metrics.updateSuccessCount) :
    ∃ sU pre it rest t,
      u = true ∧
      (∃ mid, sU.trace = mid ++ Effect.deleteTestManifests nsName ::
        Effect.log Log.removeNamespacedResources :: Effect.timeNow env.deletionStartTime ::
          s.trace) ∧
      env.updateEvents = pre ++ it :: rest ∧ it.sel = PollEvent.tick t ∧
      waitForCrpToCompleteUpdate env.deletionStartTime currency fleetSize pre sU = none ∧
      (∃ s3, waitForCrpToCompleteUpdate env.deletionStartTime currency fleetSize
          (pre ++ [it]) sU = some s3 ∧ s'.metrics = s3.metrics) ∧
      (∃ late, s'.trace = late ++ sU.trace) ∧
      s'.metrics
        = (recordUpdateSuccess currency fleetSize (t.now - env.deletionStartTime) s).metrics := by
  unfold mutateAndVerify at h
  cases u with
  | false =>
    simp only [Bool.false_eq_true, if_false, Option.some.injEq] at h
    have h1 := finalDelete_metrics env crpName (s.emit (Effect.timeNow env.deletionStartTime))
    rw [h] at h1
    simp only at h1
    exact absurd (by rw [h1]; rfl) hne
  | true =>
    simp only [if_true] at h
    cases hd : env.deleteTestManifests with
    | some err =>
      simp only [hd, Option.some.injEq, Prod.mk.injEq] at h
      obtain ⟨_, h2⟩ := h
      exact absurd (by rw [← h2]; rfl) hne
    | none =>
      simp only [hd] at h
      cases hr : resourcesDeletedCheck env crpName cn env.removalEvents
          (((s.emit (Effect.timeNow env.deletionStartTime)).logLine
            Log.removeNamespacedResources).emit (Effect.deleteTestManifests nsName)) with
      | none => simp [hr] at h
      | some s2 =>
        simp only [hr] at h
        cases hu : waitForCrpToCompleteUpdate env.deletionStartTime currency fleetSize
            env.updateEvents (s2.logLine Log.verifyUpdated) with
        | none => simp [hu] at h
        | some s3 =>
          simp only [hu, Option.some.injEq] at h
          have h1 := finalDelete_metrics env crpName s3
          have h2 := finalDelete_trace env crpName s3
          rw [h] at h1 h2
          simp only at h1 h2
          obtain ⟨hm2, _, l2, ht2⟩ := resourcesDeletedCheck_frame env crpName cn _ _ s2 hr
          have hm2' : s2.metrics = s.metrics := hm2
          obtain ⟨_, ⟨l3, ht3⟩, _⟩ := updateLoop_frame _ _ _ _ _ _ s3 hu
          obtain ⟨pre, it, rest, hsplit, hnone, hsome, hkind⟩ :=
            updateLoop_returning_iter _ _ _ _ _ _ s3 hu
          rcases hkind with ⟨_, hk⟩ | ⟨t, ht, hk⟩
          · refine absurd ?_ hne
            rw [h1, hk]
            simp [recordUpdateTimeout, State.logLine, State.emit, hm2']
          · refine ⟨s2.logLine Log.verifyUpdated, pre, it, rest, t, rfl,
              ⟨Effect.log Log.verifyUpdated :: l2.map Effect.log, ?_⟩, hsplit, ht, hnone,
              ⟨s3, hsome, h1⟩, ⟨Effect.hubDelete crpName :: l3.map Effect.log, ?_⟩, ?_⟩
            · simp [State.logLine, State.emit, ht2]
            · rw [h2, ht3]; rfl
            · rw [h1, hk]
              simp [recordUpdateSuccess, State.logLine, State.emit, hm2']

/-- Lines 116-145 record an update success only after Create succeeded and
`waitForCRPAvailable` returned a fleet size other than `"0"`, in lines 130-145. -/
theorem createAndMeasure_success (env : Env) (crpName nsName currency : String)
    (cn : ClusterNames) (u : Bool) (s : State) (e : Option Err) (s' : State)
    (h : createAndMeasure env crpName nsName currency cn u s = some (e, s'))
    (hne : s'.metrics.updateSuccessCount ≠ s.metrics.updateSuccessCount) :
    ∃ fs cn1 s2, env.create = none ∧
      waitForCRPAvailable env crpName currency "0" cn env.applyEvents
          { metrics := { s.metrics with crpCount := inc32 s.metrics.crpCount }
            store := crpName :: s.store
            trace := Effect.log Log.verifyApplied :: Effect.hubCreate crpName :: s.trace }
        = some ((fs, cn1), s2) ∧
      fs ≠ "0" ∧ s2.metrics.updateView = s.metrics.updateView ∧
      mutateAndVerify env crpName nsName currency fs cn1 u s2 = some (e, s') := by
  unfold createAndMeasure at h
  cases hc : env.create with
  | some err =>
    simp only [hc, Option.some.injEq, Prod.mk.injEq] at h
    obtain ⟨_, h2⟩ := h
    exact absurd (by rw [← h2]; rfl) hne
  | none =>
    simp only [hc] at h
    split at h
    · simp at h
    · rename_i fs1 cn1 s2 hw
      have hv := waitForCRPAvailable_updateView _ _ _ _ _ _ _ _ _ hw
      have hv' : s2.metrics.updateView = s.metrics.updateView := hv
      split at h
      · simp only [Option.some.injEq, Prod.mk.injEq] at h
        obtain ⟨_, h2⟩ := h
        refine absurd ?_ hne
        rw [← h2]
        simp only [Metrics.updateView, Prod.mk.injEq] at hv'
        exact hv'.1
      · rename_i hz
        exact ⟨fs1, cn1, s2, rfl, hw, hz, hv', h⟩

theorem createPlacementAndMeasure_success (env : Env) (crpName nsName currency : String)
    (cn : ClusterNames) (u : Bool) (s : State) (e : Option Err) (s' : State)
    (h : createPlacementAndMeasure env crpName nsName currency cn u s = some (e, s'))
    (hne : s'.metrics.updateSuccessCount ≠ s.metrics.updateSuccessCount) :
    ∃ fs cn1 s2 s1, env.createCRP = none ∧ env.create = none ∧
      waitForCRPAvailable env crpName currency "0" cn env.applyEvents
          { metrics := { s.metrics with crpCount := inc32 s.metrics.crpCount }
            store := crpName :: s.store
            trace := Effect.log Log.verifyApplied :: Effect.hubCreate crpName ::
              Effect.createCRP crpName :: Effect.log Log.createPlacement :: s.trace }
        = some ((fs, cn1), s2) ∧
      fs ≠ "0" ∧ s2.metrics.updateView = s.metrics.updateView ∧
      mutateAndVerify env crpName nsName currency fs cn1 u s2 = some (e, s1) ∧
      s' = deferredDelete crpName s1 := by
  unfold createPlacementAndMeasure at h
  cases hc : env.createCRP with
  | some err =>
    simp only [hc, Option.some.injEq, Prod.mk.injEq] at h
    obtain ⟨_, h2⟩ := h
    exact absurd (by rw [← h2]; rfl) hne
  | none =>
    simp only [hc, Option.map_eq_some'] at h
    obtain ⟨⟨e1, s1⟩, h1, h2⟩ := h
    simp only [Prod.mk.injEq] at h2
    obtain ⟨h2, h3⟩ := h2
    have hne1 : s1.metrics.updateSuccessCount ≠ s.metrics.updateSuccessCount := by
      intro hcon
      apply hne
      rw [← h3]
      exact hcon
    have h4 := createAndMeasure_success _ _ _ _ _ _ _ _ _ h1 hne1
    obtain ⟨fs, cn1, s2, hcreate, hw, hz, hv, hmut⟩ := h4
    exact ⟨fs, cn1, s2, s1, rfl, hcreate, hw, hz, hv, h2 ▸ hmut, h3.symm⟩

/-- A run that records an update success is a run whose setup succeeded and whose
apply phase returned a fleet size other than `"0"`; its result is that of lines
130-145 on what the apply phase returned, followed by the deferred calls. -/
theorem MeasureOnePlacement_success_path (env : Env) (maxCurrentPlacement : Int)
    (clusterNames : ClusterNames) (useTestResources : Bool) (m : Metrics)
    (store : List String) (r : RunResult)
    (h : MeasureOnePlacement env maxCurrentPlacement clusterNames useTestResources m store
      = some r)
    (hne : r.metrics.updateSuccessCount ≠ m.updateSuccessCount) :
    ∃ fs cn1 s2 e s1,
      waitForCRPAvailable env (crpPrefix ++ env.randCrp) (toString maxCurrentPlacement) "0"
          clusterNames env.applyEvents (applyEntryState env useTestResources m store)
        = some ((fs, cn1), s2) ∧
      fs ≠ "0" ∧ s2.metrics.updateView = m.updateView ∧
      mutateAndVerify env (crpPrefix ++ env.randCrp) (nsPrefix ++ env.randNs)
          (toString maxCurrentPlacement) fs cn1 useTestResources s2 = some (e, s1) ∧
      r = runResult e (runDeferred env useTestResources s1) := by
  unfold MeasureOnePlacement at h
  cases useTestResources with
  | false =>
    simp only [Bool.false_eq_true, if_false, Option.map_eq_some'] at h
    obtain ⟨⟨e1, s1⟩, h1, h2⟩ := h
    have hne1 : s1.metrics.updateSuccessCount ≠ m.updateSuccessCount := by
      intro hcon
      apply hne
      rw [← h2]
      exact hcon
    have h4 := createPlacementAndMeasure_success _ _ _ _ _ _ _ _ _ h1 hne1
    obtain ⟨fs, cn1, s2, s1', _, _, hw, hz, hv, hmut, hs⟩ := h4
    refine ⟨fs, cn1, s2, e1, s1', hw, hz, hv, hmut, ?_⟩
    rw [← h2, hs]
    rfl
  | true =>
    simp only [if_true, Option.map_eq_some'] at h
    obtain ⟨⟨e1, s1⟩, ⟨⟨e2, s2⟩, h1, h1'⟩, h2⟩ := h
    simp only [Prod.mk.injEq] at h1'
    obtain ⟨he, hs1⟩ := h1'
    have hm : s1.metrics = s2.metrics := by
      rw [← hs1]; exact deferredDeleteNamespace_metrics _ _ _
    have hne2 : s2.metrics.updateSuccessCount ≠ m.updateSuccessCount := by
      intro hcon
      apply hne
      rw [← h2]
      simp only [hm]
      exact hcon
    cases ha : env.applyTestManifests with
    | some err =>
      simp only [ha, Option.some.injEq, Prod.mk.injEq] at h1
      obtain ⟨_, h1⟩ := h1
      exact absurd (by rw [← h1]; rfl) hne2
    | none =>
      simp only [ha] at h1
      have h4 := createPlacementAndMeasure_success _ _ _ _ _ _ _ _ _ h1 hne2
      obtain ⟨fs, cn1, s2', s1', _, _, hw, hz, hv, hmut, hs⟩ := h4
      refine ⟨fs, cn1, s2', e2, s1', hw, hz, hv, hmut, ?_⟩
      rw [← h2, ← hs1, ← he, hs]
      simp [runResult, runDeferred]

/-- C11 (scenario C): whenever `waitForCrpToCompleteUpdate` records an update success,
its list of iterations splits at the iteration on which the loop returns (the loop is
still waiting after the iterations before it and returns on it), that iteration is the
ticker case of a tick `t`, and the loop records exactly one "succeed" outcome and
exactly one latency sample, the clock reading of `t` minus the `deletionStartTime` it
was given.  In a run that records an update success, the `deletionStartTime` given is
the reading `env.deletionStartTime` of line 130: the trace of the run holds that
reading after the trace with which the apply phase returned and before the call of
`deleteTestManifests`, and the one update sample of the run is the reading of the tick
on which the update loop returns minus that reading, whatever the reading
`env.startTime` of the apply loop.  A run that records no update success records no
update sample. -/
theorem update_latency_from_deletionStartTime (env : Env) (maxCurrentPlacement : Int)
    (clusterNames : ClusterNames) (useTestResources : Bool) (m : Metrics)
    (store : List String) (r : RunResult)
    (h : MeasureOnePlacement env maxCurrentPlacement clusterNames useTestResources m store
      = some r) :
    (∀ (deletionStartTime : Int) (currency fleetSize : String) (iters : List UpdateIter)
      (s s' : State),
      waitForCrpToCompleteUpdate deletionStartTime currency fleetSize iters s = some s' →
      s'.metrics.updateSuccessCount ≠ s.metrics.updateSuccessCount →
      ∃ pre it rest t, iters = pre ++ it :: rest ∧ it.sel = PollEvent.tick t ∧
        waitForCrpToCompleteUpdate deletionStartTime currency fleetSize pre s = none ∧
        waitForCrpToCompleteUpdate deletionStartTime currency fleetSize (pre ++ [it]) s
          = some s' ∧
        s'.metrics =
          { s.metrics with
            updateQuantile := (t.now - deletionStartTime) :: s.metrics.updateQuantile
            UpdateLatencyCountMetric :=
              (currency, fleetSize, t.now - deletionStartTime) ::
                s.metrics.UpdateLatencyCountMetric
            LoadTestUpdateCountMetric :=
              (currency, fleetSize, "succeed") :: s.metrics.LoadTestUpdateCountMetric
            updateSuccessCount := inc32 s.metrics.updateSuccessCount }) ∧
    (r.metrics.updateSuccessCount ≠ m.updateSuccessCount →
      ∃ fs cn1 s2 sU pre it rest t,
        waitForCRPAvailable env (crpPrefix ++ env.randCrp) (toString maxCurrentPlacement) "0"
            clusterNames env.applyEvents (applyEntryState env useTestResources m store)
          = some ((fs, cn1), s2) ∧
        (∃ mid, sU.trace = mid ++ Effect.deleteTestManifests (nsPrefix ++ env.randNs) ::
          Effect.log Log.removeNamespacedResources ::
            Effect.timeNow env.deletionStartTime :: s2.trace) ∧
        (∃ late, r.trace = late ++ sU.trace) ∧
        env.updateEvents = pre ++ it :: rest ∧ it.sel = PollEvent.tick t ∧
        waitForCrpToCompleteUpdate env.deletionStartTime (toString maxCurrentPlacement) fs
          pre sU = none ∧
        (∃ s3, waitForCrpToCompleteUpdate env.deletionStartTime
            (toString maxCurrentPlacement) fs (pre ++ [it]) sU = some s3 ∧
          r.metrics = s3.metrics) ∧
        r.metrics.updateQuantile = (t.now - env.deletionStartTime) :: m.updateQuantile ∧
        r.metrics.UpdateLatencyCountMetric =
          (toString maxCurrentPlacement, fs, t.now - env.deletionStartTime) ::
            m.UpdateLatencyCountMetric ∧
        r.metrics.LoadTestUpdateCountMetric =
          (toString maxCurrentPlacement, fs, "succeed") :: m.LoadTestUpdateCountMetric ∧
        r.metrics.updateSuccessCount = inc32 m.updateSuccessCount ∧
        r.metrics.updateFailCount = m.updateFailCount ∧
        r.metrics.updateTimeoutCount = m.updateTimeoutCount) ∧
    (r.metrics.updateSuccessCount = m.updateSuccessCount →
      r.metrics.updateQuantile = m.updateQuantile ∧
      r.metrics.UpdateLatencyCountMetric = m.UpdateLatencyCountMetric) := by
  refine ⟨?_, ?_, ?_⟩
  · intro deletionStartTime currency fleetSize iters s s' hu hne
    obtain ⟨pre, it, rest, hsplit, hnone, hsome, hkind⟩ :=
      updateLoop_returning_iter deletionStartTime currency fleetSize iters zeroCRP s s' hu
    rcases hkind with ⟨_, hk⟩ | ⟨t, ht, hk⟩
    · exact absurd (by rw [hk]; rfl) hne
    · exact ⟨pre, it, rest, t, hsplit, ht, hnone, hsome, hk⟩
  · intro hne
    obtain ⟨fs, cn1, s2, e, s1, hw, _, hv, hmut, hr⟩ :=
      MeasureOnePlacement_success_path env maxCurrentPlacement clusterNames useTestResources
        m store r h hne
    have hrm : r.metrics = s1.metrics := by
      rw [hr]; exact runDeferred_metrics env useTestResources s1
    obtain ⟨later, hlater, _⟩ := runDeferred_trace env useTestResources s1
    have hrt : r.trace = later ++ s1.trace := by rw [hr]; exact hlater
    simp only [Metrics.updateView, Prod.mk.injEq] at hv
    obtain ⟨hv1, hv2, hv3, hv4, hv5, hv6⟩ := hv
    have hne1 : s1.metrics.updateSuccessCount ≠ s2.metrics.updateSuccessCount := by
      rw [← hrm, hv1]; exact hne
    obtain ⟨sU, pre, it, rest, t, _, hmid, hsplit, ht, hnone, ⟨s3, hsome, hs3⟩, ⟨late, hlate⟩,
      hk⟩ := mutateAndVerify_success _ _ _ _ _ _ _ _ _ _ hmut hne1
    refine ⟨fs, cn1, s2, sU, pre, it, rest, t, hw, hmid,
      ⟨later ++ late, by rw [hrt, hlate, List.append_assoc]⟩, hsplit, ht, hnone,
      ⟨s3, hsome, hrm.trans hs3⟩, ?_, ?_, ?_, ?_, ?_, ?_⟩
    · rw [hrm, hk, ← hv5]; rfl
    · rw [hrm, hk, ← hv6]; rfl
    · rw [hrm, hk, ← hv4]; rfl
    · rw [hrm, hk, ← hv1]; rfl
    · rw [hrm, hk, ← hv2]; rfl
    · rw [hrm, hk, ← hv3]; rfl
  · intro heq
    rcases MeasureOnePlacement_metrics env maxCurrentPlacement clusterNames useTestResources
      m store r h with ⟨_, h2, h3⟩ | ⟨fs, s2, hv, it, hmem, t, hsel, h1⟩
    · exact ⟨h2, h3⟩
    · simp only [Metrics.updateView, Prod.mk.injEq] at hv
      have hc : r.metrics.updateSuccessCount = inc32 m.updateSuccessCount := by
        rw [h1, ← hv.1]; rfl
      rw [hc] at heq
      exact absurd heq (inc32_ne_self _)

/-- C11 at the run of `envUpdateSucceeds`: the apply loop starts at reading 0, the
deletion starts at reading 6, the update loop is still waiting after its first tick,
which reads 10, and returns on its second tick, which reads 12; the one update sample
is 6. -/
theorem update_latency_from_deletionStartTime_witness :
    ∃ r, MeasureOnePlacement envUpdateSucceeds 1 [] true zeroMetrics [] = some r ∧
      r.metrics.updateQuantile = [6] ∧
      r.metrics.UpdateLatencyCountMetric = [("1", "1", 6)] ∧
      r.metrics.LoadTestUpdateCountMetric = [("1", "1", "succeed")] ∧
      r.metrics.updateSuccessCount = 1 ∧
      Effect.timeNow 6 ∈ r.trace ∧
      (∀ s : State, waitForCrpToCompleteUpdate 6 "1" "1"
        (envUpdateSucceeds.updateEvents.take 1) s = none) ∧
      ∃ fs cn1 s2 sU pre it rest t,
        waitForCRPAvailable envUpdateSucceeds (crpPrefix ++ envUpdateSucceeds.randCrp)
            (toString (1 : Int)) "0" [] envUpdateSucceeds.applyEvents
            (applyEntryState envUpdateSucceeds true zeroMetrics [])
          = some ((fs, cn1), s2) ∧
        (∃ mid, sU.trace = mid ++
          Effect.deleteTestManifests (nsPrefix ++ envUpdateSucceeds.randNs) ::
            Effect.log Log.removeNamespacedResources ::
              Effect.timeNow envUpdateSucceeds.deletionStartTime :: s2.trace) ∧
        (∃ late, r.trace = late ++ sU.trace) ∧
        envUpdateSucceeds.updateEvents = pre ++ it :: rest ∧ it.sel = PollEvent.tick t ∧
        waitForCrpToCompleteUpdate envUpdateSucceeds.deletionStartTime (toString (1 : Int)) fs
          pre sU = none ∧
        (∃ s3, waitForCrpToCompleteUpdate envUpdateSucceeds.deletionStartTime
            (toString (1 : Int)) fs (pre ++ [it]) sU = some s3 ∧
          r.metrics = s3.metrics) ∧
        r.metrics.updateQuantile
          = (t.now - envUpdateSucceeds.deletionStartTime) :: zeroMetrics.updateQuantile ∧
        r.metrics.UpdateLatencyCountMetric =
          (toString (1 : Int), fs, t.now - envUpdateSucceeds.deletionStartTime) ::
            zeroMetrics.UpdateLatencyCountMetric ∧
        r.metrics.LoadTestUpdateCountMetric =
          (toString (1 : Int), fs, "succeed") :: zeroMetrics.LoadTestUpdateCountMetric ∧
        r.metrics.updateSuccessCount = inc32 zeroMetrics.updateSuccessCount ∧
        r.metrics.updateFailCount = zeroMetrics.updateFailCount ∧
        r.metrics.updateTimeoutCount = zeroMetrics.updateTimeoutCount :=
  ⟨_, rfl, by decide, by decide, by decide, by decide, by decide, fun _ => rfl,
    (update_latency_from_deletionStartTime envUpdateSucceeds 1 [] true zeroMetrics [] _
      rfl).2.1 (by decide)⟩

end LoadTest

namespace CrdInstaller

/-! ## C12: the file name classifiers -/

theorem isMemberCRD_iff (f : String) :
    isMemberCRD f = true ↔ f = "placement.kubernetes-fleet.io_appliedworks.yaml" := by
  simp [isMemberCRD, memberCRDs]

/-- C12: no file name is both a hub CRD and a member CRD; the hub CRD file of the
placements is not a member CRD, the member CRD file of the applied works is not a hub
CRD, and a file name in neither list, such as `some-other-crd.yaml`, is rejected by
both classifiers. -/
theorem crd_classifiers_disjoint :
    (∀ f : String, ¬ (isHubCRD f = true ∧ isMemberCRD f = true)) ∧
    isHubCRD "placement.kubernetes-fleet.io_clusterresourceplacements.yaml" = true ∧
    isMemberCRD "placement.kubernetes-fleet.io_clusterresourceplacements.yaml" = false ∧
    isMemberCRD "placement.kubernetes-fleet.io_appliedworks.yaml" = true ∧
    isHubCRD "placement.kubernetes-fleet.io_appliedworks.yaml" = false ∧
    (∀ f : String, f ∉ hubCRDs → f ∉ memberCRDs →
      isHubCRD f = false ∧ isMemberCRD f = false) ∧
    isHubCRD "some-other-crd.yaml" = false ∧ isMemberCRD "some-other-crd.yaml" = false := by
  refine ⟨?_, by decide, by decide, by decide, by decide, ?_, by decide, by decide⟩
  · rintro f ⟨hh, hm⟩
    rw [(isMemberCRD_iff f).mp hm] at hh
    exact absurd hh (by decide)
  · intro f hh hm
    constructor
    · simpa [isHubCRD] using hh
    · simpa [isMemberCRD] using hm

/-! ## C13: `installCRDs` by mode -/

theorem mem_setInsert (set : List String) (path x : String) :
    x ∈ setInsert set path ↔ x ∈ set ∨ x = path := by
  unfold setInsert
  by_cases h : path ∈ set
  · have hc : set.contains path = true := by simpa using h
    simp only [hc, if_true]
    constructor
    · exact Or.inl
    · rintro (h1 | h1)
      · exact h1
      · rw [h1]; exact h
  · have hc : set.contains path = false := by simpa using h
    simp only [hc, Bool.false_eq_true, if_false, List.mem_append, List.mem_singleton]

/-- In a mode other than `"hub"` and `"member"` a walk without error adds nothing to
the set. -/
theorem collectCRDFiles_unknown_mode (mode : String) (h1 : mode ≠ "hub")
    (h2 : mode ≠ "member") :
    ∀ (entries : List WalkEntry) (set : List String), (∀ d ∈ entries, d.err = none) →
      collectCRDFiles mode entries set = Except.ok set := by
  intro entries
  induction entries with
  | nil => intro set _; rfl
  | cons d rest ih =>
    intro set hw
    have hd : d.err = none := hw d (List.mem_cons_self _ _)
    have hrest := ih set (fun e he => hw e (List.mem_cons_of_mem _ he))
    unfold collectCRDFiles
    simp only [hd, h1, h2, if_false]
    split
    · exact hrest
    · split
      · exact hrest
      · exact hrest

/-- A walk without error returns a set: it holds the paths it was given and the paths
of the files with a YAML extension that the mode selects, and nothing else. -/
theorem collectCRDFiles_ok (mode : String) :
    ∀ (entries : List WalkEntry) (set : List String), (∀ d ∈ entries, d.err = none) →
      ∃ out, collectCRDFiles mode entries set = Except.ok out ∧
        (∀ p, p ∈ out ↔ p ∈ set ∨ ∃ d ∈ entries, d.path = p ∧ d.isDir = false ∧
          (filepathExt d.path = ".yaml" ∨ filepathExt d.path = ".yml") ∧
          selectedBy mode (filepathBase d.path) = true) := by
  intro entries
  induction entries with
  | nil => intro set _; exact ⟨set, rfl, by simp⟩
  | cons d rest ih =>
    intro set hw
    have hd : d.err = none := hw d (List.mem_cons_self _ _)
    have hrest : ∀ e ∈ rest, e.err = none := fun e he => hw e (List.mem_cons_of_mem _ he)
    by_cases hsel : d.isDir = false ∧
        (filepathExt d.path = ".yaml" ∨ filepathExt d.path = ".yml") ∧
        selectedBy mode (filepathBase d.path) = true
    · obtain ⟨out, ho, hmem⟩ := ih (setInsert set d.path) hrest
      refine ⟨out, ?_, ?_⟩
      · rw [← ho]
        obtain ⟨hdir, hext, hs⟩ := hsel
        have hext' : (filepathExt d.path != ".yaml" && filepathExt d.path != ".yml") = false := by
          rcases hext with h | h <;> simp [h]
        unfold selectedBy at hs
        by_cases hm : mode = "hub"
        · have hh : isHubCRD (filepathBase d.path) = true := by simpa [hm] using hs
          conv => lhs; unfold collectCRDFiles
          simp [hd, hdir, hext', hm, hh]
        · by_cases hm2 : mode = "member"
          · have hh : isMemberCRD (filepathBase d.path) = true := by simpa [hm2] using hs
            conv => lhs; unfold collectCRDFiles
            simp [hd, hdir, hext', hm2, hh]
          · simp [hm, hm2] at hs
      · intro p
        rw [hmem p, mem_setInsert]
        constructor
        · rintro ((h | h) | ⟨e, he, h⟩)
          · exact Or.inl h
          · exact Or.inr ⟨d, List.mem_cons_self _ _, h.symm, hsel⟩
          · exact Or.inr ⟨e, List.mem_cons_of_mem _ he, h⟩
        · rintro (h | ⟨e, he, h⟩)
          · exact Or.inl (Or.inl h)
          · rcases List.mem_cons.mp he with h1 | h1
            · subst h1; exact Or.inl (Or.inr h.1.symm)
            · exact Or.inr ⟨e, h1, h⟩
    · obtain ⟨out, ho, hmem⟩ := ih set hrest
      refine ⟨out, ?_, ?_⟩
      · rw [← ho]
        conv => lhs; unfold collectCRDFiles
        simp only [hd]
        by_cases hdir : d.isDir = true
        · simp [hdir]
        · have hdir' : d.isDir = false := by simpa using hdir
          simp only [hdir', Bool.false_eq_true, if_false]
          split
          · rfl
          · rename_i hext
            have hext' : filepathExt d.path = ".yaml" ∨ filepathExt d.path = ".yml" := by
              by_contra hcon
              push_neg at hcon
              exact hext (by simp [hcon.1, hcon.2])
            have hns : selectedBy mode (filepathBase d.path) = false := by
              by_contra hcon
              exact hsel ⟨hdir', hext', by simpa using hcon⟩
            unfold selectedBy at hns
            by_cases hm : mode = "hub"
            · have hh : isHubCRD (filepathBase d.path) = false := by simpa [hm] using hns
              simp [hm, hh]
            · by_cases hm2 : mode = "member"
              · have hh : isMemberCRD (filepathBase d.path) = false := by
                  simpa [hm2] using hns
                simp [hm2, hh]
              · simp [hm, hm2]
      · intro p
        rw [hmem p]
        constructor
        · rintro (h | ⟨e, he, h⟩)
          · exact Or.inl h
          · exact Or.inr ⟨e, List.mem_cons_of_mem _ he, h⟩
        · rintro (h | ⟨e, he, h⟩)
          · exact Or.inl h
          · rcases List.mem_cons.mp he with h1 | h1
            · subst h1; exact absurd h.2 hsel
            · exact Or.inr ⟨e, h1, h⟩

theorem installOne_accepted (env : InstallEnv) (path : String)
    (h : clientAccepts env path = true) : (installOne env path).1 = none := by
  unfold clientAccepts at h
  unfold installOne
  cases hr : env.readFile path with
  | error err => simp [hr] at h
  | ok crdBytes =>
    simp only [hr] at h ⊢
    cases hu : env.unmarshal crdBytes with
    | error err => simp [hu] at h
    | ok crd =>
      simp only [hu] at h ⊢
      cases hc : env.create crd with
      | none => rfl
      | some err =>
        simp only [hc, Bool.and_eq_true] at h ⊢
        obtain ⟨h1, h2⟩ := h
        rw [if_pos h1]
        cases hup : env.update crd with
        | none => rfl
        | some err2 => simp [hup] at h2

theorem installAll_accepted (env : InstallEnv) :
    ∀ paths : List String, (∀ p ∈ paths, clientAccepts env p = true) →
      (installAll env paths).1 = none := by
  intro paths
  induction paths with
  | nil => intro _; rfl
  | cons p rest ih =>
    intro h
    have h1 := installOne_accepted env p (h p (List.mem_cons_self _ _))
    have h2 := ih (fun q hq => h q (List.mem_cons_of_mem _ hq))
    unfold installAll
    rcases hi : installOne env p with ⟨e, calls⟩
    rw [hi] at h1
    simp only at h1
    subst h1
    exact h2

/-- C13, as stated, fails in its second half: the directory of `twoHubCRDsEnv` holds a
hub CRD `.yaml` file that the client accepts, and `installCRDs` in mode `"hub"` still
returns an error, because the client rejects the other hub CRD file of the
directory. -/
theorem installCRDs_hub_error_with_an_accepted_file :
    (∃ d ∈ twoHubCRDsEnv.walkDir "/crds", d.isDir = false ∧ filepathExt d.path = ".yaml" ∧
      isHubCRD (filepathBase d.path) = true ∧ clientAccepts twoHubCRDsEnv d.path = true) ∧
    installCRDs twoHubCRDsEnv "/crds" "hub" false 60
      = (some "failed to create CRD placement.kubernetes-fleet.io_works.yaml: forbidden",
          [ClientCall.create "cluster.kubernetes-fleet.io_memberclusters.yaml",
           ClientCall.create "placement.kubernetes-fleet.io_works.yaml"]) := by
  refine ⟨⟨⟨"/crds/cluster.kubernetes-fleet.io_memberclusters.yaml", false, none⟩,
    by decide, by decide, by decide, by decide, by decide⟩, by decide⟩

/-- C13, amended: on a directory whose walk succeeds, `installCRDs` in a mode other
than `"hub"` and `"member"` returns the "no CRDs found" error and issues no Create or
Update call; in mode `"hub"` (resp. `"member"`), when the directory holds at least one
hub (resp. member) CRD `.yaml` file and the client accepts every hub (resp. member)
CRD file of the directory, it returns nil. -/
theorem installCRDs_by_mode (env : InstallEnv) (crdPath mode : String) (wait : Bool)
    (timeoutSeconds : Int) (hwalk : ∀ d ∈ env.walkDir crdPath, d.err = none) :
    (mode ≠ "hub" → mode ≠ "member" →
      installCRDs env crdPath mode wait timeoutSeconds
        = (some ("no CRDs found for mode " ++ mode ++ " in directory " ++ crdPath), [])) ∧
    ((mode = "hub" ∨ mode = "member") →
      (∃ d ∈ env.walkDir crdPath, d.isDir = false ∧ filepathExt d.path = ".yaml" ∧
        selectedBy mode (filepathBase d.path) = true) →
      (∀ set, ∀ p ∈ env.rangeOrder set, p ∈ set) →
      (∀ d ∈ env.walkDir crdPath, d.isDir = false →
        (filepathExt d.path = ".yaml" ∨ filepathExt d.path = ".yml") →
        selectedBy mode (filepathBase d.path) = true → clientAccepts env d.path = true) →
      (installCRDs env crdPath mode wait timeoutSeconds).1 = none) := by
  refine ⟨fun h1 h2 => ?_, fun _ hex horder hacc => ?_⟩
  · unfold installCRDs
    rw [collectCRDFiles_unknown_mode mode h1 h2 _ [] hwalk]
    rfl
  · obtain ⟨out, ho, hmem⟩ := collectCRDFiles_ok mode (env.walkDir crdPath) [] hwalk
    obtain ⟨d, hd, hdir, hext, hsel⟩ := hex
    have hin : d.path ∈ out := (hmem d.path).mpr (Or.inr ⟨d, hd, rfl, hdir, Or.inl hext, hsel⟩)
    have hlen : out.length ≠ 0 := by
      intro h0
      rw [List.length_eq_zero] at h0
      rw [h0] at hin
      simp at hin
    unfold installCRDs
    rw [ho]
    simp only [hlen, if_false]
    apply installAll_accepted
    intro p hp
    rcases (hmem p).mp (horder out p hp) with h | ⟨e, he, hpath, hedir, heext, hesel⟩
    · simp at h
    · rw [← hpath]
      exact hacc e he hedir heext hesel

/-- The amended C13 at the directory of `TestInstallCRDs`, with a client that accepts
every object: the mode `"invalid"` gives the "no CRDs found" error without a client
call, the modes `"hub"` and `"member"` return nil after one Create each. -/
theorem installCRDs_by_mode_witness :
    installCRDs testDirEnv "/tmp/crd-test" "invalid" false 60
      = (some "no CRDs found for mode invalid in directory /tmp/crd-test", []) ∧
    installCRDs testDirEnv "/tmp/crd-test" "hub" false 60
      = (none, [ClientCall.create "clusterresourceplacements.placement.kubernetes-fleet.io"]) ∧
    installCRDs testDirEnv "/tmp/crd-test" "member" false 60
      = (none, [ClientCall.create "appliedworks.placement.kubernetes-fleet.io"]) ∧
    (installCRDs testDirEnv "/tmp/crd-test" "hub" false 60).1 = none ∧
    (installCRDs testDirEnv "/tmp/crd-test" "member" false 60).1 = none :=
  ⟨((installCRDs_by_mode testDirEnv "/tmp/crd-test" "invalid" false 60 (by decide)).1
      (by decide) (by decide)).trans (by decide),
    by decide, by decide,
    (installCRDs_by_mode testDirEnv "/tmp/crd-test" "hub" false 60 (by decide)).2
      (Or.inl rfl)
      ⟨⟨"/tmp/crd-test/placement.kubernetes-fleet.io_clusterresourceplacements.yaml", false,
        none⟩, by decide, by decide, by decide, by decide⟩
      (fun _ _ hp => hp) (by decide),
    (installCRDs_by_mode testDirEnv "/tmp/crd-test" "member" false 60 (by decide)).2
      (Or.inr rfl)
      ⟨⟨"/tmp/crd-test/placement.kubernetes-fleet.io_appliedworks.yaml", false, none⟩,
        by decide, by decide, by decide, by decide⟩
      (fun _ _ hp => hp) (by decide)⟩

end CrdInstaller
